import Mathlib

/-! # Order service of ceramicraft-order-mservice

A shallow embedding of `server/service/order.go`.  Go's `int` is the 64-bit
two's-complement integer: values are carried as `Int` and every arithmetic
result is wrapped back into the 64-bit range.  The collaborators of
`OrderServiceImpl` (DAOs, RPC clients, message writer) are Go interfaces; they
are embedded as a record of response functions that may depend on the calls
issued so far, and every service operation returns the calls it issued.
-/

namespace OrderService

/-! ## Machine integers -/

/-- Two's-complement wrap of a mathematical integer into Go's 64-bit `int`. -/
def wrapInt (x : Int) : Int := (x + 2 ^ 63) % 2 ^ 64 - 2 ^ 63

/-- Conversion `int32(x)`: two's-complement wrap into 32 bits. -/
def toInt32 (x : Int) : Int := (x + 2 ^ 31) % 2 ^ 32 - 2 ^ 31

/-- The values a Go `int` can hold. -/
def IsInt (x : Int) : Prop := -(2 ^ 63) ≤ x ∧ x < 2 ^ 63

instance (x : Int) : Decidable (IsInt x) := by
  unfold IsInt; infer_instance

/-- Go `a + b` on `int`. -/
def intAdd (a b : Int) : Int := wrapInt (a + b)

/-- Go `a - b` on `int`. -/
def intSub (a b : Int) : Int := wrapInt (a - b)

/-- Go `a * b` on `int`. -/
def intMul (a b : Int) : Int := wrapInt (a * b)

/-- Go `a / b` on `int` for a non-zero constant divisor: truncation toward zero. -/
def intDiv (a b : Int) : Int := wrapInt (Int.tdiv a b)

/-! ## Pricing helpers (`order.go`, lines 293-305) -/

/-- Source: `CalculateShippingFee`. -/
def CalculateShippingFee (total : Int) : Int :=
  if total ≥ 30000 then 0 else 800

/-- Source: `CalculateTax`, `total * 9 / 100`. -/
def CalculateTax (total : Int) : Int :=
  intDiv (intMul total 9) 100

/-! ## Data carried by the service (`types`, `model`, `productpb`, `paymentpb`)

The records list the fields that `order.go` reads or writes. -/

/-- A Go `time.Time`, as an instant on an integer clock. -/
abbrev Time := Int

/-- A Go `error`, identified by its message. -/
abbrev Error := String

/-- Source: `types.OrderItemInfo`, a line item of the request. -/
structure OrderItemInfo where
  ProductID : Int
  ProductName : String
  Quantity : Int
  Price : Int
deriving DecidableEq, Repr

/-- Source: `types.OrderInfo`, the order request.  The elements of
`OrderItemList` are the pointed-to items (no nil element). -/
structure OrderInfo where
  ReceiverFirstName : String
  ReceiverLastName : String
  ReceiverPhone : String
  ReceiverAddress : String
  ReceiverCountry : String
  ReceiverZipCode : Int
  Remark : String
  OrderItemList : List OrderItemInfo
deriving DecidableEq, Repr

/-- Source: `model.Order`, the order row.  Fields that `CreateOrder` leaves at
their zero value are `0`, the empty string or `none`. -/
structure Order where
  OrderNo : String
  UserID : Int
  Status : Int
  TotalAmount : Int
  PayAmount : Int
  ShippingFee : Int
  Tax : Int
  PayTime : Option Time
  CreateTime : Time
  UpdateTime : Time
  DeliveryTime : Option Time
  ConfirmTime : Option Time
  ReceiverFirstName : String
  ReceiverLastName : String
  ReceiverPhone : String
  ReceiverAddress : String
  ReceiverCountry : String
  ReceiverZipCode : Int
  Remark : String
  LogisticsNo : String
deriving DecidableEq, Repr

/-- Source: `model.OrderProduct`, a line-item row.  `ID` is assigned by the
store; `CreateOrder` leaves it at its zero value. -/
structure OrderProduct where
  ID : Int
  OrderNo : String
  ProductID : Int
  ProductName : String
  Price : Int
  Quantity : Int
  TotalPrice : Int
  CreateTime : Time
  UpdateTime : Time
deriving DecidableEq, Repr

/-- Source: `types.OrderMessage`, the payload of `order_created` and
`order_canceled`. -/
structure OrderMessage where
  UserID : Int
  OrderID : String
  ReceiverFirstName : String
  ReceiverLastName : String
  ReceiverPhone : String
  ReceiverAddress : String
  ReceiverCountry : String
  ReceiverZipCode : Int
  Remark : String
  OrderItemList : List OrderItemInfo
deriving DecidableEq, Repr

/-- Source: `types.OrderStatusChangedMessage`, the payload of
`order_status_changed`. -/
structure OrderStatusChangedMessage where
  OrderNo : String
  UserId : Int
  Remark : String
  CurrentStatus : Int
deriving DecidableEq, Repr

/-- Source: `productpb.Product`, as far as `CreateOrder` reads it. -/
structure Product where
  Id : Int
  Stock : Int
deriving DecidableEq, Repr

/-- Source: `paymentpb.PayOrderResponse`; `ErrorMsg` is a `*string`, `none`
being the nil pointer. -/
structure PayOrderResponse where
  Code : Int
  ErrorMsg : Option String
deriving DecidableEq, Repr

/-- Source: `types.OrderNoAndUserId`, an entry of the list returned by
`AutoConfirmShippedOrders`. -/
structure OrderNoAndUserId where
  OrderNo : String
  UserID : Int
deriving DecidableEq, Repr

/-- Source: `model.OrderStatusLog`, a row of the status log. -/
structure OrderStatusLog where
  ID : Int
  OrderNo : String
  UserID : Int
  CurrentStatus : Int
  Remark : String
  CreateTime : Time
deriving DecidableEq, Repr

/-- Source: `types.OrderItemDetail`. -/
structure OrderItemDetail where
  ID : Int
  ProductID : Int
  ProductName : String
  Price : Int
  Quantity : Int
  TotalPrice : Int
  CreateTime : Time
  UpdateTime : Time
deriving DecidableEq, Repr

/-- Source: `types.OrderStatusLogDetail`. -/
structure OrderStatusLogDetail where
  ID : Int
  CurrentStatus : Int
  StatusName : String
  Remark : String
  CreateTime : Time
deriving DecidableEq, Repr

/-- Source: `types.OrderDetail`, the result of `GetOrderDetail`. -/
structure OrderDetail where
  OrderNo : String
  UserID : Int
  Status : Int
  StatusName : String
  TotalAmount : Int
  PayAmount : Int
  ShippingFee : Int
  Tax : Int
  PayTime : Option Time
  CreateTime : Time
  UpdateTime : Time
  DeliveryTime : Option Time
  ConfirmTime : Option Time
  ReceiverFirstName : String
  ReceiverLastName : String
  ReceiverPhone : String
  ReceiverAddress : String
  ReceiverCountry : String
  ReceiverZipCode : Int
  Remark : String
  LogisticsNo : String
  OrderItems : List OrderItemDetail
  StatusLogs : List OrderStatusLogDetail
deriving DecidableEq, Repr

/-- Source: `types.ListOrderRequest`. -/
structure ListOrderRequest where
  UserID : Int
  OrderStatus : Int
  StartTime : Time
  EndTime : Time
  OrderNo : String
  Limit : Int
  Offset : Int
deriving DecidableEq, Repr

/-- Source: `dao.OrderQuery`. -/
structure OrderQuery where
  UserID : Int
  OrderStatus : Int
  StartTime : Time
  EndTime : Time
  OrderNo : String
  Limit : Int
  Offset : Int
deriving DecidableEq, Repr

/-- Source: `types.OrderInfoInList`, an entry of the order list. -/
structure OrderInfoInList where
  OrderNo : String
  ReceiverFirstName : String
  ReceiverLastName : String
  ReceiverPhone : String
  CreateTime : Time
  TotalAmount : Int
  Status : String
deriving DecidableEq, Repr

/-- Source: `types.ListOrderResponse`. -/
structure ListOrderResponse where
  Orders : List OrderInfoInList
  Total : Int
deriving DecidableEq, Repr

/-! ## Status constants (`consts`) -/

/-- Modelled from the spec: the declaration of `consts.CREATED` is not among the
sources; the spec orders the states `Created(1)`, and `CreateOrder` publishes
status `1` with the remark `Created`. -/
def CREATED : Int := 1

/-- Modelled from the spec: the declaration of `consts.PAYED` is not among the
sources; the spec gives `Paid(2)`, and `CreateOrder` publishes status `2` with
the remark `Created --> Paid`. -/
def PAYED : Int := 2

/-- Modelled from the spec: the declaration of `consts.SHIPPED` is not among the
sources; the spec gives `Shipped(3)`. -/
def SHIPPED : Int := 3

/-- Modelled from the spec: the declaration of `consts.DELIVERED` is not among
the sources; the spec gives `Delivered(4)`. -/
def DELIVERED : Int := 4

/-! ## Collaborators and the calls issued to them -/

/-- A call issued by the service to one of its collaborators, with the
arguments it carries (the context argument is left out). -/
inductive Call where
  | GetProductList (ids : List Int)
  | OrderCreate (o : Order)
  | CreateBatch (rows : List OrderProduct)
  | SendMsg (topic key value : String)
  | UpdateStockWithCAS (id deta : Int)
  | PayOrder (userId amount : Int) (bizId : String)
  | UpdateStatusAndPayment (orderNo : String) (status : Int) (payTime : Time)
  | GetByOrderNo (orderNo : String)
  | UpdateStatusAndConfirmTime (orderNo : String) (status : Int) (t : Time)
  | UpdateStatusWithDeliveryInfo (orderNo : String) (status : Int) (t : Time)
      (shippingNo : String)
  | Lock
  | Unlock
  | AutoConfirmShippedOrders (shippedStatus deliveredStatus daysThreshold : Int)
  | GetByOrderQuery (query : OrderQuery)
  | OrderProductGetByOrderNo (orderNo : String)
  | OrderLogGetByOrderNo (orderNo : String)
deriving DecidableEq, Repr

/-- The surroundings of `OrderServiceImpl`: each interface method it calls is a
response function of the calls issued so far and of the arguments.  A `nil`
error is `none`.  `GenerateOrderID`, `time.Now` and `utils.JSONEncode` are
functions of the repository or the runtime that are not among the sources and
are taken as given, as is the value of `consts.CANCELED`. -/
structure Env where
  GetProductList : List Call → List Int → Except Error (List Product)
  OrderCreate : List Call → Order → Option Error
  CreateBatch : List Call → List OrderProduct → Option Error
  SendMsg : List Call → String → String → String → Option Error
  PayOrder : List Call → Int → Int → String → Except Error PayOrderResponse
  UpdateStatusAndPayment : List Call → String → Int → Time → Option Error
  GetByOrderNo : List Call → String → Except Error Order
  UpdateStatusAndConfirmTime : List Call → String → Int → Time → Option Error
  UpdateStatusWithDeliveryInfo : List Call → String → Int → Time → String → Option Error
  GenerateOrderID : List Call → String
  Now : List Call → Time
  JSONEncodeOrderMessage : OrderMessage → String × Option Error
  JSONEncodeStatusMessage : OrderStatusChangedMessage → String × Option Error
  CANCELED : Int
  Lock : List Call → Option Error
  Unlock : List Call → Option Error
  AutoConfirmShippedOrders : List Call → Int → Int → Int → Except Error (List OrderNoAndUserId)
  GetByOrderQuery : List Call → OrderQuery → Except Error (List Order)
  OrderProductGetByOrderNo : List Call → String → Except Error (List OrderProduct)
  OrderLogGetByOrderNo : List Call → String → Except Error (List OrderStatusLog)

/-- How an operation ends: it returns a value, or it panics (nil dereference). -/
inductive Outcome (α : Type) where
  | returned (a : α)
  | panicked
deriving DecidableEq, Repr

/-- One run of an operation: the calls it issued, in order, and how it ended. -/
structure Run (α : Type) where
  calls : List Call
  outcome : Outcome α
deriving DecidableEq, Repr

/-! ## `order.go`: helpers -/

/-- Source: `getOrderMsg`. -/
def getOrderMsg (w : Env) (orderId : String) (orderInfo : OrderInfo) (userId : Int) :
    String × Option Error :=
  w.JSONEncodeOrderMessage
    { UserID := userId
      OrderID := orderId
      ReceiverFirstName := orderInfo.ReceiverFirstName
      ReceiverLastName := orderInfo.ReceiverLastName
      ReceiverPhone := orderInfo.ReceiverPhone
      ReceiverAddress := orderInfo.ReceiverAddress
      ReceiverCountry := orderInfo.ReceiverCountry
      ReceiverZipCode := orderInfo.ReceiverZipCode
      Remark := orderInfo.Remark
      OrderItemList := orderInfo.OrderItemList }

/-- Source: `getOrderStatusChangedMsg`. -/
def getOrderStatusChangedMsg (w : Env) (orderNo : String) (userId : Int) (remark : String)
    (curStatus : Int) : String × Option Error :=
  w.JSONEncodeStatusMessage
    { OrderNo := orderNo, UserId := userId, Remark := remark, CurrentStatus := curStatus }

/-- Source: `getOrderStatusName`; the cases of the `switch` are tried in order. -/
def getOrderStatusName (w : Env) (status : Int) : String :=
  if status = CREATED then "Created"
  else if status = PAYED then "Paid"
  else if status = SHIPPED then "Shipped"
  else if status = DELIVERED then "Delivered"
  else if status = w.CANCELED then "Canceled"
  else "Unknown"

/-- Source: `CreateOrder`, lines 126-129: the map from product id to stock built
from the inventory response.  A later entry for an id overwrites an earlier
one; an id that was never written reads as `0`. -/
def productId2StockMap (products : List Product) : Int → Int :=
  products.foldl (fun m product => fun id => if id = product.Id then product.Stock else m id)
    (fun _ => 0)

/-- Source: `CreateOrder`, lines 131-139: the loop that checks each line item
against the stock map and accumulates `itemTotalAmount`; it stops with the
error at the first item whose quantity exceeds the stock. -/
def checkStock (stock : Int → Int) : List OrderItemInfo → Int → Except Error Int
  | [], itemTotalAmount => .ok itemTotalAmount
  | orderItem :: rest, itemTotalAmount =>
    if orderItem.Quantity > stock orderItem.ProductID then
      .error ("CreateOrder failed, do not have enough stock, product id: "
        ++ toString orderItem.ProductID)
    else
      checkStock stock rest (intAdd itemTotalAmount (intMul orderItem.Price orderItem.Quantity))

/-- Source: `CreateOrder`, lines 150-166: the order row handed to `orderDao.Create`. -/
def newOrder (orderId : String) (userID : Int) (orderInfo : OrderInfo)
    (itemTotalAmount shippingFee tax : Int) (currentTime : Time) : Order :=
  { OrderNo := orderId
    UserID := userID
    Status := CREATED
    TotalAmount := intAdd (intAdd itemTotalAmount shippingFee) tax
    PayAmount := 0
    ShippingFee := shippingFee
    Tax := tax
    PayTime := none
    CreateTime := currentTime
    UpdateTime := currentTime
    DeliveryTime := none
    ConfirmTime := none
    ReceiverFirstName := orderInfo.ReceiverFirstName
    ReceiverLastName := orderInfo.ReceiverLastName
    ReceiverPhone := orderInfo.ReceiverPhone
    ReceiverAddress := orderInfo.ReceiverAddress
    ReceiverCountry := orderInfo.ReceiverCountry
    ReceiverZipCode := orderInfo.ReceiverZipCode
    Remark := orderInfo.Remark
    LogisticsNo := "" }

/-- Source: `CreateOrder`, lines 176-187: the line-item row built for one
request item. -/
def newOrderProduct (orderId : String) (currentTime : Time) (orderItem : OrderItemInfo) :
    OrderProduct :=
  { ID := 0
    OrderNo := orderId
    ProductID := orderItem.ProductID
    ProductName := orderItem.ProductName
    Price := orderItem.Price
    Quantity := orderItem.Quantity
    TotalPrice := intMul orderItem.Price orderItem.Quantity
    CreateTime := currentTime
    UpdateTime := currentTime }

/-- Source: `CreateOrder`, lines 218-223: the stock-decrement call issued for
one line item (its response is discarded). -/
def stockDecrement (orderItem : OrderItemInfo) : Call :=
  Call.UpdateStockWithCAS orderItem.ProductID (intMul (-1) orderItem.Quantity)

/-! ## `order.go`: `CreateOrder` -/

/-- Source: `CreateOrder`, lines 208-263, the part that follows the publication
of `order_created`: status event, stock decrements, payment, and the update to
`PAYED`.  `h` is the list of calls issued before this part. -/
def settleOrder (w : Env) (orderInfo : OrderInfo) (userID : Int) (orderId orderMsg : String)
    (itemTotalAmount shippingFee tax : Int) (h : List Call) : Run (String × Option Error) :=
  let oscMsg := (getOrderStatusChangedMsg w orderId userID "Created" 1).1
  let h1 := h ++ [Call.SendMsg "order_status_changed" orderId oscMsg]
  let h2 := h1 ++ orderInfo.OrderItemList.map stockDecrement
  let userId32 := toInt32 userID
  let amount := toInt32 (intAdd (intAdd itemTotalAmount shippingFee) tax)
  let h3 := h2 ++ [Call.PayOrder userId32 amount orderId]
  let canceled := h3 ++ [Call.SendMsg "order_canceled" orderId orderMsg]
  match w.PayOrder h2 userId32 amount orderId with
  | .error err => ⟨canceled, .returned ("", some err)⟩
  | .ok payResp =>
    if payResp.Code ≠ 0 then
      match payResp.ErrorMsg with
      | none => ⟨canceled, .panicked⟩
      | some errMsg => ⟨canceled, .returned ("", some errMsg)⟩
    else
      let payTime := w.Now h3
      let h4 := h3 ++ [Call.UpdateStatusAndPayment orderId PAYED payTime]
      match w.UpdateStatusAndPayment h3 orderId PAYED payTime with
      | some err => ⟨h4, .returned ("", some err)⟩
      | none =>
        let oscMsgPaid := (getOrderStatusChangedMsg w orderId userID "Created --> Paid" 2).1
        ⟨h4 ++ [Call.SendMsg "order_status_changed" orderId oscMsgPaid],
          .returned (orderId, none)⟩

/-- Source: `OrderServiceImpl.CreateOrder`.  The result pairs the returned order
number with the returned error.  The process-local mutex is not part of the
embedding. -/
def CreateOrder (w : Env) (orderInfo : OrderInfo) (userID : Int) :
    Run (String × Option Error) :=
  let orderItemIds := orderInfo.OrderItemList.map (fun item => item.ProductID)
  let h1 := [Call.GetProductList orderItemIds]
  match w.GetProductList [] orderItemIds with
  | .error err => ⟨h1, .returned ("", some err)⟩
  | .ok products =>
    match checkStock (productId2StockMap products) orderInfo.OrderItemList 0 with
    | .error err => ⟨h1, .returned ("", some err)⟩
    | .ok itemTotalAmount =>
      let shippingFee := CalculateShippingFee itemTotalAmount
      let tax := CalculateTax itemTotalAmount
      let orderId := w.GenerateOrderID h1
      let currentTime := w.Now h1
      let order := newOrder orderId userID orderInfo itemTotalAmount shippingFee tax currentTime
      let h2 := h1 ++ [Call.OrderCreate order]
      match w.OrderCreate h1 order with
      | some err => ⟨h2, .returned ("", some err)⟩
      | none =>
        let orderProductModelList :=
          orderInfo.OrderItemList.map (newOrderProduct orderId currentTime)
        let h3 := h2 ++ [Call.CreateBatch orderProductModelList]
        match w.CreateBatch h2 orderProductModelList with
        | some err => ⟨h3, .returned ("", some err)⟩
        | none =>
          match getOrderMsg w orderId orderInfo userID with
          | (_, some err) => ⟨h3, .returned ("", some err)⟩
          | (orderMsg, none) =>
            let h4 := h3 ++ [Call.SendMsg "order_created" orderId orderMsg]
            match w.SendMsg h3 "order_created" orderId orderMsg with
            | some err => ⟨h4, .returned ("", some err)⟩
            | none =>
              settleOrder w orderInfo userID orderId orderMsg itemTotalAmount shippingFee tax h4

/-! ## `order.go`: `UpdateOrderStatus` -/

/-- Source: `OrderServiceImpl.UpdateOrderStatus`.  The result is the returned
error (`none` for `nil`).  The process-local mutex is not part of the
embedding. -/
def UpdateOrderStatus (w : Env) (orderNo : String) (newStatus : Int) (shippingNo : String) :
    Run (Option Error) :=
  let h1 := [Call.GetByOrderNo orderNo]
  match w.GetByOrderNo [] orderNo with
  | .error err => ⟨h1, .returned (some err)⟩
  | .ok orderInfo =>
    let oldStatus := orderInfo.Status
    if oldStatus ≠ intSub newStatus 1 then
      ⟨h1, .returned (some ("UpdateOrderStatus: Invalid status, cur: "
        ++ toString orderInfo.Status ++ ", next: " ++ toString newStatus))⟩
    else
      let publish (h : List Call) : Run (Option Error) :=
        let statusChangeRemark :=
          getOrderStatusName w oldStatus ++ " --> " ++ getOrderStatusName w newStatus
        let oscMsg :=
          (getOrderStatusChangedMsg w orderNo orderInfo.UserID statusChangeRemark newStatus).1
        ⟨h ++ [Call.SendMsg "order_status_changed" orderNo oscMsg], .returned none⟩
      if newStatus = DELIVERED then
        let t := w.Now h1
        let h2 := h1 ++ [Call.UpdateStatusAndConfirmTime orderNo newStatus t]
        match w.UpdateStatusAndConfirmTime h1 orderNo newStatus t with
        | some err => ⟨h2, .returned (some err)⟩
        | none => publish h2
      else if newStatus = SHIPPED then
        let t := w.Now h1
        let h2 := h1 ++ [Call.UpdateStatusWithDeliveryInfo orderNo newStatus t shippingNo]
        match w.UpdateStatusWithDeliveryInfo h1 orderNo newStatus t shippingNo with
        | some err => ⟨h2, .returned (some err)⟩
        | none => publish h2
      else
        ⟨h1, .returned (some ("UpdateOrderStatus: status no support, cur status "
          ++ toString newStatus))⟩

/-! ## `order.go`: `OrderAutoConfirm` -/

/-- Source: the constant `AUTO_CONFIRM_AFTER_DAYS`. -/
def AUTO_CONFIRM_AFTER_DAYS : Int := 7

/-- Source: `OrderAutoConfirm`, lines 92-103: the loop over the confirmed
orders.  An order whose message cannot be encoded is skipped; the result of a
publish is only logged.  `h` is the list of calls issued so far. -/
def publishAutoConfirmed (w : Env) : List OrderNoAndUserId → List Call → List Call
  | [], h => h
  | order :: rest, h =>
    match getOrderStatusChangedMsg w order.OrderNo order.UserID "Shipped --> AutoConfirmed"
        DELIVERED with
    | (_, some _) => publishAutoConfirmed w rest h
    | (oscMsg, none) =>
      publishAutoConfirmed w rest
        (h ++ [Call.SendMsg "order_status_changed" order.OrderNo oscMsg])

/-- Source: `OrderServiceImpl.OrderAutoConfirm`.  The deferred `Unlock` runs
last on every path that acquired the lock; its error is only logged. -/
def OrderAutoConfirm (w : Env) : Run Unit :=
  let h1 := [Call.Lock]
  match w.Lock [] with
  | some _ => ⟨h1, .returned ()⟩
  | none =>
    let h2 := h1 ++ [Call.AutoConfirmShippedOrders SHIPPED DELIVERED AUTO_CONFIRM_AFTER_DAYS]
    match w.AutoConfirmShippedOrders h1 SHIPPED DELIVERED AUTO_CONFIRM_AFTER_DAYS with
    | .error _ => ⟨h2 ++ [Call.Unlock], .returned ()⟩
    | .ok list => ⟨publishAutoConfirmed w list h2 ++ [Call.Unlock], .returned ()⟩

/-! ## `order.go`: `ListOrders`, `GetOrderDetail`, `CustomerGetOrderDetail` -/

/-- Source: `OrderServiceImpl.ListOrders`.  The result pairs the returned
response (`none` for nil) with the returned error. -/
def ListOrders (w : Env) (req : ListOrderRequest) :
    Run (Option ListOrderResponse × Option Error) :=
  let query : OrderQuery :=
    { UserID := req.UserID
      OrderStatus := req.OrderStatus
      StartTime := req.StartTime
      EndTime := req.EndTime
      OrderNo := req.OrderNo
      Limit := req.Limit
      Offset := req.Offset }
  let h1 := [Call.GetByOrderQuery query]
  match w.GetByOrderQuery [] query with
  | .error err => ⟨h1, .returned (none, some err)⟩
  | .ok orders =>
    let orderList : List OrderInfoInList := orders.map (fun order =>
      { OrderNo := order.OrderNo
        ReceiverFirstName := order.ReceiverFirstName
        ReceiverLastName := order.ReceiverLastName
        ReceiverPhone := order.ReceiverPhone
        CreateTime := order.CreateTime
        TotalAmount := order.TotalAmount
        Status := getOrderStatusName w order.Status })
    ⟨h1, .returned (some { Orders := orderList, Total := orderList.length }, none)⟩

/-- Source: `GetOrderDetail`, lines 401-433: the detail built from the order
row, its line items and its status log. -/
def buildOrderDetail (w : Env) (order : Order) (orderProducts : List OrderProduct)
    (orderLogs : List OrderStatusLog) : OrderDetail :=
  { OrderNo := order.OrderNo
    UserID := order.UserID
    Status := order.Status
    StatusName := getOrderStatusName w order.Status
    TotalAmount := order.TotalAmount
    PayAmount := order.PayAmount
    ShippingFee := order.ShippingFee
    Tax := order.Tax
    PayTime := order.PayTime
    CreateTime := order.CreateTime
    UpdateTime := order.UpdateTime
    DeliveryTime := order.DeliveryTime
    ConfirmTime := order.ConfirmTime
    ReceiverFirstName := order.ReceiverFirstName
    ReceiverLastName := order.ReceiverLastName
    ReceiverPhone := order.ReceiverPhone
    ReceiverAddress := order.ReceiverAddress
    ReceiverCountry := order.ReceiverCountry
    ReceiverZipCode := order.ReceiverZipCode
    Remark := order.Remark
    LogisticsNo := order.LogisticsNo
    OrderItems := orderProducts.map (fun product =>
      { ID := product.ID
        ProductID := product.ProductID
        ProductName := product.ProductName
        Price := product.Price
        Quantity := product.Quantity
        TotalPrice := product.TotalPrice
        CreateTime := product.CreateTime
        UpdateTime := product.UpdateTime })
    StatusLogs := orderLogs.map (fun log =>
      { ID := log.ID
        CurrentStatus := log.CurrentStatus
        StatusName := getOrderStatusName w log.CurrentStatus
        Remark := log.Remark
        CreateTime := log.CreateTime }) }

/-- Source: `OrderServiceImpl.GetOrderDetail`, run after the calls `h`.  The
result pairs the returned detail (`none` for nil) with the returned error. -/
def GetOrderDetail (w : Env) (orderNo : String) (h : List Call) :
    Run (Option OrderDetail × Option Error) :=
  let h1 := h ++ [Call.GetByOrderNo orderNo]
  match w.GetByOrderNo h orderNo with
  | .error err => ⟨h1, .returned (none, some err)⟩
  | .ok order =>
    let h2 := h1 ++ [Call.OrderProductGetByOrderNo orderNo]
    match w.OrderProductGetByOrderNo h1 orderNo with
    | .error err => ⟨h2, .returned (none, some err)⟩
    | .ok orderProducts =>
      let h3 := h2 ++ [Call.OrderLogGetByOrderNo orderNo]
      match w.OrderLogGetByOrderNo h2 orderNo with
      | .error err => ⟨h3, .returned (none, some err)⟩
      | .ok orderLogs =>
        ⟨h3, .returned (some (buildOrderDetail w order orderProducts orderLogs), none)⟩

/-- Source: `OrderServiceImpl.CustomerGetOrderDetail`. -/
def CustomerGetOrderDetail (w : Env) (orderNo : String) (userId : Int) :
    Run (Option OrderDetail × Option Error) :=
  match GetOrderDetail w orderNo [] with
  | ⟨calls, .panicked⟩ => ⟨calls, .panicked⟩
  | ⟨calls, .returned (_, some err)⟩ => ⟨calls, .returned (none, some err)⟩
  | ⟨calls, .returned (none, none)⟩ => ⟨calls, .panicked⟩
  | ⟨calls, .returned (some orderInfo, none)⟩ =>
    if orderInfo.UserID ≠ userId then
      ⟨calls, .returned (none, some "invalid user ID")⟩
    else
      ⟨calls, .returned (some orderInfo, none)⟩

/-! ## Kinds of calls -/

/-- The call writes to the order store: an order row, a line-item batch, a
status update or the bulk auto-confirmation. -/
def Call.isStoreWrite : Call → Bool
  | .OrderCreate _ => true
  | .CreateBatch _ => true
  | .UpdateStatusAndPayment _ _ _ => true
  | .UpdateStatusAndConfirmTime _ _ _ => true
  | .UpdateStatusWithDeliveryInfo _ _ _ _ => true
  | .AutoConfirmShippedOrders _ _ _ => true
  | _ => false

/-- The call publishes a message through the message writer. -/
def Call.isEvent : Call → Bool
  | .SendMsg _ _ _ => true
  | _ => false

/-- The call is a payment request. -/
def Call.isPayment : Call → Bool
  | .PayOrder _ _ _ => true
  | _ => false

/-- The call publishes on the topic `order_canceled`. -/
def Call.isCancelEvent : Call → Bool
  | .SendMsg topic _ _ => topic == "order_canceled"
  | _ => false


/-! ## Concrete environments and requests -/

/-- An environment in which every collaborator succeeds: each requested product
has stock 10, payment is accepted, the stored order `orderNo` is a `PAYED`
order of customer 7, the lock is free and three shipped orders are due for
auto-confirmation. -/
def sampleEnv : Env where
  GetProductList := fun _ ids => .ok (ids.map (fun id => { Id := id, Stock := 10 }))
  OrderCreate := fun _ _ => none
  CreateBatch := fun _ _ => none
  SendMsg := fun _ _ _ _ => none
  PayOrder := fun _ _ _ _ => .ok { Code := 0, ErrorMsg := none }
  UpdateStatusAndPayment := fun _ _ _ _ => none
  GetByOrderNo := fun _ orderNo =>
    .ok { newOrder orderNo 7 ⟨"", "", "", "", "", 0, "", []⟩ 0 0 0 0 with Status := PAYED }
  UpdateStatusAndConfirmTime := fun _ _ _ _ => none
  UpdateStatusWithDeliveryInfo := fun _ _ _ _ _ => none
  GenerateOrderID := fun _ => "20250101000000000001"
  Now := fun h => h.length
  JSONEncodeOrderMessage := fun m => (m.OrderID, none)
  JSONEncodeStatusMessage := fun m => (m.Remark, none)
  CANCELED := 5
  Lock := fun _ => none
  Unlock := fun _ => none
  AutoConfirmShippedOrders := fun _ _ _ _ =>
    .ok [{ OrderNo := "A1", UserID := 1 }, { OrderNo := "A2", UserID := 2 },
      { OrderNo := "A3", UserID := 3 }]
  GetByOrderQuery := fun _ _ =>
    .ok [{ newOrder "order1" 7 ⟨"A", "B", "123", "", "", 0, "", []⟩ 100 0 0 0 with
            TotalAmount := 100 },
      { newOrder "order2" 7 ⟨"C", "D", "456", "", "", 0, "", []⟩ 200 0 0 0 with
            TotalAmount := 200, Status := PAYED }]
  OrderProductGetByOrderNo := fun _ orderNo =>
    .ok [{ newOrderProduct orderNo 0 ⟨1, "Test Product", 2, 1000⟩ with ID := 11 }]
  OrderLogGetByOrderNo := fun _ orderNo =>
    .ok [{ ID := 21, OrderNo := orderNo, UserID := 7, CurrentStatus := CREATED,
           Remark := "Created", CreateTime := 0 }]

/-- A request for two units of product 1 at price 1000. -/
def sampleOrderInfo : OrderInfo :=
  { ReceiverFirstName := "John"
    ReceiverLastName := "Doe"
    ReceiverPhone := "1234567890"
    ReceiverAddress := "123 Test St"
    ReceiverCountry := "USA"
    ReceiverZipCode := 12345
    Remark := "Test order"
    OrderItemList := [{ ProductID := 1, ProductName := "Test Product", Quantity := 2, Price := 1000 }] }


/-- The environment `sampleEnv` with an inventory service that cannot be reached. -/
def inventoryDownEnv : Env :=
  { sampleEnv with GetProductList := fun _ _ => .error "rpc error: inventory unavailable" }

/-- The environment `sampleEnv` with a message writer that fails every publish. -/
def publishDownEnv : Env :=
  { sampleEnv with SendMsg := fun _ _ _ _ => some "kafka: broker unavailable" }

/-- A request for eleven units of product 1, one more than the stock of 10. -/
def largeOrderInfo : OrderInfo :=
  { sampleOrderInfo with
    OrderItemList := [{ ProductID := 1, ProductName := "Test Product", Quantity := 11, Price := 1000 }] }


/-- The environment `sampleEnv` with an order store that refuses the order row. -/
def orderCreateDownEnv : Env :=
  { sampleEnv with OrderCreate := fun _ _ => some "db: insert order failed" }

/-- The environment `sampleEnv` with an order store that refuses the line-item
batch. -/
def createBatchDownEnv : Env :=
  { sampleEnv with CreateBatch := fun _ _ => some "db: insert order items failed" }

/-- The environment `sampleEnv` with a payment service that declines with the
message `Insufficient balance`. -/
def paymentDeclinedEnv : Env :=
  { sampleEnv with
    PayOrder := fun _ _ _ _ => .ok { Code := 1, ErrorMsg := some "Insufficient balance" } }

/-- The environment `sampleEnv` with a payment service that declines and sends
no error message. -/
def paymentDeclinedSilentEnv : Env :=
  { sampleEnv with PayOrder := fun _ _ _ _ => .ok { Code := 1, ErrorMsg := none } }

/-- The environment `sampleEnv` with a payment service that cannot be reached. -/
def paymentDownEnv : Env :=
  { sampleEnv with PayOrder := fun _ _ _ _ => .error "rpc error: payment unavailable" }

/-- The environment `sampleEnv` with a store that refuses the update to `PAYED`. -/
def payUpdateDownEnv : Env :=
  { sampleEnv with UpdateStatusAndPayment := fun _ _ _ _ => some "db: update failed" }

/-- The environment `sampleEnv` with the lock held by another instance. -/
def lockHeldEnv : Env :=
  { sampleEnv with Lock := fun _ => some "failed to acquire lock" }

/-- The environment `sampleEnv` with a message writer that fails the publish
for order `A2` only, and a lock whose release fails. -/
def secondPublishDownEnv : Env :=
  { sampleEnv with
    SendMsg := fun _ _ key _ => if key = "A2" then some "kafka: write failed" else none
    Unlock := fun _ => some "lock not held by this instance" }

/-- A request for one unit of product 1 at price 3000000000. -/
def expensiveOrderInfo : OrderInfo :=
  { sampleOrderInfo with
    OrderItemList :=
      [{ ProductID := 1, ProductName := "Test Product", Quantity := 1, Price := 3000000000 }] }


/-! ## `http/api/order.go`: page limits -/

/-- Source: `api.ListOrders`, lines 58-63: the page limit handed to the service
for a requested limit. -/
def ListOrdersLimit (limit : Int) : Int :=
  let limit := if limit ≤ 0 then 20 else limit
  if limit > 100 then 100 else limit

/-- Source: `api.CustomerListOrders`, lines 121-126: the page limit handed to
the service for a requested limit. -/
def CustomerListOrdersLimit (limit : Int) : Int :=
  let limit := if limit ≤ 0 then 20 else limit
  if limit > 100 then 100 else limit

/-! ## `pkg/utils/kafka.go`: `MyWriter.SendMsg` -/

/-- Source: the `kafka.Message` built by `SendMsg`. -/
structure KafkaMessage where
  Topic : String
  Key : String
  Value : String
deriving DecidableEq, Repr

/-- What one call of `MyWriter.SendMsg` does: the message written by the
goroutine it starts, the line that goroutine logs, and the value returned to
the caller. -/
structure SendMsgRun where
  written : KafkaMessage
  logged : Option String
  result : Option Error
deriving DecidableEq, Repr

/-- Source: `MyWriter.SendMsg`.  `WriteMessages` is the response of the
underlying kafka writer; it is consulted inside the goroutine only, and the
function returns `nil`. -/
def MyWriter.SendMsg (WriteMessages : KafkaMessage → Option Error) (topic key value : String) :
    SendMsgRun :=
  let message : KafkaMessage := { Topic := topic, Key := key, Value := value }
  { written := message
    logged :=
      match WriteMessages message with
      | some err => some ("SendMsg: failed, err " ++ err)
      | none => none
    result := none }


/-! ## The order number carried by a call -/

/-- For the calls that `CreateOrder` issues: the order number carried by the
call, where it carries one, is `orderNo` (row, line items, event key on one of
the three topics, payment business id, status update); the inventory read and
the stock decrements carry none.  No other call satisfies it. -/
def Call.carriesOrderNo (orderNo : String) : Call → Prop
  | .GetProductList _ => True
  | .UpdateStockWithCAS _ _ => True
  | .OrderCreate o => o.OrderNo = orderNo
  | .CreateBatch rows => ∀ r ∈ rows, r.OrderNo = orderNo
  | .SendMsg topic key _ => key = orderNo ∧
      (topic = "order_created" ∨ topic = "order_status_changed" ∨ topic = "order_canceled")
  | .PayOrder _ _ bizId => bizId = orderNo
  | .UpdateStatusAndPayment n _ _ => n = orderNo
  | _ => False


/-! ## `pkg/utils/distributed_lock.go` -/

/-- An entry of the key-value store: the stored value and the time to live it
was set with. -/
structure RedisEntry where
  value : String
  expiration : Int
deriving DecidableEq, Repr

/-- The key-value store behind `redis.RedisClient`: the entry of each key that
exists.  A key whose time to live has run out has no entry. -/
abbrev Redis := String → Option RedisEntry

/-- The store command `SET key value NX EX expiration` issued by `Lock`, as the
source documents it: the key is set only if it does not exist; the reply tells
whether it was set. -/
def redisSetNX (r : Redis) (key value : String) (expiration : Int) : Redis × Bool :=
  match r key with
  | some _ => (r, false)
  | none => (fun k => if k = key then some { value := value, expiration := expiration } else r k,
      true)

/-- Source: `unlockScript`, run with `KEYS[1] = key` and `ARGV[1] = arg`: when
the value stored under the key equals the argument the key is deleted and the
reply is the number of deleted keys, otherwise the reply is 0. -/
def unlockScript (r : Redis) (key arg : String) : Redis × Int :=
  match r key with
  | some entry =>
    if entry.value = arg then (fun k => if k = key then none else r k, 1) else (r, 0)
  | none => (r, 0)

/-- Source: `DistributedLock`. -/
structure DistributedLock where
  key : String
  value : String
  expiration : Int
deriving DecidableEq, Repr

/-- Source: `ErrLockFailed`. -/
def ErrLockFailed : Error := "failed to acquire lock"

/-- Source: `ErrLockNotHeld`. -/
def ErrLockNotHeld : Error := "lock not held by this instance"

/-- Source: `DistributedLock.Lock`.  `fault` is the error of the store client,
if the command could not be carried out. -/
def DistributedLock.Lock (l : DistributedLock) (r : Redis) (fault : Option Error) :
    Redis × Option Error :=
  match fault with
  | some err => (r, some err)
  | none =>
    match redisSetNX r l.key l.value l.expiration with
    | (r2, result) => if !result then (r2, some ErrLockFailed) else (r2, none)

/-- Source: `DistributedLock.Unlock`.  `fault` is the error of the store client,
if the script could not be run. -/
def DistributedLock.Unlock (l : DistributedLock) (r : Redis) (fault : Option Error) :
    Redis × Option Error :=
  match fault with
  | some err => (r, some err)
  | none =>
    match unlockScript r l.key l.value with
    | (r2, deleted) => if deleted = 0 then (r2, some ErrLockNotHeld) else (r2, none)

/-- The store with no key. -/
def emptyRedis : Redis := fun _ => none

/-- The auto-confirm lock of one service instance. -/
def lockOfInstanceA : DistributedLock :=
  { key := "order:auto_confirm:lock", value := "instance-a", expiration := 10 }

/-- The auto-confirm lock of another service instance. -/
def lockOfInstanceB : DistributedLock :=
  { key := "order:auto_confirm:lock", value := "instance-b", expiration := 10 }


/-! ## `repository/dao/order_dao.go`: `AutoConfirmShippedOrders` -/

/-- Go `-a` on `int64`. -/
def intNeg (a : Int) : Int := wrapInt (-a)

/-- Source: `time.Hour`, a `time.Duration` in nanoseconds. -/
def Hour : Int := 3600000000000

/-- Source: `AutoConfirmShippedOrders`, line 129: the cut-off time
`time.Now().Add(-time.Duration(daysThreshold) * 24 * time.Hour)`, instants and
durations being counted in nanoseconds. -/
def thresholdTime (now : Time) (daysThreshold : Int) : Time :=
  now + intMul (intMul (intNeg daysThreshold) 24) Hour

/-- Source: `AutoConfirmShippedOrders`, lines 133-138: the condition of the
query, `status = shippedStatus`, `delivery_time IS NOT NULL` and
`delivery_time <= thresholdTime`. -/
def isDueForConfirm (shippedStatus : Int) (threshold : Time) (order : Order) : Bool :=
  match order.DeliveryTime with
  | some deliveryTime => decide (order.Status = shippedStatus) && decide (deliveryTime ≤ threshold)
  | none => false

/-- The result of `AutoConfirmShippedOrders`: the orders table after the call,
the returned list and the returned error. -/
structure AutoConfirmResult where
  table : List Order
  orderNos : List OrderNoAndUserId
  err : Option Error
deriving DecidableEq, Repr

/-- Source: `OrderDaoImpl.AutoConfirmShippedOrders` over the orders table
`table`.  `now1` and `now2` are the two readings of `time.Now()`, `findErr` and
`updateErr` the errors of the query and of the update, if any. -/
def OrderDaoImpl.AutoConfirmShippedOrders (table : List Order) (now1 now2 : Time)
    (findErr updateErr : Option Error) (shippedStatus deliveredStatus daysThreshold : Int) :
    AutoConfirmResult :=
  let threshold := thresholdTime now1 daysThreshold
  match findErr with
  | some err => { table := table, orderNos := [], err := some err }
  | none =>
    let orders := table.filter (isDueForConfirm shippedStatus threshold)
    if orders.length = 0 then
      { table := table, orderNos := [], err := none }
    else
      let orderNosAndUserIDs : List OrderNoAndUserId :=
        orders.map (fun order => { OrderNo := order.OrderNo, UserID := order.UserID })
      let orderNo := orders.map (fun order => order.OrderNo)
      match updateErr with
      | some err => { table := table, orderNos := [], err := some err }
      | none =>
        { table := table.map (fun order =>
            if order.OrderNo ∈ orderNo then
              { order with Status := deliveredStatus, ConfirmTime := some now2 }
            else order)
          orderNos := orderNosAndUserIDs
          err := none }

/-- An orders table with a shipped order delivered ten days before
`sampleNow`, a shipped order delivered one day before, and a paid order. -/
def sampleTable : List Order :=
  [{ newOrder "A1" 1 ⟨"", "", "", "", "", 0, "", []⟩ 0 0 0 0 with
      Status := SHIPPED, DeliveryTime := some (20 * 24 * 3600000000000) },
    { newOrder "A2" 2 ⟨"", "", "", "", "", 0, "", []⟩ 0 0 0 0 with
      Status := SHIPPED, DeliveryTime := some (29 * 24 * 3600000000000) },
    { newOrder "A3" 3 ⟨"", "", "", "", "", 0, "", []⟩ 0 0 0 0 with Status := PAYED }]

/-- The instant thirty days after the origin of the clock. -/
def sampleNow : Time := 30 * 24 * 3600000000000


/-- The status that the call writes onto stored orders, for the calls that
update the status of existing rows. -/
def Call.statusWritten : Call → Option Int
  | .UpdateStatusAndPayment _ status _ => some status
  | .UpdateStatusAndConfirmTime _ status _ => some status
  | .UpdateStatusWithDeliveryInfo _ status _ _ => some status
  | .AutoConfirmShippedOrders _ deliveredStatus _ => some deliveredStatus
  | _ => none


/-! ## Machine-integer lemmas -/

theorem wrapInt_eq_bmod (x : Int) : wrapInt x = Int.bmod x (2 ^ 64) := by
  unfold wrapInt
  rw [Int.bmod_def]
  norm_num
  split <;> omega

theorem wrapInt_of_isInt {x : Int} (h : IsInt x) : wrapInt x = x := by
  unfold IsInt at h
  unfold wrapInt
  omega

theorem isInt_wrapInt (x : Int) : IsInt (wrapInt x) := by
  unfold IsInt wrapInt
  omega

theorem wrapInt_add_left (a b : Int) : wrapInt (wrapInt a + b) = wrapInt (a + b) := by
  simp only [wrapInt_eq_bmod, Int.bmod_add_bmod_congr]

theorem wrapInt_add_right (a b : Int) : wrapInt (a + wrapInt b) = wrapInt (a + b) := by
  simp only [wrapInt_eq_bmod, Int.add_bmod_bmod]

theorem tdiv_hundred_isInt {x : Int} (h : IsInt x) : IsInt (Int.tdiv x 100) := by
  unfold IsInt at *
  rcases le_total 0 x with hx | hx
  · rw [Int.tdiv_eq_ediv hx (by norm_num)]
    omega
  · have h1 : Int.tdiv x 100 = -((-x) / 100) := by
      rw [← Int.tdiv_eq_ediv (by omega) (by norm_num), Int.neg_tdiv, neg_neg]
    rw [h1]
    omega

/-- The sum of wrapped terms and the sum of the terms wrap to the same value. -/
theorem wrapInt_sum_map_wrapInt (l : List Int) :
    wrapInt ((l.map wrapInt).sum) = wrapInt l.sum := by
  induction l with
  | nil => rfl
  | cons x xs ih =>
    simp only [List.map_cons, List.sum_cons]
    rw [wrapInt_add_left, ← wrapInt_add_right, ih, wrapInt_add_right]

/-! ## The stock loop -/

/-- The amount accumulated by the stock loop when no item fails. -/
theorem checkStock_ok (stock : Int → Int) (items : List OrderItemInfo) (acc : Int)
    (h : ∀ item ∈ items, item.Quantity ≤ stock item.ProductID) :
    checkStock stock items acc =
      .ok (items.foldl (fun a it => intAdd a (intMul it.Price it.Quantity)) acc) := by
  induction items generalizing acc with
  | nil => rfl
  | cons x xs ih =>
    have hx : ¬ x.Quantity > stock x.ProductID := by
      have := h x (List.mem_cons_self _ _)
      omega
    simp only [checkStock, hx, if_false, List.foldl_cons]
    exact ih _ (fun item hi => h item (List.mem_cons_of_mem _ hi))

/-- The stock loop fails as soon as one item asks for more than the stock. -/
theorem checkStock_error (stock : Int → Int) (items : List OrderItemInfo) (acc : Int)
    (h : ∃ item ∈ items, item.Quantity > stock item.ProductID) :
    ∃ err, checkStock stock items acc = .error err := by
  induction items generalizing acc with
  | nil =>
    obtain ⟨item, hi, _⟩ := h
    exact absurd hi (List.not_mem_nil _)
  | cons x xs ih =>
    by_cases hx : x.Quantity > stock x.ProductID
    · exact ⟨_, by simp only [checkStock, hx, if_true]; rfl⟩
    · simp only [checkStock, hx, if_false]
      apply ih
      obtain ⟨item, hi, hq⟩ := h
      rcases List.mem_cons.mp hi with rfl | hi
      · exact absurd hq hx
      · exact ⟨item, hi, hq⟩

/-- The accumulated amount is the mathematical sum reduced to 64 bits. -/
theorem foldl_amount (items : List OrderItemInfo) (acc : Int) (hacc : IsInt acc) :
    items.foldl (fun a it => intAdd a (intMul it.Price it.Quantity)) acc =
      wrapInt (acc + (items.map (fun it => it.Price * it.Quantity)).sum) := by
  induction items generalizing acc with
  | nil => simp [wrapInt_of_isInt hacc]
  | cons x xs ih =>
    simp only [List.foldl_cons, List.map_cons, List.sum_cons]
    rw [ih (intAdd acc (intMul x.Price x.Quantity)) (isInt_wrapInt _)]
    unfold intAdd intMul wrapInt
    omega

/-! ## Calls issued after `order_created` -/

/-- The calls of `settleOrder` extend the calls issued before it, and every
added call is an event, a stock decrement, the payment request or the update to
`PAYED`. -/
theorem settleOrder_calls (w : Env) (orderInfo : OrderInfo) (userID : Int)
    (orderId orderMsg : String) (itemTotalAmount shippingFee tax : Int) (h : List Call) :
    ∃ tail, (settleOrder w orderInfo userID orderId orderMsg itemTotalAmount shippingFee tax
        h).calls = h ++ tail ∧
      ∀ c ∈ tail, (∃ t k v, c = Call.SendMsg t k v) ∨ (∃ i d, c = Call.UpdateStockWithCAS i d) ∨
        (∃ u a b, c = Call.PayOrder u a b) ∨ (∃ n s t, c = Call.UpdateStatusAndPayment n s t) := by
  have hdec : ∀ c ∈ orderInfo.OrderItemList.map stockDecrement,
      ∃ i d, c = Call.UpdateStockWithCAS i d := by
    intro c hc
    obtain ⟨it, _, rfl⟩ := List.mem_map.mp hc
    exact ⟨_, _, rfl⟩
  unfold settleOrder
  simp only []
  split
  · refine ⟨_, by simp only [List.append_assoc]; rfl, ?_⟩
    intro c hc
    simp only [List.mem_append, List.mem_singleton] at hc
    have hd := hdec c
    aesop
  · split <;> split <;>
    · refine ⟨_, by simp only [List.append_assoc]; rfl, ?_⟩
      intro c hc
      simp only [List.mem_append, List.mem_singleton] at hc
      have hd := hdec c
      aesop

/-! ## Pricing -/

/-- C1: for every integer subtotal the shipping fee is 0 when the subtotal is
at least 30000 and 800 otherwise; it is 800 at 29999 and 0 at exactly 30000. -/
theorem CalculateShippingFee_threshold (subtotal : Int) :
    (subtotal ≥ 30000 → CalculateShippingFee subtotal = 0) ∧
    (subtotal < 30000 → CalculateShippingFee subtotal = 800) ∧
    CalculateShippingFee 29999 = 800 ∧ CalculateShippingFee 30000 = 0 := by
  refine ⟨fun h => ?_, fun h => ?_, by decide, by decide⟩
  · simp [CalculateShippingFee, h]
  · have : ¬ subtotal ≥ 30000 := by omega
    simp [CalculateShippingFee, this]

theorem CalculateShippingFee_threshold_witness :
    ((30001 : Int) ≥ 30000 → CalculateShippingFee 30001 = 0) ∧
    ((12 : Int) < 30000 → CalculateShippingFee 12 = 800) :=
  ⟨(CalculateShippingFee_threshold 30001).1, (CalculateShippingFee_threshold 12).2.1⟩

/-- C2: the tax is the quotient, truncated toward zero, of the 64-bit product
`subtotal * 9` by 100; when the product does not wrap it is `subtotal * 9 / 100`
truncated toward zero, and for a subtotal that is not negative it satisfies
`100 * tax ≤ 9 * subtotal < 100 * (tax + 1)`. -/
theorem CalculateTax_truncates (subtotal : Int) :
    CalculateTax subtotal = Int.tdiv (wrapInt (subtotal * 9)) 100 ∧
    (IsInt (subtotal * 9) →
      CalculateTax subtotal = Int.tdiv (subtotal * 9) 100 ∧
      (0 ≤ subtotal →
        100 * CalculateTax subtotal ≤ 9 * subtotal ∧
        9 * subtotal < 100 * (CalculateTax subtotal + 1))) ∧
    CalculateTax (-1) = 0 ∧ CalculateTax (-199) = -17 := by
  have hgen : CalculateTax subtotal = Int.tdiv (wrapInt (subtotal * 9)) 100 := by
    unfold CalculateTax intDiv intMul
    exact wrapInt_of_isInt (tdiv_hundred_isInt (isInt_wrapInt _))
  refine ⟨hgen, fun hin => ?_, by decide, by decide⟩
  have heq : CalculateTax subtotal = Int.tdiv (subtotal * 9) 100 := by
    rw [hgen, wrapInt_of_isInt hin]
  refine ⟨heq, fun hpos => ?_⟩
  rw [heq, Int.tdiv_eq_ediv (by omega) (by norm_num)]
  omega

theorem CalculateTax_truncates_witness :
    IsInt (29999 * 9) ∧ CalculateTax 29999 = Int.tdiv (29999 * 9) 100 ∧
    100 * CalculateTax 29999 ≤ 9 * 29999 ∧ 9 * 29999 < 100 * (CalculateTax 29999 + 1) :=
  have h : IsInt (29999 * 9) := by decide
  ⟨h, ((CalculateTax_truncates 29999).2.1 h).1,
    ((CalculateTax_truncates 29999).2.1 h).2 (by decide)⟩

/-! ## Calls issued by `CreateOrder` once the stock check has passed -/

/-- After a passed stock check `CreateOrder` writes the order row; when that
write is refused nothing follows, and otherwise the line-item batch follows,
and after it only events, stock decrements, the payment request and the update
to `PAYED`. -/
theorem CreateOrder_calls_of_checkStock (w : Env) (orderInfo : OrderInfo) (userID : Int)
    (products : List Product) (amount : Int)
    (hprod : w.GetProductList [] (orderInfo.OrderItemList.map (fun item => item.ProductID))
      = .ok products)
    (hck : checkStock (productId2StockMap products) orderInfo.OrderItemList 0 = .ok amount) :
    ∃ rest, (CreateOrder w orderInfo userID).calls =
        Call.GetProductList (orderInfo.OrderItemList.map (fun item => item.ProductID))
          :: Call.OrderCreate (newOrder
            (w.GenerateOrderID
              [Call.GetProductList (orderInfo.OrderItemList.map (fun item => item.ProductID))])
            userID orderInfo amount (CalculateShippingFee amount) (CalculateTax amount)
            (w.Now
              [Call.GetProductList (orderInfo.OrderItemList.map (fun item => item.ProductID))]))
          :: rest ∧
      (rest = [] ∨ ∃ tail, rest = Call.CreateBatch (orderInfo.OrderItemList.map
          (newOrderProduct
            (w.GenerateOrderID
              [Call.GetProductList (orderInfo.OrderItemList.map (fun item => item.ProductID))])
            (w.Now
              [Call.GetProductList (orderInfo.OrderItemList.map (fun item => item.ProductID))])))
          :: tail ∧
        ∀ c ∈ tail, (∃ t k v, c = Call.SendMsg t k v) ∨
          (∃ i d, c = Call.UpdateStockWithCAS i d) ∨ (∃ u a b, c = Call.PayOrder u a b) ∨
          (∃ n s t, c = Call.UpdateStatusAndPayment n s t)) ∧
      (w.OrderCreate
          [Call.GetProductList (orderInfo.OrderItemList.map (fun item => item.ProductID))]
          (newOrder
            (w.GenerateOrderID
              [Call.GetProductList (orderInfo.OrderItemList.map (fun item => item.ProductID))])
            userID orderInfo amount (CalculateShippingFee amount) (CalculateTax amount)
            (w.Now
              [Call.GetProductList (orderInfo.OrderItemList.map (fun item => item.ProductID))]))
          = none → rest ≠ []) := by
  unfold CreateOrder
  simp only [hprod, hck]
  split
  · exact ⟨[], rfl, Or.inl rfl, fun h => by simp_all⟩
  · split
    · exact ⟨_, rfl, Or.inr ⟨[], rfl, by simp⟩, fun _ => by simp⟩
    · split
      · exact ⟨_, rfl, Or.inr ⟨[], rfl, by simp⟩, fun _ => by simp⟩
      · split
        · refine ⟨_, rfl, Or.inr ⟨_, rfl, ?_⟩, fun _ => by simp⟩
          intro c hc
          simp only [List.append_eq, List.nil_append, List.mem_singleton] at hc
          exact Or.inl ⟨_, _, _, hc⟩
        · obtain ⟨tail, htail, hkind⟩ := settleOrder_calls w orderInfo userID _ _ amount
            (CalculateShippingFee amount) (CalculateTax amount) _
          rw [htail]
          refine ⟨_, rfl, Or.inr ⟨_, rfl, ?_⟩, fun _ => by simp⟩
          intro c hc
          simp only [List.append_eq, List.nil_append, List.mem_append, List.mem_singleton] at hc
          rcases hc with hc | hc
          · exact Or.inl ⟨_, _, _, hc⟩
          · exact hkind c hc

/-- C3: for every request that passes the stock check, the second call of
`CreateOrder` hands the store one order row with status `CREATED`, shipping fee
and tax computed from the subtotal `S` (the sum of `Price * Quantity` over the
line items, in 64-bit arithmetic) and total `S + ShippingFee + Tax`; no other
order row is written; the line-item batch, written when the order row was
accepted, repeats the request items with `TotalPrice = Price * Quantity`, so
the total is the sum of the line totals plus shipping fee plus tax; when the
sums do not wrap these are the sums over the integers. -/
theorem CreateOrder_persisted_totals (w : Env) (orderInfo : OrderInfo) (userID : Int)
    (products : List Product)
    (hprod : w.GetProductList [] (orderInfo.OrderItemList.map (fun item => item.ProductID))
      = .ok products)
    (hstock : ∀ item ∈ orderInfo.OrderItemList,
      item.Quantity ≤ productId2StockMap products item.ProductID) :
    ∃ (o : Order) (rest : List Call),
      (CreateOrder w orderInfo userID).calls =
        Call.GetProductList (orderInfo.OrderItemList.map (fun item => item.ProductID))
          :: Call.OrderCreate o :: rest ∧
      (∀ o2, Call.OrderCreate o2 ∉ rest) ∧
      o.Status = CREATED ∧
      o.ShippingFee = CalculateShippingFee
        (wrapInt (orderInfo.OrderItemList.map (fun it => it.Price * it.Quantity)).sum) ∧
      o.Tax = CalculateTax
        (wrapInt (orderInfo.OrderItemList.map (fun it => it.Price * it.Quantity)).sum) ∧
      o.TotalAmount = intAdd (intAdd
        (wrapInt (orderInfo.OrderItemList.map (fun it => it.Price * it.Quantity)).sum)
        o.ShippingFee) o.Tax ∧
      (IsInt (orderInfo.OrderItemList.map (fun it => it.Price * it.Quantity)).sum →
        IsInt ((orderInfo.OrderItemList.map (fun it => it.Price * it.Quantity)).sum
          + o.ShippingFee + o.Tax) →
        o.TotalAmount = (orderInfo.OrderItemList.map (fun it => it.Price * it.Quantity)).sum
          + o.ShippingFee + o.Tax) ∧
      (∀ rows, Call.CreateBatch rows ∈ rest →
        rows.map (fun r => (r.ProductID, r.Price, r.Quantity)) =
          orderInfo.OrderItemList.map (fun it => (it.ProductID, it.Price, it.Quantity)) ∧
        (∀ r ∈ rows, r.TotalPrice = intMul r.Price r.Quantity) ∧
        o.TotalAmount = wrapInt ((rows.map (fun r => r.TotalPrice)).sum
          + o.ShippingFee + o.Tax)) ∧
      (w.OrderCreate
          [Call.GetProductList (orderInfo.OrderItemList.map (fun item => item.ProductID))] o
          = none → ∃ rows, Call.CreateBatch rows ∈ rest) := by
  have hck := checkStock_ok (productId2StockMap products) orderInfo.OrderItemList 0 hstock
  rw [foldl_amount _ 0 (by decide), zero_add] at hck
  obtain ⟨rest, hcalls, hrest, hne⟩ :=
    CreateOrder_calls_of_checkStock w orderInfo userID products _ hprod hck
  refine ⟨_, rest, hcalls, ?_, rfl, rfl, rfl, rfl, ?_, ?_, ?_⟩
  · intro o2 ho2
    rcases hrest with rfl | ⟨tail, rfl, hkind⟩
    · exact absurd ho2 (List.not_mem_nil _)
    · rcases List.mem_cons.mp ho2 with h | h
      · cases h
      · rcases hkind _ h with ⟨_, _, _, h⟩ | ⟨_, _, h⟩ | ⟨_, _, _, h⟩ | ⟨_, _, _, h⟩ <;> cases h
  · intro h1 h2
    have e1 := wrapInt_of_isInt h1
    simp only [newOrder, intAdd, e1] at h2 ⊢
    rw [wrapInt_add_left]
    exact wrapInt_of_isInt h2
  · intro rows hrows
    have hrows2 : rows = orderInfo.OrderItemList.map (newOrderProduct
        (w.GenerateOrderID
          [Call.GetProductList (orderInfo.OrderItemList.map (fun item => item.ProductID))])
        (w.Now
          [Call.GetProductList (orderInfo.OrderItemList.map (fun item => item.ProductID))])) := by
      rcases hrest with rfl | ⟨tail, rfl, hkind⟩
      · exact absurd hrows (List.not_mem_nil _)
      · rcases List.mem_cons.mp hrows with h | h
        · exact Call.CreateBatch.inj h
        · rcases hkind _ h with ⟨_, _, _, h⟩ | ⟨_, _, h⟩ | ⟨_, _, _, h⟩ | ⟨_, _, _, h⟩ <;>
            cases h
    subst hrows2
    refine ⟨?_, ?_, ?_⟩
    · simp only [List.map_map]
      rfl
    · intro r hr
      obtain ⟨it, _, rfl⟩ := List.mem_map.mp hr
      rfl
    · simp only [newOrder, intAdd, List.map_map]
      have hsum : (orderInfo.OrderItemList.map
          ((fun r => r.TotalPrice) ∘ newOrderProduct
            (w.GenerateOrderID
              [Call.GetProductList (orderInfo.OrderItemList.map (fun item => item.ProductID))])
            (w.Now
              [Call.GetProductList (orderInfo.OrderItemList.map (fun item => item.ProductID))])))
          = (orderInfo.OrderItemList.map (fun it => it.Price * it.Quantity)).map wrapInt := by
        simp only [List.map_map]
        rfl
      rw [hsum]
      have hAB := wrapInt_sum_map_wrapInt
        (orderInfo.OrderItemList.map (fun it => it.Price * it.Quantity))
      generalize CalculateShippingFee _ = fee
      generalize CalculateTax _ = tax
      generalize ((orderInfo.OrderItemList.map (fun it => it.Price * it.Quantity)).map
        wrapInt).sum = B at hAB ⊢
      generalize (orderInfo.OrderItemList.map (fun it => it.Price * it.Quantity)).sum = A
        at hAB ⊢
      unfold wrapInt at hAB ⊢
      omega
  · intro hnone
    rcases hrest with rfl | ⟨tail, rfl, _⟩
    · exact absurd rfl (hne hnone)
    · exact ⟨_, List.mem_cons_self _ _⟩

theorem CreateOrder_persisted_totals_witness :
    ∃ (o : Order) (rest : List Call),
      (CreateOrder sampleEnv sampleOrderInfo 7).calls =
        Call.GetProductList [1] :: Call.OrderCreate o :: rest ∧
      o.Status = CREATED ∧ o.ShippingFee = 800 ∧ o.Tax = 180 ∧ o.TotalAmount = 2980 := by
  obtain ⟨o, rest, hcalls, _, hs, hf, ht, hta, _⟩ :=
    CreateOrder_persisted_totals sampleEnv sampleOrderInfo 7 [{ Id := 1, Stock := 10 }] rfl
      (by decide)
  exact ⟨o, rest, hcalls, hs, by rw [hf]; decide, by rw [ht]; decide,
    by rw [hta, hf, ht]; decide⟩

/-! ## The branches of `UpdateOrderStatus` -/

theorem UpdateOrderStatus_lookup_error (w : Env) (orderNo : String) (newStatus : Int)
    (shippingNo : String) (err : Error) (hget : w.GetByOrderNo [] orderNo = .error err) :
    UpdateOrderStatus w orderNo newStatus shippingNo =
      ⟨[Call.GetByOrderNo orderNo], .returned (some err)⟩ := by
  simp only [UpdateOrderStatus, hget]

theorem UpdateOrderStatus_invalid (w : Env) (orderNo : String) (newStatus : Int)
    (shippingNo : String) (o : Order) (hget : w.GetByOrderNo [] orderNo = .ok o)
    (hne : o.Status ≠ intSub newStatus 1) :
    UpdateOrderStatus w orderNo newStatus shippingNo =
      ⟨[Call.GetByOrderNo orderNo], .returned (some ("UpdateOrderStatus: Invalid status, cur: "
        ++ toString o.Status ++ ", next: " ++ toString newStatus))⟩ := by
  simp only [UpdateOrderStatus, hget, hne, ne_eq, not_false_eq_true, if_true]

theorem UpdateOrderStatus_unsupported (w : Env) (orderNo : String) (newStatus : Int)
    (shippingNo : String) (o : Order) (hget : w.GetByOrderNo [] orderNo = .ok o)
    (heq : o.Status = intSub newStatus 1) (hs : newStatus ≠ SHIPPED)
    (hd : newStatus ≠ DELIVERED) :
    UpdateOrderStatus w orderNo newStatus shippingNo =
      ⟨[Call.GetByOrderNo orderNo], .returned (some
        ("UpdateOrderStatus: status no support, cur status " ++ toString newStatus))⟩ := by
  simp only [UpdateOrderStatus, hget, heq, ne_eq, not_true_eq_false, if_false, hs, hd]

theorem UpdateOrderStatus_delivered (w : Env) (orderNo : String) (shippingNo : String)
    (o : Order) (hget : w.GetByOrderNo [] orderNo = .ok o) (heq : o.Status = SHIPPED) :
    UpdateOrderStatus w orderNo DELIVERED shippingNo =
      match w.UpdateStatusAndConfirmTime [Call.GetByOrderNo orderNo] orderNo DELIVERED
          (w.Now [Call.GetByOrderNo orderNo]) with
      | some err =>
        ⟨[Call.GetByOrderNo orderNo, Call.UpdateStatusAndConfirmTime orderNo DELIVERED
          (w.Now [Call.GetByOrderNo orderNo])], .returned (some err)⟩
      | none =>
        ⟨[Call.GetByOrderNo orderNo, Call.UpdateStatusAndConfirmTime orderNo DELIVERED
          (w.Now [Call.GetByOrderNo orderNo]),
          Call.SendMsg "order_status_changed" orderNo
            (getOrderStatusChangedMsg w orderNo o.UserID "Shipped --> Delivered" DELIVERED).1],
          .returned none⟩ := by
  have h1 : intSub DELIVERED 1 = SHIPPED := by decide
  have hn1 : getOrderStatusName w SHIPPED = "Shipped" := rfl
  have hn2 : getOrderStatusName w DELIVERED = "Delivered" := rfl
  have hr : "Shipped" ++ " --> " ++ "Delivered" = "Shipped --> Delivered" := by decide
  simp only [UpdateOrderStatus, hget, heq, h1, ne_eq, not_true_eq_false, if_false, if_true,
    hn1, hn2, hr]
  split <;> rfl

theorem UpdateOrderStatus_shipped (w : Env) (orderNo : String) (shippingNo : String)
    (o : Order) (hget : w.GetByOrderNo [] orderNo = .ok o) (heq : o.Status = PAYED) :
    UpdateOrderStatus w orderNo SHIPPED shippingNo =
      match w.UpdateStatusWithDeliveryInfo [Call.GetByOrderNo orderNo] orderNo SHIPPED
          (w.Now [Call.GetByOrderNo orderNo]) shippingNo with
      | some err =>
        ⟨[Call.GetByOrderNo orderNo, Call.UpdateStatusWithDeliveryInfo orderNo SHIPPED
          (w.Now [Call.GetByOrderNo orderNo]) shippingNo], .returned (some err)⟩
      | none =>
        ⟨[Call.GetByOrderNo orderNo, Call.UpdateStatusWithDeliveryInfo orderNo SHIPPED
          (w.Now [Call.GetByOrderNo orderNo]) shippingNo,
          Call.SendMsg "order_status_changed" orderNo
            (getOrderStatusChangedMsg w orderNo o.UserID "Paid --> Shipped" SHIPPED).1],
          .returned none⟩ := by
  have h1 : intSub SHIPPED 1 = PAYED := by decide
  have h2 : ¬ SHIPPED = DELIVERED := by decide
  have hn1 : getOrderStatusName w PAYED = "Paid" := rfl
  have hn2 : getOrderStatusName w SHIPPED = "Shipped" := rfl
  have hr : "Paid" ++ " --> " ++ "Shipped" = "Paid --> Shipped" := by decide
  simp only [UpdateOrderStatus, hget, heq, h1, h2, ne_eq, not_true_eq_false, if_false, if_true,
    hn1, hn2, hr]
  split <;> rfl



/-! ## Status transitions -/

/-- C4: for every stored order with status `c` and every target `t` other than
`c + 1` (Go addition on `int`; the mathematical `c + 1` for every `c` below the
largest `int`), `UpdateOrderStatus` returns the invalid-status error after the
lookup alone: it issues no store update and publishes no event. -/
theorem UpdateOrderStatus_rejects_other_targets (w : Env) (orderNo : String) (t : Int)
    (shippingNo : String) (o : Order) (hget : w.GetByOrderNo [] orderNo = .ok o)
    (hc : IsInt o.Status) (ht : IsInt t) (hne : t ≠ intAdd o.Status 1) :
    UpdateOrderStatus w orderNo t shippingNo =
      ⟨[Call.GetByOrderNo orderNo], .returned (some ("UpdateOrderStatus: Invalid status, cur: "
        ++ toString o.Status ++ ", next: " ++ toString t))⟩ ∧
    (UpdateOrderStatus w orderNo t shippingNo).calls.filter Call.isStoreWrite = [] ∧
    (UpdateOrderStatus w orderNo t shippingNo).calls.filter Call.isEvent = [] ∧
    (o.Status < 2 ^ 63 - 1 → intAdd o.Status 1 = o.Status + 1) := by
  have h1 : o.Status ≠ intSub t 1 := by
    unfold IsInt at hc ht
    unfold intAdd wrapInt at hne
    unfold intSub wrapInt
    omega
  have hrun := UpdateOrderStatus_invalid w orderNo t shippingNo o hget h1
  refine ⟨hrun, by rw [hrun]; rfl, by rw [hrun]; rfl, fun hlt => ?_⟩
  unfold IsInt at hc
  unfold intAdd wrapInt
  omega

theorem UpdateOrderStatus_rejects_other_targets_witness :
    UpdateOrderStatus sampleEnv "TEST003" DELIVERED "" =
      ⟨[Call.GetByOrderNo "TEST003"],
        .returned (some "UpdateOrderStatus: Invalid status, cur: 2, next: 4")⟩ :=
  (UpdateOrderStatus_rejects_other_targets sampleEnv "TEST003" DELIVERED "" _ rfl
    (by decide) (by decide) (by decide)).1

/-- C5, as the claim states it, fails: a stored `PAYED` order and the target
`CREATED` (neither `SHIPPED` nor `DELIVERED`) end in the invalid-status error,
not in the unsupported-status error. -/
theorem UpdateOrderStatus_unsupported_counterexample :
    ¬ ∀ (w : Env) (orderNo : String) (t : Int) (shippingNo : String) (o : Order),
      w.GetByOrderNo [] orderNo = .ok o → t ≠ SHIPPED → t ≠ DELIVERED →
      (UpdateOrderStatus w orderNo t shippingNo).outcome = .returned (some
        ("UpdateOrderStatus: status no support, cur status " ++ toString t)) := by
  intro h
  have h1 := h sampleEnv "TEST004" CREATED "" _ rfl (by decide) (by decide)
  revert h1
  decide

/-- C5 (amended): for every stored order with status `c` and every target `t`
other than `SHIPPED` and `DELIVERED`, `UpdateOrderStatus` fails after the lookup
alone, with no store update and no event; the error is the unsupported-status
error when `t = c + 1` and the invalid-status error otherwise. -/
theorem UpdateOrderStatus_other_target_fails (w : Env) (orderNo : String) (t : Int)
    (shippingNo : String) (o : Order) (hget : w.GetByOrderNo [] orderNo = .ok o)
    (hc : IsInt o.Status) (ht : IsInt t) (hs : t ≠ SHIPPED) (hd : t ≠ DELIVERED) :
    (UpdateOrderStatus w orderNo t shippingNo).calls = [Call.GetByOrderNo orderNo] ∧
    (t = intAdd o.Status 1 →
      (UpdateOrderStatus w orderNo t shippingNo).outcome = .returned (some
        ("UpdateOrderStatus: status no support, cur status " ++ toString t))) ∧
    (t ≠ intAdd o.Status 1 →
      (UpdateOrderStatus w orderNo t shippingNo).outcome = .returned (some
        ("UpdateOrderStatus: Invalid status, cur: " ++ toString o.Status ++ ", next: "
          ++ toString t))) := by
  have hiff : o.Status = intSub t 1 ↔ t = intAdd o.Status 1 := by
    unfold IsInt at hc ht
    unfold intAdd intSub wrapInt
    omega
  by_cases hcase : o.Status = intSub t 1
  · have hrun := UpdateOrderStatus_unsupported w orderNo t shippingNo o hget hcase hs hd
    rw [hrun]
    exact ⟨rfl, fun _ => rfl, fun hne => absurd (hiff.mp hcase) hne⟩
  · have hrun := UpdateOrderStatus_invalid w orderNo t shippingNo o hget hcase
    rw [hrun]
    exact ⟨rfl, fun heq => absurd (hiff.mpr heq) hcase, fun _ => rfl⟩

theorem UpdateOrderStatus_other_target_fails_witness :
    (UpdateOrderStatus sampleEnv "TEST004" CREATED "").calls = [Call.GetByOrderNo "TEST004"] ∧
    (UpdateOrderStatus sampleEnv "TEST004" CREATED "").outcome = .returned (some
      "UpdateOrderStatus: Invalid status, cur: 2, next: 1") :=
  have h := UpdateOrderStatus_other_target_fails sampleEnv "TEST004" CREATED "" _ rfl
    (by decide) (by decide) (by decide) (by decide)
  ⟨h.1, h.2.2 (by decide)⟩

/-- C6: for a stored `PAYED` order and target `SHIPPED` the only store write is
one `UpdateStatusWithDeliveryInfo` for the order number, carrying `SHIPPED`, the
current time and the supplied tracking number; for a stored `SHIPPED` order and
target `DELIVERED` it is one `UpdateStatusAndConfirmTime` carrying `DELIVERED`
and the current time; when that update succeeds the operation returns nil. -/
theorem UpdateOrderStatus_single_store_update (w : Env) (orderNo : String)
    (shippingNo : String) (o : Order) (hget : w.GetByOrderNo [] orderNo = .ok o) :
    (o.Status = PAYED →
      (UpdateOrderStatus w orderNo SHIPPED shippingNo).calls.filter Call.isStoreWrite =
        [Call.UpdateStatusWithDeliveryInfo orderNo SHIPPED (w.Now [Call.GetByOrderNo orderNo])
          shippingNo] ∧
      (w.UpdateStatusWithDeliveryInfo [Call.GetByOrderNo orderNo] orderNo SHIPPED
          (w.Now [Call.GetByOrderNo orderNo]) shippingNo = none →
        (UpdateOrderStatus w orderNo SHIPPED shippingNo).outcome = .returned none)) ∧
    (o.Status = SHIPPED →
      (UpdateOrderStatus w orderNo DELIVERED shippingNo).calls.filter Call.isStoreWrite =
        [Call.UpdateStatusAndConfirmTime orderNo DELIVERED (w.Now [Call.GetByOrderNo orderNo])] ∧
      (w.UpdateStatusAndConfirmTime [Call.GetByOrderNo orderNo] orderNo DELIVERED
          (w.Now [Call.GetByOrderNo orderNo]) = none →
        (UpdateOrderStatus w orderNo DELIVERED shippingNo).outcome = .returned none)) := by
  constructor
  · intro hst
    rw [UpdateOrderStatus_shipped w orderNo shippingNo o hget hst]
    split
    · next err herr => exact ⟨rfl, fun h => by rw [herr] at h; cases h⟩
    · exact ⟨rfl, fun _ => rfl⟩
  · intro hst
    rw [UpdateOrderStatus_delivered w orderNo shippingNo o hget hst]
    split
    · next err herr => exact ⟨rfl, fun h => by rw [herr] at h; cases h⟩
    · exact ⟨rfl, fun _ => rfl⟩

theorem UpdateOrderStatus_single_store_update_witness :
    (UpdateOrderStatus sampleEnv "TEST001" SHIPPED "SF12345").calls.filter Call.isStoreWrite =
      [Call.UpdateStatusWithDeliveryInfo "TEST001" SHIPPED 1 "SF12345"] ∧
    (UpdateOrderStatus sampleEnv "TEST001" SHIPPED "SF12345").outcome = .returned none :=
  have h := (UpdateOrderStatus_single_store_update sampleEnv "TEST001" "SF12345" _ rfl).1 rfl
  ⟨h.1, h.2 rfl⟩

/-- C7: `UpdateOrderStatus` publishes an event exactly when the lookup
succeeded, the transition is `PAYED` to `SHIPPED` or `SHIPPED` to `DELIVERED`,
and the store update succeeded.  Then it sends one `order_status_changed`
message keyed by the order number, encoding the owner id, the new status and
the remark `Paid --> Shipped` or `Shipped --> Delivered`, and returns nil.  When
the lookup, the precondition or the store update fails, the error is returned
and nothing is sent. -/
theorem UpdateOrderStatus_event_iff_updated (w : Env) (orderNo : String) (t : Int)
    (shippingNo : String) :
    ((UpdateOrderStatus w orderNo t shippingNo).calls.filter Call.isEvent ≠ [] ↔
      ∃ o, w.GetByOrderNo [] orderNo = .ok o ∧
        ((o.Status = PAYED ∧ t = SHIPPED ∧
            w.UpdateStatusWithDeliveryInfo [Call.GetByOrderNo orderNo] orderNo SHIPPED
              (w.Now [Call.GetByOrderNo orderNo]) shippingNo = none) ∨
          (o.Status = SHIPPED ∧ t = DELIVERED ∧
            w.UpdateStatusAndConfirmTime [Call.GetByOrderNo orderNo] orderNo DELIVERED
              (w.Now [Call.GetByOrderNo orderNo]) = none))) ∧
    (∀ o, w.GetByOrderNo [] orderNo = .ok o → o.Status = PAYED → t = SHIPPED →
      w.UpdateStatusWithDeliveryInfo [Call.GetByOrderNo orderNo] orderNo SHIPPED
        (w.Now [Call.GetByOrderNo orderNo]) shippingNo = none →
      (UpdateOrderStatus w orderNo t shippingNo).calls.filter Call.isEvent =
        [Call.SendMsg "order_status_changed" orderNo (w.JSONEncodeStatusMessage
          ⟨orderNo, o.UserID, "Paid --> Shipped", SHIPPED⟩).1] ∧
      (UpdateOrderStatus w orderNo t shippingNo).outcome = .returned none) ∧
    (∀ o, w.GetByOrderNo [] orderNo = .ok o → o.Status = SHIPPED → t = DELIVERED →
      w.UpdateStatusAndConfirmTime [Call.GetByOrderNo orderNo] orderNo DELIVERED
        (w.Now [Call.GetByOrderNo orderNo]) = none →
      (UpdateOrderStatus w orderNo t shippingNo).calls.filter Call.isEvent =
        [Call.SendMsg "order_status_changed" orderNo (w.JSONEncodeStatusMessage
          ⟨orderNo, o.UserID, "Shipped --> Delivered", DELIVERED⟩).1] ∧
      (UpdateOrderStatus w orderNo t shippingNo).outcome = .returned none) ∧
    (∀ err, w.GetByOrderNo [] orderNo = .error err →
      (UpdateOrderStatus w orderNo t shippingNo).calls.filter Call.isEvent = [] ∧
      (UpdateOrderStatus w orderNo t shippingNo).outcome = .returned (some err)) ∧
    (∀ o, w.GetByOrderNo [] orderNo = .ok o →
      o.Status ≠ intSub t 1 ∨ (t ≠ SHIPPED ∧ t ≠ DELIVERED) →
      (UpdateOrderStatus w orderNo t shippingNo).calls.filter Call.isEvent = [] ∧
      ∃ err, (UpdateOrderStatus w orderNo t shippingNo).outcome = .returned (some err)) ∧
    (∀ o err, w.GetByOrderNo [] orderNo = .ok o → o.Status = PAYED → t = SHIPPED →
      w.UpdateStatusWithDeliveryInfo [Call.GetByOrderNo orderNo] orderNo SHIPPED
        (w.Now [Call.GetByOrderNo orderNo]) shippingNo = some err →
      (UpdateOrderStatus w orderNo t shippingNo).calls.filter Call.isEvent = [] ∧
      (UpdateOrderStatus w orderNo t shippingNo).outcome = .returned (some err)) ∧
    (∀ o err, w.GetByOrderNo [] orderNo = .ok o → o.Status = SHIPPED → t = DELIVERED →
      w.UpdateStatusAndConfirmTime [Call.GetByOrderNo orderNo] orderNo DELIVERED
        (w.Now [Call.GetByOrderNo orderNo]) = some err →
      (UpdateOrderStatus w orderNo t shippingNo).calls.filter Call.isEvent = [] ∧
      (UpdateOrderStatus w orderNo t shippingNo).outcome = .returned (some err)) := by
  have hship : ∀ o, w.GetByOrderNo [] orderNo = .ok o → o.Status = PAYED → t = SHIPPED →
      w.UpdateStatusWithDeliveryInfo [Call.GetByOrderNo orderNo] orderNo SHIPPED
        (w.Now [Call.GetByOrderNo orderNo]) shippingNo = none →
      (UpdateOrderStatus w orderNo t shippingNo).calls.filter Call.isEvent =
        [Call.SendMsg "order_status_changed" orderNo (w.JSONEncodeStatusMessage
          ⟨orderNo, o.UserID, "Paid --> Shipped", SHIPPED⟩).1] ∧
      (UpdateOrderStatus w orderNo t shippingNo).outcome = .returned none := by
    intro o hget hst ht hupd
    subst ht
    rw [UpdateOrderStatus_shipped w orderNo shippingNo o hget hst, hupd]
    exact ⟨rfl, rfl⟩
  have hdel : ∀ o, w.GetByOrderNo [] orderNo = .ok o → o.Status = SHIPPED → t = DELIVERED →
      w.UpdateStatusAndConfirmTime [Call.GetByOrderNo orderNo] orderNo DELIVERED
        (w.Now [Call.GetByOrderNo orderNo]) = none →
      (UpdateOrderStatus w orderNo t shippingNo).calls.filter Call.isEvent =
        [Call.SendMsg "order_status_changed" orderNo (w.JSONEncodeStatusMessage
          ⟨orderNo, o.UserID, "Shipped --> Delivered", DELIVERED⟩).1] ∧
      (UpdateOrderStatus w orderNo t shippingNo).outcome = .returned none := by
    intro o hget hst ht hupd
    subst ht
    rw [UpdateOrderStatus_delivered w orderNo shippingNo o hget hst, hupd]
    exact ⟨rfl, rfl⟩
  have hshipErr : ∀ o err, w.GetByOrderNo [] orderNo = .ok o → o.Status = PAYED →
      t = SHIPPED →
      w.UpdateStatusWithDeliveryInfo [Call.GetByOrderNo orderNo] orderNo SHIPPED
        (w.Now [Call.GetByOrderNo orderNo]) shippingNo = some err →
      (UpdateOrderStatus w orderNo t shippingNo).calls.filter Call.isEvent = [] ∧
      (UpdateOrderStatus w orderNo t shippingNo).outcome = .returned (some err) := by
    intro o err hget hst ht hupd
    subst ht
    rw [UpdateOrderStatus_shipped w orderNo shippingNo o hget hst, hupd]
    exact ⟨rfl, rfl⟩
  have hdelErr : ∀ o err, w.GetByOrderNo [] orderNo = .ok o → o.Status = SHIPPED →
      t = DELIVERED →
      w.UpdateStatusAndConfirmTime [Call.GetByOrderNo orderNo] orderNo DELIVERED
        (w.Now [Call.GetByOrderNo orderNo]) = some err →
      (UpdateOrderStatus w orderNo t shippingNo).calls.filter Call.isEvent = [] ∧
      (UpdateOrderStatus w orderNo t shippingNo).outcome = .returned (some err) := by
    intro o err hget hst ht hupd
    subst ht
    rw [UpdateOrderStatus_delivered w orderNo shippingNo o hget hst, hupd]
    exact ⟨rfl, rfl⟩
  have hlookup : ∀ err, w.GetByOrderNo [] orderNo = .error err →
      (UpdateOrderStatus w orderNo t shippingNo).calls.filter Call.isEvent = [] ∧
      (UpdateOrderStatus w orderNo t shippingNo).outcome = .returned (some err) := by
    intro err hget
    rw [UpdateOrderStatus_lookup_error w orderNo t shippingNo err hget]
    exact ⟨rfl, rfl⟩
  have hpre : ∀ o, w.GetByOrderNo [] orderNo = .ok o →
      o.Status ≠ intSub t 1 ∨ (t ≠ SHIPPED ∧ t ≠ DELIVERED) →
      (UpdateOrderStatus w orderNo t shippingNo).calls.filter Call.isEvent = [] ∧
      ∃ err, (UpdateOrderStatus w orderNo t shippingNo).outcome = .returned (some err) := by
    intro o hget hor
    by_cases hcase : o.Status = intSub t 1
    · rcases hor with hne | ⟨hs, hd⟩
      · exact absurd hcase hne
      · rw [UpdateOrderStatus_unsupported w orderNo t shippingNo o hget hcase hs hd]
        exact ⟨rfl, _, rfl⟩
    · rw [UpdateOrderStatus_invalid w orderNo t shippingNo o hget hcase]
      exact ⟨rfl, _, rfl⟩
  refine ⟨⟨fun hev => ?_, fun hsucc => ?_⟩, hship, hdel, hlookup, hpre, hshipErr, hdelErr⟩
  · cases hget : w.GetByOrderNo [] orderNo with
    | error err => exact absurd (hlookup err hget).1 hev
    | ok o =>
      refine ⟨o, rfl, ?_⟩
      by_cases hcase : o.Status = intSub t 1
      · by_cases hs : t = SHIPPED
        · have hst : o.Status = PAYED := by rw [hcase, hs]; decide
          cases hupd : w.UpdateStatusWithDeliveryInfo [Call.GetByOrderNo orderNo] orderNo
              SHIPPED (w.Now [Call.GetByOrderNo orderNo]) shippingNo with
          | none => exact Or.inl ⟨hst, hs, rfl⟩
          | some err => exact absurd (hshipErr o err hget hst hs hupd).1 hev
        · by_cases hd : t = DELIVERED
          · have hst : o.Status = SHIPPED := by rw [hcase, hd]; decide
            cases hupd : w.UpdateStatusAndConfirmTime [Call.GetByOrderNo orderNo] orderNo
                DELIVERED (w.Now [Call.GetByOrderNo orderNo]) with
            | none => exact Or.inr ⟨hst, hd, rfl⟩
            | some err => exact absurd (hdelErr o err hget hst hd hupd).1 hev
          · exact absurd (hpre o hget (Or.inr ⟨hs, hd⟩)).1 hev
      · exact absurd (hpre o hget (Or.inl hcase)).1 hev
  · obtain ⟨o, hget, hcases⟩ := hsucc
    rcases hcases with ⟨hst, ht, hupd⟩ | ⟨hst, ht, hupd⟩
    · rw [(hship o hget hst ht hupd).1]
      exact List.cons_ne_nil _ _
    · rw [(hdel o hget hst ht hupd).1]
      exact List.cons_ne_nil _ _

theorem UpdateOrderStatus_event_iff_updated_witness :
    (UpdateOrderStatus sampleEnv "TEST001" SHIPPED "SF12345").calls.filter Call.isEvent =
      [Call.SendMsg "order_status_changed" "TEST001" "Paid --> Shipped"] ∧
    (UpdateOrderStatus sampleEnv "TEST001" SHIPPED "SF12345").outcome = .returned none :=
  (UpdateOrderStatus_event_iff_updated sampleEnv "TEST001" SHIPPED "SF12345").2.1 _ rfl rfl rfl
    rfl

/-- C8: the run of `UpdateOrderStatus` does not depend on the responses of the
message writer; for a legal transition whose store update succeeds it returns
nil, and the calls are the lookup, the one store update and the publish, so
nothing is written to the store after the publish. -/
theorem UpdateOrderStatus_publish_failure_ignored (w : Env)
    (send : List Call → String → String → String → Option Error) (orderNo : String) (t : Int)
    (shippingNo : String) :
    UpdateOrderStatus { w with SendMsg := send } orderNo t shippingNo =
      UpdateOrderStatus w orderNo t shippingNo ∧
    (∀ o, w.GetByOrderNo [] orderNo = .ok o →
      ((o.Status = PAYED ∧ t = SHIPPED ∧
          w.UpdateStatusWithDeliveryInfo [Call.GetByOrderNo orderNo] orderNo SHIPPED
            (w.Now [Call.GetByOrderNo orderNo]) shippingNo = none) ∨
        (o.Status = SHIPPED ∧ t = DELIVERED ∧
          w.UpdateStatusAndConfirmTime [Call.GetByOrderNo orderNo] orderNo DELIVERED
            (w.Now [Call.GetByOrderNo orderNo]) = none)) →
      (UpdateOrderStatus w orderNo t shippingNo).outcome = .returned none ∧
      ∃ update msg, (UpdateOrderStatus w orderNo t shippingNo).calls =
          [Call.GetByOrderNo orderNo, update,
            Call.SendMsg "order_status_changed" orderNo msg] ∧
        update.isStoreWrite = true) := by
  refine ⟨rfl, ?_⟩
  intro o hget hcases
  rcases hcases with ⟨hst, ht, hupd⟩ | ⟨hst, ht, hupd⟩
  · subst ht
    rw [UpdateOrderStatus_shipped w orderNo shippingNo o hget hst, hupd]
    exact ⟨rfl, _, _, rfl, rfl⟩
  · subst ht
    rw [UpdateOrderStatus_delivered w orderNo shippingNo o hget hst, hupd]
    exact ⟨rfl, _, _, rfl, rfl⟩

theorem UpdateOrderStatus_publish_failure_ignored_witness :
    (UpdateOrderStatus publishDownEnv "TEST002" SHIPPED "SF12345").outcome = .returned none :=
  ((UpdateOrderStatus_publish_failure_ignored publishDownEnv publishDownEnv.SendMsg "TEST002"
    SHIPPED "SF12345").2 _ rfl (Or.inl ⟨rfl, rfl, rfl⟩)).1

/-! ## `CreateOrder`: failures before anything is written -/

/-- C9: when `GetProductList` returns an error, `CreateOrder` returns the empty
order number with that error, and the inventory read is the only call it
issued: no order row, no line items, no event, no stock decrement and no
payment request. -/
theorem CreateOrder_inventory_error (w : Env) (orderInfo : OrderInfo) (userID : Int)
    (err : Error)
    (hget : w.GetProductList [] (orderInfo.OrderItemList.map (fun item => item.ProductID))
      = .error err) :
    CreateOrder w orderInfo userID =
      ⟨[Call.GetProductList (orderInfo.OrderItemList.map (fun item => item.ProductID))],
        .returned ("", some err)⟩ := by
  simp only [CreateOrder, hget]

theorem CreateOrder_inventory_error_witness :
    CreateOrder inventoryDownEnv sampleOrderInfo 7 =
      ⟨[Call.GetProductList [1]], .returned ("", some "rpc error: inventory unavailable")⟩ :=
  CreateOrder_inventory_error inventoryDownEnv sampleOrderInfo 7 _ rfl

/-- C10: when some line item asks for more than the stock reported by the
inventory response, `CreateOrder` returns the empty order number and an error,
and the inventory read is the only call it issued: no order row, no line items,
no event, no stock decrement and no payment request. -/
theorem CreateOrder_insufficient_stock (w : Env) (orderInfo : OrderInfo) (userID : Int)
    (products : List Product)
    (hprod : w.GetProductList [] (orderInfo.OrderItemList.map (fun item => item.ProductID))
      = .ok products)
    (hlow : ∃ item ∈ orderInfo.OrderItemList,
      item.Quantity > productId2StockMap products item.ProductID) :
    ∃ err, CreateOrder w orderInfo userID =
      ⟨[Call.GetProductList (orderInfo.OrderItemList.map (fun item => item.ProductID))],
        .returned ("", some err)⟩ := by
  obtain ⟨err, herr⟩ := checkStock_error (productId2StockMap products)
    orderInfo.OrderItemList 0 hlow
  exact ⟨err, by simp only [CreateOrder, hprod, herr]⟩

theorem CreateOrder_insufficient_stock_witness :
    ∃ err, CreateOrder sampleEnv largeOrderInfo 7 =
      ⟨[Call.GetProductList [1]], .returned ("", some err)⟩ :=
  CreateOrder_insufficient_stock sampleEnv largeOrderInfo 7 [{ Id := 1, Stock := 10 }] rfl
    ⟨_, List.mem_singleton.mpr rfl, by decide⟩


/-! ## `CreateOrder` up to the publication of `order_created` -/

/-- When the stock check passes, both writes succeed, the order message is
encoded and `order_created` is published, `CreateOrder` continues as
`settleOrder` after these four calls. -/
theorem CreateOrder_eq_settleOrder (w : Env) (orderInfo : OrderInfo) (userID : Int)
    (products : List Product) (amount : Int) (orderMsg : String)
    (hprod : w.GetProductList [] (orderInfo.OrderItemList.map (fun item => item.ProductID))
      = .ok products)
    (hck : checkStock (productId2StockMap products) orderInfo.OrderItemList 0 = .ok amount) :
    let ids := orderInfo.OrderItemList.map (fun item => item.ProductID)
    let orderId := w.GenerateOrderID [Call.GetProductList ids]
    let order := newOrder orderId userID orderInfo amount (CalculateShippingFee amount)
      (CalculateTax amount) (w.Now [Call.GetProductList ids])
    let rows := orderInfo.OrderItemList.map
      (newOrderProduct orderId (w.Now [Call.GetProductList ids]))
    w.OrderCreate [Call.GetProductList ids] order = none →
    w.CreateBatch [Call.GetProductList ids, Call.OrderCreate order] rows = none →
    getOrderMsg w orderId orderInfo userID = (orderMsg, none) →
    w.SendMsg [Call.GetProductList ids, Call.OrderCreate order, Call.CreateBatch rows]
      "order_created" orderId orderMsg = none →
    CreateOrder w orderInfo userID =
      settleOrder w orderInfo userID orderId orderMsg amount (CalculateShippingFee amount)
        (CalculateTax amount)
        [Call.GetProductList ids, Call.OrderCreate order, Call.CreateBatch rows,
          Call.SendMsg "order_created" orderId orderMsg] := by
  intro ids orderId order rows hcreate hbatch hmsg hsend
  simp only [CreateOrder, hprod, hck]
  simp only [ids, orderId, order, rows, List.cons_append, List.nil_append] at hcreate hbatch hmsg hsend ⊢
  simp only [hcreate, hbatch, hmsg, hsend]

/-! ## The branches of `settleOrder` -/

theorem settleOrder_pay_error (w : Env) (orderInfo : OrderInfo) (userID : Int)
    (orderId orderMsg : String) (itemTotalAmount shippingFee tax : Int) (h : List Call)
    (err : Error) :
    let pre := h ++ [Call.SendMsg "order_status_changed" orderId
      (getOrderStatusChangedMsg w orderId userID "Created" 1).1]
      ++ orderInfo.OrderItemList.map stockDecrement
    let pay := Call.PayOrder (toInt32 userID)
      (toInt32 (intAdd (intAdd itemTotalAmount shippingFee) tax)) orderId
    w.PayOrder pre (toInt32 userID) (toInt32 (intAdd (intAdd itemTotalAmount shippingFee) tax))
      orderId = .error err →
    settleOrder w orderInfo userID orderId orderMsg itemTotalAmount shippingFee tax h =
      ⟨pre ++ [pay, Call.SendMsg "order_canceled" orderId orderMsg],
        .returned ("", some err)⟩ := by
  intro pre pay hpay
  simp only [pre, pay, List.append_assoc, List.cons_append, List.nil_append] at hpay ⊢
  simp only [settleOrder, hpay, List.append_assoc, List.cons_append, List.nil_append]

theorem settleOrder_pay_declined (w : Env) (orderInfo : OrderInfo) (userID : Int)
    (orderId orderMsg : String) (itemTotalAmount shippingFee tax : Int) (h : List Call)
    (payResp : PayOrderResponse) :
    let pre := h ++ [Call.SendMsg "order_status_changed" orderId
      (getOrderStatusChangedMsg w orderId userID "Created" 1).1]
      ++ orderInfo.OrderItemList.map stockDecrement
    let pay := Call.PayOrder (toInt32 userID)
      (toInt32 (intAdd (intAdd itemTotalAmount shippingFee) tax)) orderId
    w.PayOrder pre (toInt32 userID) (toInt32 (intAdd (intAdd itemTotalAmount shippingFee) tax))
      orderId = .ok payResp →
    payResp.Code ≠ 0 →
    settleOrder w orderInfo userID orderId orderMsg itemTotalAmount shippingFee tax h =
      ⟨pre ++ [pay, Call.SendMsg "order_canceled" orderId orderMsg],
        match payResp.ErrorMsg with
        | none => .panicked
        | some errMsg => .returned ("", some errMsg)⟩ := by
  intro pre pay hpay hcode
  simp only [pre, pay, List.append_assoc, List.cons_append, List.nil_append] at hpay ⊢
  simp only [settleOrder, hpay, hcode, ne_eq, not_false_eq_true, if_true, List.append_assoc,
    List.cons_append, List.nil_append]
  split <;> rfl

theorem settleOrder_paid (w : Env) (orderInfo : OrderInfo) (userID : Int)
    (orderId orderMsg : String) (itemTotalAmount shippingFee tax : Int) (h : List Call)
    (payResp : PayOrderResponse) :
    let pre := h ++ [Call.SendMsg "order_status_changed" orderId
      (getOrderStatusChangedMsg w orderId userID "Created" 1).1]
      ++ orderInfo.OrderItemList.map stockDecrement
    let pay := Call.PayOrder (toInt32 userID)
      (toInt32 (intAdd (intAdd itemTotalAmount shippingFee) tax)) orderId
    let update := Call.UpdateStatusAndPayment orderId PAYED (w.Now (pre ++ [pay]))
    w.PayOrder pre (toInt32 userID) (toInt32 (intAdd (intAdd itemTotalAmount shippingFee) tax))
      orderId = .ok payResp →
    payResp.Code = 0 →
    settleOrder w orderInfo userID orderId orderMsg itemTotalAmount shippingFee tax h =
      match w.UpdateStatusAndPayment (pre ++ [pay]) orderId PAYED (w.Now (pre ++ [pay])) with
      | some err => ⟨pre ++ [pay, update], .returned ("", some err)⟩
      | none =>
        ⟨pre ++ [pay, update, Call.SendMsg "order_status_changed" orderId
          (getOrderStatusChangedMsg w orderId userID "Created --> Paid" 2).1],
          .returned (orderId, none)⟩ := by
  intro pre pay update hpay hcode
  simp only [pre, pay, update, List.append_assoc, List.cons_append, List.nil_append] at hpay ⊢
  simp only [settleOrder, hpay, hcode, ne_eq, not_true_eq_false, if_false, List.append_assoc,
    List.cons_append, List.nil_append]

/-! ## `CreateOrder`: failures of the writes and of `order_created` -/

/-- C11: after a passed stock check, when the write of the order row fails,
`CreateOrder` returns the empty order number with that error and the run is
the inventory read and the refused write alone (the line-item write is not
attempted); when the order row is accepted and the line-item batch fails, it
returns the empty order number with that error and the run is the inventory
read and the two writes.  In both cases no event, no stock decrement and no
payment request is issued. -/
theorem CreateOrder_write_failure (w : Env) (orderInfo : OrderInfo) (userID : Int)
    (products : List Product) (amount : Int)
    (hprod : w.GetProductList [] (orderInfo.OrderItemList.map (fun item => item.ProductID))
      = .ok products)
    (hck : checkStock (productId2StockMap products) orderInfo.OrderItemList 0 = .ok amount) :
    let ids := orderInfo.OrderItemList.map (fun item => item.ProductID)
    let orderId := w.GenerateOrderID [Call.GetProductList ids]
    let order := newOrder orderId userID orderInfo amount (CalculateShippingFee amount)
      (CalculateTax amount) (w.Now [Call.GetProductList ids])
    let rows := orderInfo.OrderItemList.map
      (newOrderProduct orderId (w.Now [Call.GetProductList ids]))
    (∀ err, w.OrderCreate [Call.GetProductList ids] order = some err →
      CreateOrder w orderInfo userID =
        ⟨[Call.GetProductList ids, Call.OrderCreate order], .returned ("", some err)⟩) ∧
    (∀ err, w.OrderCreate [Call.GetProductList ids] order = none →
      w.CreateBatch [Call.GetProductList ids, Call.OrderCreate order] rows = some err →
      CreateOrder w orderInfo userID =
        ⟨[Call.GetProductList ids, Call.OrderCreate order, Call.CreateBatch rows],
          .returned ("", some err)⟩) := by
  intro ids orderId order rows
  constructor
  · intro err hcreate
    simp only [ids, orderId, order] at hcreate
    simp only [CreateOrder, hprod, hck, hcreate]
    rfl
  · intro err hcreate hbatch
    simp only [ids, orderId, order, rows] at hcreate hbatch
    simp only [CreateOrder, hprod, hck, hcreate, List.cons_append, List.nil_append, hbatch]

theorem CreateOrder_write_failure_witness :
    (CreateOrder orderCreateDownEnv sampleOrderInfo 7).outcome =
      .returned ("", some "db: insert order failed") ∧
    (CreateOrder createBatchDownEnv sampleOrderInfo 7).outcome =
      .returned ("", some "db: insert order items failed") :=
  ⟨congrArg Run.outcome ((CreateOrder_write_failure orderCreateDownEnv sampleOrderInfo 7
      [{ Id := 1, Stock := 10 }] 2000 rfl rfl).1 _ rfl),
    congrArg Run.outcome ((CreateOrder_write_failure createBatchDownEnv sampleOrderInfo 7
      [{ Id := 1, Stock := 10 }] 2000 rfl rfl).2 _ rfl rfl)⟩

/-- C12: when both writes succeeded and the publication of `order_created`
fails, `CreateOrder` returns the empty order number with that error; the run
is the inventory read, the write of the order row (status `CREATED`), the write
of the line items and the failed publish, so no status event, no stock
decrement, no payment request and no status update follows, and nothing
touches the two written records. -/
theorem CreateOrder_created_publish_failure (w : Env) (orderInfo : OrderInfo) (userID : Int)
    (products : List Product) (amount : Int) (orderMsg : String) (err : Error)
    (hprod : w.GetProductList [] (orderInfo.OrderItemList.map (fun item => item.ProductID))
      = .ok products)
    (hck : checkStock (productId2StockMap products) orderInfo.OrderItemList 0 = .ok amount) :
    let ids := orderInfo.OrderItemList.map (fun item => item.ProductID)
    let orderId := w.GenerateOrderID [Call.GetProductList ids]
    let order := newOrder orderId userID orderInfo amount (CalculateShippingFee amount)
      (CalculateTax amount) (w.Now [Call.GetProductList ids])
    let rows := orderInfo.OrderItemList.map
      (newOrderProduct orderId (w.Now [Call.GetProductList ids]))
    w.OrderCreate [Call.GetProductList ids] order = none →
    w.CreateBatch [Call.GetProductList ids, Call.OrderCreate order] rows = none →
    getOrderMsg w orderId orderInfo userID = (orderMsg, none) →
    w.SendMsg [Call.GetProductList ids, Call.OrderCreate order, Call.CreateBatch rows]
      "order_created" orderId orderMsg = some err →
    CreateOrder w orderInfo userID =
      ⟨[Call.GetProductList ids, Call.OrderCreate order, Call.CreateBatch rows,
        Call.SendMsg "order_created" orderId orderMsg], .returned ("", some err)⟩ ∧
    order.Status = CREATED := by
  intro ids orderId order rows hcreate hbatch hmsg hsend
  refine ⟨?_, rfl⟩
  simp only [ids, orderId, order, rows] at hcreate hbatch hmsg hsend
  simp only [CreateOrder, hprod, hck, hcreate, List.cons_append, List.nil_append, hbatch, hmsg,
    hsend]

theorem CreateOrder_created_publish_failure_witness :
    (CreateOrder publishDownEnv sampleOrderInfo 7).outcome =
      .returned ("", some "kafka: broker unavailable") :=
  congrArg Run.outcome (CreateOrder_created_publish_failure publishDownEnv sampleOrderInfo 7
    [{ Id := 1, Stock := 10 }] 2000 _ _ rfl rfl rfl rfl rfl rfl).1

/-! ## `CreateOrder`: stock decrements and the payment request -/

/-- The calls of `settleOrder` are the calls issued before it, the `Created`
status event, one stock decrement per line item in order, the payment request,
and after it only events and the update to `PAYED`. -/
theorem settleOrder_calls_payment (w : Env) (orderInfo : OrderInfo) (userID : Int)
    (orderId orderMsg : String) (itemTotalAmount shippingFee tax : Int) (h : List Call) :
    ∃ tail, (settleOrder w orderInfo userID orderId orderMsg itemTotalAmount shippingFee tax
        h).calls =
        h ++ [Call.SendMsg "order_status_changed" orderId
          (getOrderStatusChangedMsg w orderId userID "Created" 1).1]
          ++ orderInfo.OrderItemList.map stockDecrement
          ++ Call.PayOrder (toInt32 userID)
            (toInt32 (intAdd (intAdd itemTotalAmount shippingFee) tax)) orderId :: tail ∧
      ∀ c ∈ tail, (∃ t k v, c = Call.SendMsg t k v) ∨
        (∃ n s t, c = Call.UpdateStatusAndPayment n s t) := by
  cases hpay : w.PayOrder (h ++ [Call.SendMsg "order_status_changed" orderId
      (getOrderStatusChangedMsg w orderId userID "Created" 1).1]
      ++ orderInfo.OrderItemList.map stockDecrement) (toInt32 userID)
      (toInt32 (intAdd (intAdd itemTotalAmount shippingFee) tax)) orderId with
  | error err =>
    rw [settleOrder_pay_error w orderInfo userID orderId orderMsg itemTotalAmount shippingFee
      tax h err hpay]
    refine ⟨_, rfl, ?_⟩
    intro c hc
    exact Or.inl ⟨_, _, _, List.mem_singleton.mp hc⟩
  | ok payResp =>
    by_cases hcode : payResp.Code = 0
    · rw [settleOrder_paid w orderInfo userID orderId orderMsg itemTotalAmount shippingFee
        tax h payResp hpay hcode]
      split
      · refine ⟨_, rfl, ?_⟩
        intro c hc
        exact Or.inr ⟨_, _, _, List.mem_singleton.mp hc⟩
      · refine ⟨_, rfl, ?_⟩
        intro c hc
        rcases List.mem_cons.mp hc with hc | hc
        · exact Or.inr ⟨_, _, _, hc⟩
        · exact Or.inl ⟨_, _, _, List.mem_singleton.mp hc⟩
    · rw [settleOrder_pay_declined w orderInfo userID orderId orderMsg itemTotalAmount
        shippingFee tax h payResp hpay hcode]
      refine ⟨_, rfl, ?_⟩
      intro c hc
      exact Or.inl ⟨_, _, _, List.mem_singleton.mp hc⟩

/-- C13: once `order_created` is published, the run of `CreateOrder` continues
with the `Created` status event, then exactly one `UpdateStockWithCAS` per line
item, in line-item order, with the item's product id and the delta
`-1 * Quantity` (Go multiplication; `-Quantity` for every quantity but the
smallest `int`), then the payment request; no stock call occurs anywhere else.
The responses of the stock calls are discarded, so the payment request is
issued whatever they are. -/
theorem CreateOrder_stock_decrements (w : Env) (orderInfo : OrderInfo) (userID : Int)
    (products : List Product) (amount : Int) (orderMsg : String)
    (hprod : w.GetProductList [] (orderInfo.OrderItemList.map (fun item => item.ProductID))
      = .ok products)
    (hck : checkStock (productId2StockMap products) orderInfo.OrderItemList 0 = .ok amount) :
    let ids := orderInfo.OrderItemList.map (fun item => item.ProductID)
    let orderId := w.GenerateOrderID [Call.GetProductList ids]
    let order := newOrder orderId userID orderInfo amount (CalculateShippingFee amount)
      (CalculateTax amount) (w.Now [Call.GetProductList ids])
    let rows := orderInfo.OrderItemList.map
      (newOrderProduct orderId (w.Now [Call.GetProductList ids]))
    w.OrderCreate [Call.GetProductList ids] order = none →
    w.CreateBatch [Call.GetProductList ids, Call.OrderCreate order] rows = none →
    getOrderMsg w orderId orderInfo userID = (orderMsg, none) →
    w.SendMsg [Call.GetProductList ids, Call.OrderCreate order, Call.CreateBatch rows]
      "order_created" orderId orderMsg = none →
    (∃ statusMsg tail, (CreateOrder w orderInfo userID).calls =
        [Call.GetProductList ids, Call.OrderCreate order, Call.CreateBatch rows,
          Call.SendMsg "order_created" orderId orderMsg,
          Call.SendMsg "order_status_changed" orderId statusMsg]
        ++ orderInfo.OrderItemList.map
          (fun item => Call.UpdateStockWithCAS item.ProductID (intMul (-1) item.Quantity))
        ++ Call.PayOrder (toInt32 userID)
          (toInt32 (intAdd (intAdd amount (CalculateShippingFee amount)) (CalculateTax amount)))
          orderId :: tail ∧
      ∀ c ∈ tail, ∀ id deta, c ≠ Call.UpdateStockWithCAS id deta) ∧
    (∀ item ∈ orderInfo.OrderItemList, IsInt item.Quantity → item.Quantity ≠ -(2 ^ 63) →
      intMul (-1) item.Quantity = -item.Quantity) := by
  intro ids orderId order rows hcreate hbatch hmsg hsend
  constructor
  · rw [CreateOrder_eq_settleOrder w orderInfo userID products amount orderMsg hprod hck
      hcreate hbatch hmsg hsend]
    obtain ⟨tail, hcalls, htail⟩ := settleOrder_calls_payment w orderInfo userID orderId
      orderMsg amount (CalculateShippingFee amount) (CalculateTax amount)
      [Call.GetProductList ids, Call.OrderCreate order, Call.CreateBatch rows,
        Call.SendMsg "order_created" orderId orderMsg]
    refine ⟨(getOrderStatusChangedMsg w orderId userID "Created" 1).1, tail, ?_, ?_⟩
    · rw [hcalls]
      rfl
    · intro c hc id deta heq
      rcases htail c hc with ⟨_, _, _, h1⟩ | ⟨_, _, _, h1⟩ <;> rw [h1] at heq <;> cases heq
  · intro item _ hint hmin
    unfold IsInt at hint
    unfold intMul wrapInt
    omega

theorem CreateOrder_stock_decrements_witness :
    ∃ statusMsg tail, (CreateOrder sampleEnv sampleOrderInfo 7).calls =
      [Call.GetProductList [1],
        Call.OrderCreate (newOrder "20250101000000000001" 7 sampleOrderInfo 2000 800 180 1),
        Call.CreateBatch [newOrderProduct "20250101000000000001" 1
          { ProductID := 1, ProductName := "Test Product", Quantity := 2, Price := 1000 }],
        Call.SendMsg "order_created" "20250101000000000001" "20250101000000000001",
        Call.SendMsg "order_status_changed" "20250101000000000001" statusMsg]
      ++ [Call.UpdateStockWithCAS 1 (-2)]
      ++ Call.PayOrder 7 2980 "20250101000000000001" :: tail :=
  have h := (CreateOrder_stock_decrements sampleEnv sampleOrderInfo 7
    [{ Id := 1, Stock := 10 }] 2000 _ rfl rfl rfl rfl rfl rfl).1
  h.elim fun statusMsg h1 => h1.elim fun tail h2 => ⟨statusMsg, tail, h2.1⟩


/-! ## `CreateOrder`: payment -/

/-- C14, evaluated at a request for one unit at price 3000000000: the order row
is persisted with the grand total 3270000000, and the single payment request
asks for -1024967296, the 32-bit truncation of that total. -/
theorem CreateOrder_payment_amount_truncated :
    (CreateOrder sampleEnv expensiveOrderInfo 7).calls.filter Call.isPayment =
      [Call.PayOrder 7 (-1024967296) "20250101000000000001"] ∧
    (CreateOrder sampleEnv expensiveOrderInfo 7).calls.filter Call.isStoreWrite =
      [Call.OrderCreate (newOrder "20250101000000000001" 7 expensiveOrderInfo 3000000000 0
        270000000 1),
        Call.CreateBatch [newOrderProduct "20250101000000000001" 1
          { ProductID := 1, ProductName := "Test Product", Quantity := 1,
            Price := 3000000000 }],
        Call.UpdateStatusAndPayment "20250101000000000001" PAYED 7] ∧
    (newOrder "20250101000000000001" 7 expensiveOrderInfo 3000000000 0 270000000 1).TotalAmount
      = 3270000000 ∧
    (CreateOrder sampleEnv expensiveOrderInfo 7).outcome =
      .returned ("20250101000000000001", none) :=
  ⟨rfl, rfl, rfl, rfl⟩

/-- C15, evaluated at a payment response with code 1 and no error message: one
`order_canceled` event is published and the only store writes are the order row
and the line items, but `CreateOrder` panics instead of returning the empty
order number and an error. -/
theorem CreateOrder_payment_declined_silent :
    (CreateOrder paymentDeclinedSilentEnv sampleOrderInfo 7).outcome = .panicked ∧
    (CreateOrder paymentDeclinedSilentEnv sampleOrderInfo 7).calls.filter Call.isCancelEvent =
      [Call.SendMsg "order_canceled" "20250101000000000001" "20250101000000000001"] ∧
    (CreateOrder paymentDeclinedSilentEnv sampleOrderInfo 7).calls.filter Call.isStoreWrite =
      [Call.OrderCreate (newOrder "20250101000000000001" 7 sampleOrderInfo 2000 800 180 1),
        Call.CreateBatch [newOrderProduct "20250101000000000001" 1
          { ProductID := 1, ProductName := "Test Product", Quantity := 2, Price := 1000 }]] :=
  ⟨rfl, rfl, rfl⟩

/-- C16, evaluated at two payment responses with code 1: with the message
`Insufficient balance` the run returns the empty order number and an error with
that text; with no message the run panics and returns nothing. -/
theorem CreateOrder_payment_declined_outcomes :
    (CreateOrder paymentDeclinedEnv sampleOrderInfo 7).outcome =
      .returned ("", some "Insufficient balance") ∧
    (CreateOrder paymentDeclinedSilentEnv sampleOrderInfo 7).outcome = .panicked ∧
    ∀ r, (CreateOrder paymentDeclinedSilentEnv sampleOrderInfo 7).outcome ≠ .returned r := by
  have hp : (CreateOrder paymentDeclinedSilentEnv sampleOrderInfo 7).outcome = .panicked := rfl
  refine ⟨rfl, hp, fun r h => ?_⟩
  rw [hp] at h
  cases h

/-- C17: when every step up to the payment request succeeded and the payment
response has code 0, `CreateOrder` calls `UpdateStatusAndPayment` once, right
after the payment request, with the order number, `PAYED` and the current time.
When that update succeeds the run ends with one `order_status_changed` event
encoding the remark `Created --> Paid` and status 2, and returns the generated
order number with a nil error; the responses to the two status-event publishes
are not consulted.  When the update fails the run ends there and returns the
empty order number with that error. -/
theorem CreateOrder_payment_success (w : Env) (orderInfo : OrderInfo) (userID : Int)
    (products : List Product) (amount : Int) (orderMsg : String) (payResp : PayOrderResponse)
    (hprod : w.GetProductList [] (orderInfo.OrderItemList.map (fun item => item.ProductID))
      = .ok products)
    (hck : checkStock (productId2StockMap products) orderInfo.OrderItemList 0 = .ok amount) :
    let ids := orderInfo.OrderItemList.map (fun item => item.ProductID)
    let orderId := w.GenerateOrderID [Call.GetProductList ids]
    let order := newOrder orderId userID orderInfo amount (CalculateShippingFee amount)
      (CalculateTax amount) (w.Now [Call.GetProductList ids])
    let rows := orderInfo.OrderItemList.map
      (newOrderProduct orderId (w.Now [Call.GetProductList ids]))
    let pre := [Call.GetProductList ids, Call.OrderCreate order, Call.CreateBatch rows,
      Call.SendMsg "order_created" orderId orderMsg,
      Call.SendMsg "order_status_changed" orderId
        (w.JSONEncodeStatusMessage ⟨orderId, userID, "Created", 1⟩).1]
      ++ orderInfo.OrderItemList.map stockDecrement
    let pay := Call.PayOrder (toInt32 userID)
      (toInt32 (intAdd (intAdd amount (CalculateShippingFee amount)) (CalculateTax amount)))
      orderId
    let update := Call.UpdateStatusAndPayment orderId PAYED (w.Now (pre ++ [pay]))
    w.OrderCreate [Call.GetProductList ids] order = none →
    w.CreateBatch [Call.GetProductList ids, Call.OrderCreate order] rows = none →
    getOrderMsg w orderId orderInfo userID = (orderMsg, none) →
    w.SendMsg [Call.GetProductList ids, Call.OrderCreate order, Call.CreateBatch rows]
      "order_created" orderId orderMsg = none →
    w.PayOrder pre (toInt32 userID)
      (toInt32 (intAdd (intAdd amount (CalculateShippingFee amount)) (CalculateTax amount)))
      orderId = .ok payResp →
    payResp.Code = 0 →
    (w.UpdateStatusAndPayment (pre ++ [pay]) orderId PAYED (w.Now (pre ++ [pay])) = none →
      CreateOrder w orderInfo userID =
        ⟨pre ++ [pay, update, Call.SendMsg "order_status_changed" orderId
          (w.JSONEncodeStatusMessage ⟨orderId, userID, "Created --> Paid", 2⟩).1],
          .returned (orderId, none)⟩) ∧
    (∀ err, w.UpdateStatusAndPayment (pre ++ [pay]) orderId PAYED (w.Now (pre ++ [pay]))
        = some err →
      CreateOrder w orderInfo userID = ⟨pre ++ [pay, update], .returned ("", some err)⟩) := by
  intro ids orderId order rows pre pay update hcreate hbatch hmsg hsend hpay hcode
  have hrun := settleOrder_paid w orderInfo userID orderId orderMsg amount
    (CalculateShippingFee amount) (CalculateTax amount)
    [Call.GetProductList ids, Call.OrderCreate order, Call.CreateBatch rows,
      Call.SendMsg "order_created" orderId orderMsg] payResp hpay hcode
  rw [CreateOrder_eq_settleOrder w orderInfo userID products amount orderMsg hprod hck
    hcreate hbatch hmsg hsend, hrun]
  constructor
  · intro hupd
    have hupd2 : w.UpdateStatusAndPayment (pre ++ [pay]) orderId PAYED (w.Now (pre ++ [pay]))
        = none := hupd
    simp only [pre, pay, update, List.cons_append, List.nil_append, getOrderStatusChangedMsg]
      at hupd2 ⊢
    simp only [hupd2]
  · intro err hupd
    have hupd2 : w.UpdateStatusAndPayment (pre ++ [pay]) orderId PAYED (w.Now (pre ++ [pay]))
        = some err := hupd
    simp only [pre, pay, update, List.cons_append, List.nil_append, getOrderStatusChangedMsg]
      at hupd2 ⊢
    simp only [hupd2]

theorem CreateOrder_payment_success_witness :
    (CreateOrder sampleEnv sampleOrderInfo 7).outcome =
      .returned ("20250101000000000001", none) ∧
    (CreateOrder payUpdateDownEnv sampleOrderInfo 7).outcome =
      .returned ("", some "db: update failed") :=
  ⟨congrArg Run.outcome ((CreateOrder_payment_success sampleEnv sampleOrderInfo 7
      [{ Id := 1, Stock := 10 }] 2000 _ _ rfl rfl rfl rfl rfl rfl rfl rfl).1 rfl),
    congrArg Run.outcome ((CreateOrder_payment_success payUpdateDownEnv sampleOrderInfo 7
      [{ Id := 1, Stock := 10 }] 2000 _ _ rfl rfl rfl rfl rfl rfl rfl rfl).2 _ rfl)⟩


/-! ## `OrderAutoConfirm` -/

/-- The loop over the confirmed orders appends, in list order, one publish for
every order whose message is encoded without error. -/
theorem publishAutoConfirmed_eq (w : Env) (list : List OrderNoAndUserId) (h : List Call) :
    publishAutoConfirmed w list h = h ++ list.filterMap (fun order =>
      match getOrderStatusChangedMsg w order.OrderNo order.UserID "Shipped --> AutoConfirmed"
          DELIVERED with
      | (_, some _) => none
      | (oscMsg, none) => some (Call.SendMsg "order_status_changed" order.OrderNo oscMsg)) := by
  induction list generalizing h with
  | nil => simp [publishAutoConfirmed]
  | cons order rest ih =>
    rw [publishAutoConfirmed, List.filterMap_cons]
    split
    · exact ih h
    · rw [ih, List.append_assoc]
      rfl

/-- C18: when the lock cannot be acquired, `OrderAutoConfirm` returns after the
failed `Lock` alone: the order store is neither queried nor updated, no event
is published and `Unlock` is not called. -/
theorem OrderAutoConfirm_lock_failed (w : Env) (err : Error) (hlock : w.Lock [] = some err) :
    OrderAutoConfirm w = ⟨[Call.Lock], .returned ()⟩ := by
  simp only [OrderAutoConfirm, hlock]

theorem OrderAutoConfirm_lock_failed_witness :
    OrderAutoConfirm lockHeldEnv = ⟨[Call.Lock], .returned ()⟩ :=
  OrderAutoConfirm_lock_failed lockHeldEnv _ rfl

/-- C19: when the lock is acquired and the bulk operation returns a list of
orders, the run is the lock, the bulk operation, one publish for every order
whose message is encoded without error, in list order, and the unlock; the run
does not depend on the responses of the message writer.  When no encoding
fails (the encoder of the message record is not among the sources) these are
exactly as many publishes as orders, each on `order_status_changed`, keyed by
the order number and encoding the owner id, status `DELIVERED` and the remark
`Shipped --> AutoConfirmed`; for the empty list nothing is published. -/
theorem OrderAutoConfirm_publishes (w : Env) (list : List OrderNoAndUserId)
    (send : List Call → String → String → String → Option Error)
    (hlock : w.Lock [] = none)
    (hlist : w.AutoConfirmShippedOrders [Call.Lock] SHIPPED DELIVERED AUTO_CONFIRM_AFTER_DAYS
      = .ok list) :
    OrderAutoConfirm { w with SendMsg := send } = OrderAutoConfirm w ∧
    (OrderAutoConfirm w).calls =
      [Call.Lock, Call.AutoConfirmShippedOrders SHIPPED DELIVERED AUTO_CONFIRM_AFTER_DAYS]
      ++ list.filterMap (fun order =>
        match w.JSONEncodeStatusMessage
          ⟨order.OrderNo, order.UserID, "Shipped --> AutoConfirmed", DELIVERED⟩ with
        | (_, some _) => none
        | (oscMsg, none) => some (Call.SendMsg "order_status_changed" order.OrderNo oscMsg))
      ++ [Call.Unlock] ∧
    ((∀ order ∈ list, (w.JSONEncodeStatusMessage
        ⟨order.OrderNo, order.UserID, "Shipped --> AutoConfirmed", DELIVERED⟩).2 = none) →
      (OrderAutoConfirm w).calls =
        [Call.Lock, Call.AutoConfirmShippedOrders SHIPPED DELIVERED AUTO_CONFIRM_AFTER_DAYS]
        ++ list.map (fun order => Call.SendMsg "order_status_changed" order.OrderNo
          (w.JSONEncodeStatusMessage
            ⟨order.OrderNo, order.UserID, "Shipped --> AutoConfirmed", DELIVERED⟩).1)
        ++ [Call.Unlock] ∧
      ((OrderAutoConfirm w).calls.filter Call.isEvent).length = list.length) ∧
    (list = [] → (OrderAutoConfirm w).calls.filter Call.isEvent = []) := by
  have hcalls : (OrderAutoConfirm w).calls =
      [Call.Lock, Call.AutoConfirmShippedOrders SHIPPED DELIVERED AUTO_CONFIRM_AFTER_DAYS]
      ++ list.filterMap (fun order =>
        match w.JSONEncodeStatusMessage
          ⟨order.OrderNo, order.UserID, "Shipped --> AutoConfirmed", DELIVERED⟩ with
        | (_, some _) => none
        | (oscMsg, none) => some (Call.SendMsg "order_status_changed" order.OrderNo oscMsg))
      ++ [Call.Unlock] := by
    simp only [OrderAutoConfirm, hlock, hlist, publishAutoConfirmed_eq]
    rfl
  have hsend : OrderAutoConfirm { w with SendMsg := send } = OrderAutoConfirm w := by
    simp only [OrderAutoConfirm, publishAutoConfirmed_eq, getOrderStatusChangedMsg]
  refine ⟨hsend, hcalls, fun henc => ?_, fun hnil => ?_⟩
  · have hmap : list.filterMap (fun order =>
        match w.JSONEncodeStatusMessage
          ⟨order.OrderNo, order.UserID, "Shipped --> AutoConfirmed", DELIVERED⟩ with
        | (_, some _) => none
        | (oscMsg, none) => some (Call.SendMsg "order_status_changed" order.OrderNo oscMsg))
        = list.map (fun order => Call.SendMsg "order_status_changed" order.OrderNo
          (w.JSONEncodeStatusMessage
            ⟨order.OrderNo, order.UserID, "Shipped --> AutoConfirmed", DELIVERED⟩).1) := by
      clear hcalls hlist
      induction list with
      | nil => rfl
      | cons order rest ih =>
        have h1 := henc order (List.mem_cons_self _ _)
        have ih2 := ih (fun o ho => henc o (List.mem_cons_of_mem _ ho))
        rw [List.filterMap_cons, List.map_cons, ← ih2]
        generalize w.JSONEncodeStatusMessage
          ⟨order.OrderNo, order.UserID, "Shipped --> AutoConfirmed", DELIVERED⟩ = r at h1 ⊢
        obtain ⟨msg, e⟩ := r
        simp only at h1
        subst h1
        rfl
    rw [hcalls, hmap]
    refine ⟨rfl, ?_⟩
    have hfilter : ∀ l : List OrderNoAndUserId,
        (l.map (fun order => Call.SendMsg "order_status_changed" order.OrderNo
          (w.JSONEncodeStatusMessage
            ⟨order.OrderNo, order.UserID, "Shipped --> AutoConfirmed", DELIVERED⟩).1)).filter
          Call.isEvent
        = l.map (fun order => Call.SendMsg "order_status_changed" order.OrderNo
          (w.JSONEncodeStatusMessage
            ⟨order.OrderNo, order.UserID, "Shipped --> AutoConfirmed", DELIVERED⟩).1) := by
      intro l
      apply List.filter_eq_self.mpr
      intro c hc
      obtain ⟨o, _, rfl⟩ := List.mem_map.mp hc
      rfl
    simp [List.filter_append, hfilter, Call.isEvent]
  · subst hnil
    rw [hcalls]
    rfl

theorem OrderAutoConfirm_publishes_witness :
    (OrderAutoConfirm secondPublishDownEnv).calls =
      [Call.Lock, Call.AutoConfirmShippedOrders SHIPPED DELIVERED AUTO_CONFIRM_AFTER_DAYS,
        Call.SendMsg "order_status_changed" "A1" "Shipped --> AutoConfirmed",
        Call.SendMsg "order_status_changed" "A2" "Shipped --> AutoConfirmed",
        Call.SendMsg "order_status_changed" "A3" "Shipped --> AutoConfirmed",
        Call.Unlock] :=
  ((OrderAutoConfirm_publishes secondPublishDownEnv _ secondPublishDownEnv.SendMsg rfl rfl).2.2.1
    (by decide)).1

/-- C20: whenever `OrderAutoConfirm` acquires the lock, the run is the lock,
then store and publish calls, then one `Unlock` as the last call, on every
path (store error, no orders, publish failures, completion); no other `Unlock`
or `Lock` occurs, the run returns normally, and it does not depend on the
response of `Unlock`. -/
theorem OrderAutoConfirm_unlocks_once (w : Env) (unlock : List Call → Option Error)
    (hlock : w.Lock [] = none) :
    (∃ body, (OrderAutoConfirm w).calls = Call.Lock :: body ++ [Call.Unlock] ∧
      ∀ c ∈ body, c ≠ Call.Unlock ∧ c ≠ Call.Lock) ∧
    (OrderAutoConfirm w).calls.count Call.Unlock = 1 ∧
    (OrderAutoConfirm w).outcome = .returned () ∧
    OrderAutoConfirm { w with Unlock := unlock } = OrderAutoConfirm w := by
  have hbody : ∃ body, (OrderAutoConfirm w).calls = Call.Lock :: body ++ [Call.Unlock] ∧
      ∀ c ∈ body, c ≠ Call.Unlock ∧ c ≠ Call.Lock := by
    cases hlist : w.AutoConfirmShippedOrders [Call.Lock] SHIPPED DELIVERED
        AUTO_CONFIRM_AFTER_DAYS with
    | error err =>
      refine ⟨[Call.AutoConfirmShippedOrders SHIPPED DELIVERED AUTO_CONFIRM_AFTER_DAYS], ?_, ?_⟩
      · simp only [OrderAutoConfirm, hlock, hlist]
        rfl
      · intro c hc
        rw [List.mem_singleton.mp hc]
        exact ⟨(by intro h; cases h), (by intro h; cases h)⟩
    | ok list =>
      refine ⟨Call.AutoConfirmShippedOrders SHIPPED DELIVERED AUTO_CONFIRM_AFTER_DAYS ::
        list.filterMap (fun order =>
          match getOrderStatusChangedMsg w order.OrderNo order.UserID
              "Shipped --> AutoConfirmed" DELIVERED with
          | (_, some _) => none
          | (oscMsg, none) => some (Call.SendMsg "order_status_changed" order.OrderNo oscMsg)),
        ?_, ?_⟩
      · simp only [OrderAutoConfirm, hlock, hlist, publishAutoConfirmed_eq]
        rfl
      · intro c hc
        rcases List.mem_cons.mp hc with hc | hc
        · rw [hc]
          exact ⟨(by intro h; cases h), (by intro h; cases h)⟩
        · obtain ⟨o, _, ho⟩ := List.mem_filterMap.mp hc
          split at ho
          · cases ho
          · cases ho
            exact ⟨(by intro h; cases h), (by intro h; cases h)⟩
  have hunlock : OrderAutoConfirm { w with Unlock := unlock } = OrderAutoConfirm w := by
    simp only [OrderAutoConfirm, publishAutoConfirmed_eq, getOrderStatusChangedMsg]
  refine ⟨hbody, ?_, ?_, hunlock⟩
  · obtain ⟨body, hcalls, hnot⟩ := hbody
    have h0 : body.count Call.Unlock = 0 :=
      List.count_eq_zero.mpr (fun hmem => (hnot _ hmem).1 rfl)
    rw [hcalls, List.count_append, List.count_cons, h0]
    rfl
  · simp only [OrderAutoConfirm, hlock]
    split <;> rfl

theorem OrderAutoConfirm_unlocks_once_witness :
    (OrderAutoConfirm secondPublishDownEnv).calls.count Call.Unlock = 1 ∧
    (OrderAutoConfirm secondPublishDownEnv).outcome = .returned () :=
  have h := OrderAutoConfirm_unlocks_once secondPublishDownEnv secondPublishDownEnv.Unlock rfl
  ⟨h.2.1, h.2.2.1⟩

/-! ## Page limits -/

/-- C28: in both list endpoints the page limit handed to the service is 20 when
the requested limit is at most 0, 100 when it exceeds 100, and the requested
limit otherwise; it always lies between 1 and 100, and normalising twice is the
same as normalising once. -/
theorem page_limit_normalised (limit : Int) :
    CustomerListOrdersLimit limit = ListOrdersLimit limit ∧
    (limit ≤ 0 → ListOrdersLimit limit = 20) ∧
    (limit > 100 → ListOrdersLimit limit = 100) ∧
    (0 < limit → limit ≤ 100 → ListOrdersLimit limit = limit) ∧
    1 ≤ ListOrdersLimit limit ∧ ListOrdersLimit limit ≤ 100 ∧
    ListOrdersLimit (ListOrdersLimit limit) = ListOrdersLimit limit := by
  have hval : ListOrdersLimit limit =
      if limit ≤ 0 then 20 else if limit > 100 then 100 else limit := by
    unfold ListOrdersLimit
    by_cases h0 : limit ≤ 0
    · simp [h0]
    · simp only [h0, if_false]
  have hidem : ∀ x : Int, 1 ≤ x → x ≤ 100 → ListOrdersLimit x = x := by
    intro x h1 h2
    unfold ListOrdersLimit
    have h3 : ¬ x ≤ 0 := by omega
    have h4 : ¬ x > 100 := by omega
    simp only [h3, h4, if_false]
  have hrange : 1 ≤ ListOrdersLimit limit ∧ ListOrdersLimit limit ≤ 100 := by
    rw [hval]
    split
    · omega
    · split <;> omega
  refine ⟨rfl, fun h => ?_, fun h => ?_, fun h1 h2 => hidem limit (by omega) h2, hrange.1,
    hrange.2, hidem _ hrange.1 hrange.2⟩
  · rw [hval, if_pos h]
  · rw [hval, if_neg (by omega), if_pos h]

theorem page_limit_normalised_witness :
    ListOrdersLimit (-3) = 20 ∧ ListOrdersLimit 250 = 100 ∧ ListOrdersLimit 50 = 50 :=
  ⟨(page_limit_normalised (-3)).2.1 (by decide), (page_limit_normalised 250).2.2.1 (by decide),
    (page_limit_normalised 50).2.2.2.1 (by decide) (by decide)⟩

/-! ## `MyWriter.SendMsg` -/

/-- C25: for every topic, key and value, and every response of the underlying
writer, `MyWriter.SendMsg` returns nil; the response reaches only the line
logged by the goroutine. -/
theorem SendMsg_returns_nil (WriteMessages : KafkaMessage → Option Error)
    (topic key value : String) :
    (MyWriter.SendMsg WriteMessages topic key value).result = none ∧
    (MyWriter.SendMsg WriteMessages topic key value).written =
      { Topic := topic, Key := key, Value := value } ∧
    (MyWriter.SendMsg (fun _ => some "kafka: write failed") topic key value).result =
      (MyWriter.SendMsg (fun _ => none) topic key value).result :=
  ⟨rfl, rfl, rfl⟩

/-! ## The stock map and the stock validation -/

/-- Folding the response over any starting map: an id reads as the stock of the
last entry with that id, and as the starting value when there is none. -/
theorem foldl_stockMap (products : List Product) (m : Int → Int) (id : Int) :
    products.foldl (fun m product => fun id => if id = product.Id then product.Stock else m id)
      m id =
      match products.reverse.find? (fun p => decide (p.Id = id)) with
      | some p => p.Stock
      | none => m id := by
  induction products generalizing m with
  | nil => rfl
  | cons p ps ih =>
    rw [List.foldl_cons, ih, List.reverse_cons, List.find?_append]
    cases hfind : ps.reverse.find? (fun p => decide (p.Id = id)) with
    | some q => rfl
    | none =>
      by_cases hp : id = p.Id
      · have hp2 : p.Id = id := hp.symm
        simp [hp, List.find?_cons]
      · have hp2 : ¬ p.Id = id := fun h => hp h.symm
        simp [hp, hp2, List.find?_cons]

/-- The stock loop stops at the first line item that asks for more than the
stock and names it. -/
theorem checkStock_first_failure (stock : Int → Int) (pre post : List OrderItemInfo)
    (item : OrderItemInfo) (acc : Int)
    (hpre : ∀ it ∈ pre, it.Quantity ≤ stock it.ProductID)
    (hitem : item.Quantity > stock item.ProductID) :
    checkStock stock (pre ++ item :: post) acc =
      .error ("CreateOrder failed, do not have enough stock, product id: "
        ++ toString item.ProductID) := by
  induction pre generalizing acc with
  | nil => simp only [List.nil_append, checkStock, hitem, if_true]
  | cons x xs ih =>
    have hx : ¬ x.Quantity > stock x.ProductID := by
      have := hpre x (List.mem_cons_self _ _)
      omega
    simp only [List.cons_append, checkStock, hx, if_false]
    exact ih _ (fun it hi => hpre it (List.mem_cons_of_mem _ hi))

/-- C29: the stock read for a product id is the stock of the last entry of the
inventory response with that id, and 0 when the response has no such entry; the
stock loop passes, and `CreateOrder` goes on to write the order row, exactly
when every line item has `Quantity ≤ stock(ProductID)`; otherwise the run ends
after the inventory read with the error naming the first failing line item in
request order. -/
theorem CreateOrder_stock_validation (w : Env) (orderInfo : OrderInfo) (userID : Int)
    (products : List Product)
    (hprod : w.GetProductList [] (orderInfo.OrderItemList.map (fun item => item.ProductID))
      = .ok products) :
    (∀ id, (∀ p ∈ products, p.Id ≠ id) → productId2StockMap products id = 0) ∧
    (∀ pre p post, products = pre ++ p :: post → (∀ q ∈ post, q.Id ≠ p.Id) →
      productId2StockMap products p.Id = p.Stock) ∧
    ((∃ amount, checkStock (productId2StockMap products) orderInfo.OrderItemList 0
        = .ok amount) ↔
      ∀ item ∈ orderInfo.OrderItemList,
        item.Quantity ≤ productId2StockMap products item.ProductID) ∧
    ((∃ o, Call.OrderCreate o ∈ (CreateOrder w orderInfo userID).calls) ↔
      ∀ item ∈ orderInfo.OrderItemList,
        item.Quantity ≤ productId2StockMap products item.ProductID) ∧
    (∀ pre item post, orderInfo.OrderItemList = pre ++ item :: post →
      (∀ it ∈ pre, it.Quantity ≤ productId2StockMap products it.ProductID) →
      item.Quantity > productId2StockMap products item.ProductID →
      CreateOrder w orderInfo userID =
        ⟨[Call.GetProductList (orderInfo.OrderItemList.map (fun item => item.ProductID))],
          .returned ("", some ("CreateOrder failed, do not have enough stock, product id: "
            ++ toString item.ProductID))⟩) := by
  have hiff : (∃ amount, checkStock (productId2StockMap products) orderInfo.OrderItemList 0
      = .ok amount) ↔ ∀ item ∈ orderInfo.OrderItemList,
        item.Quantity ≤ productId2StockMap products item.ProductID := by
    constructor
    · intro hok
      by_contra hnot
      push_neg at hnot
      obtain ⟨item, hmem, hgt⟩ := hnot
      obtain ⟨err, herr⟩ := checkStock_error (productId2StockMap products)
        orderInfo.OrderItemList 0 ⟨item, hmem, by omega⟩
      obtain ⟨amount, hamount⟩ := hok
      rw [herr] at hamount
      cases hamount
    · intro hall
      exact ⟨_, checkStock_ok _ _ 0 hall⟩
  refine ⟨?_, ?_, hiff, ?_, ?_⟩
  · intro id hnone
    unfold productId2StockMap
    rw [foldl_stockMap]
    have hfind : products.reverse.find? (fun p => decide (p.Id = id)) = none := by
      apply List.find?_eq_none.mpr
      intro p hp
      simpa using hnone p (List.mem_reverse.mp hp)
    rw [hfind]
  · intro pre p post hprods hlast
    unfold productId2StockMap
    rw [foldl_stockMap, hprods, List.reverse_append, List.reverse_cons, List.append_assoc,
      List.find?_append]
    have hfind : post.reverse.find? (fun q => decide (q.Id = p.Id)) = none := by
      apply List.find?_eq_none.mpr
      intro q hq
      simpa using hlast q (List.mem_reverse.mp hq)
    rw [hfind]
    simp [List.find?_cons]
  · rw [← hiff]
    constructor
    · rintro ⟨o, ho⟩
      cases hck : checkStock (productId2StockMap products) orderInfo.OrderItemList 0 with
      | ok amount => exact ⟨amount, rfl⟩
      | error err =>
        simp only [CreateOrder, hprod, hck, List.mem_singleton] at ho
        cases ho
    · rintro ⟨amount, hck⟩
      obtain ⟨rest, hcalls, _⟩ :=
        CreateOrder_calls_of_checkStock w orderInfo userID products amount hprod hck
      exact ⟨_, by rw [hcalls]; exact List.mem_cons_of_mem _ (List.mem_cons_self _ _)⟩
  · intro pre item post hitems hpre hitem
    have hck := checkStock_first_failure (productId2StockMap products) pre post item 0 hpre
      hitem
    rw [← hitems] at hck
    simp only [CreateOrder, hprod, hck]

theorem CreateOrder_stock_validation_witness :
    CreateOrder sampleEnv largeOrderInfo 7 =
      ⟨[Call.GetProductList [1]], .returned ("", some
        "CreateOrder failed, do not have enough stock, product id: 1")⟩ :=
  (CreateOrder_stock_validation sampleEnv largeOrderInfo 7 [{ Id := 1, Stock := 10 }]
    rfl).2.2.2.2 [] _ [] rfl (fun _ h => absurd h (List.not_mem_nil _)) (by decide)

/-! ## One order number per `CreateOrder` run -/

/-- Every call added by `settleOrder` carries the order number it was given,
and its result is that order number with a nil error or the empty string with
an error. -/
theorem settleOrder_orderNo (w : Env) (orderInfo : OrderInfo) (userID : Int)
    (orderId orderMsg : String) (itemTotalAmount shippingFee tax : Int) (h : List Call)
    (hh : ∀ c ∈ h, c.carriesOrderNo orderId) :
    (∀ c ∈ (settleOrder w orderInfo userID orderId orderMsg itemTotalAmount shippingFee tax
      h).calls, c.carriesOrderNo orderId) ∧
    (∀ r e, (settleOrder w orderInfo userID orderId orderMsg itemTotalAmount shippingFee tax
      h).outcome = .returned (r, e) → (e = none → r = orderId) ∧ (e ≠ none → r = "")) := by
  have hpre : ∀ c ∈ h ++ [Call.SendMsg "order_status_changed" orderId
      (getOrderStatusChangedMsg w orderId userID "Created" 1).1]
      ++ orderInfo.OrderItemList.map stockDecrement, c.carriesOrderNo orderId := by
    intro c hc
    rcases List.mem_append.mp hc with hc | hc
    · rcases List.mem_append.mp hc with hc | hc
      · exact hh c hc
      · rw [List.mem_singleton.mp hc]
        exact ⟨rfl, Or.inr (Or.inl rfl)⟩
    · obtain ⟨it, _, rfl⟩ := List.mem_map.mp hc
      trivial
  have hext : ∀ extra : List Call, (∀ c ∈ extra, c.carriesOrderNo orderId) →
      ∀ c ∈ h ++ [Call.SendMsg "order_status_changed" orderId
        (getOrderStatusChangedMsg w orderId userID "Created" 1).1]
        ++ orderInfo.OrderItemList.map stockDecrement ++ extra, c.carriesOrderNo orderId := by
    intro extra hextra c hc
    rcases List.mem_append.mp hc with hc | hc
    · exact hpre c hc
    · exact hextra c hc
  cases hpay : w.PayOrder (h ++ [Call.SendMsg "order_status_changed" orderId
      (getOrderStatusChangedMsg w orderId userID "Created" 1).1]
      ++ orderInfo.OrderItemList.map stockDecrement) (toInt32 userID)
      (toInt32 (intAdd (intAdd itemTotalAmount shippingFee) tax)) orderId with
  | error err =>
    rw [settleOrder_pay_error w orderInfo userID orderId orderMsg itemTotalAmount shippingFee
      tax h err hpay]
    refine ⟨hext _ ?_, ?_⟩
    · intro c hc
      rcases List.mem_cons.mp hc with hc | hc
      · rw [hc]
        exact rfl
      · rw [List.mem_singleton.mp hc]
        exact ⟨rfl, Or.inr (Or.inr rfl)⟩
    · intro r e hout
      cases hout
      exact ⟨fun hn => (by cases hn), fun _ => rfl⟩
  | ok payResp =>
    by_cases hcode : payResp.Code = 0
    · rw [settleOrder_paid w orderInfo userID orderId orderMsg itemTotalAmount shippingFee
        tax h payResp hpay hcode]
      split
      · refine ⟨hext _ ?_, ?_⟩
        · intro c hc
          rcases List.mem_cons.mp hc with hc | hc
          · rw [hc]
            exact rfl
          · rw [List.mem_singleton.mp hc]
            exact rfl
        · intro r e hout
          cases hout
          exact ⟨fun hn => (by cases hn), fun _ => rfl⟩
      · refine ⟨hext _ ?_, ?_⟩
        · intro c hc
          rcases List.mem_cons.mp hc with hc | hc
          · rw [hc]
            exact rfl
          · rcases List.mem_cons.mp hc with hc | hc
            · rw [hc]
              exact rfl
            · rw [List.mem_singleton.mp hc]
              exact ⟨rfl, Or.inr (Or.inl rfl)⟩
        · intro r e hout
          cases hout
          exact ⟨fun _ => rfl, fun hn => absurd rfl hn⟩
    · rw [settleOrder_pay_declined w orderInfo userID orderId orderMsg itemTotalAmount
        shippingFee tax h payResp hpay hcode]
      refine ⟨hext _ ?_, ?_⟩
      · intro c hc
        rcases List.mem_cons.mp hc with hc | hc
        · rw [hc]
          exact rfl
        · rw [List.mem_singleton.mp hc]
          exact ⟨rfl, Or.inr (Or.inr rfl)⟩
      · intro r e hout
        split at hout
        · cases hout
        · cases hout
          exact ⟨fun hn => (by cases hn), fun _ => rfl⟩

/-- C30: in every run of `CreateOrder` the order number generated after the
inventory read is the `OrderNo` of the order row and of every line-item row,
the key of every published event (each on `order_created`,
`order_status_changed` or `order_canceled`), the `BizId` of the payment request
and the order number of `UpdateStatusAndPayment`; no other call carrying an
order number is issued; a result with a nil error returns that order number,
and a result with an error returns the empty string. -/
theorem CreateOrder_single_order_number (w : Env) (orderInfo : OrderInfo) (userID : Int) :
    let orderId := w.GenerateOrderID
      [Call.GetProductList (orderInfo.OrderItemList.map (fun item => item.ProductID))]
    (∀ c ∈ (CreateOrder w orderInfo userID).calls, c.carriesOrderNo orderId) ∧
    (∀ r e, (CreateOrder w orderInfo userID).outcome = .returned (r, e) →
      (e = none → r = orderId) ∧ (e ≠ none → r = "")) := by
  intro orderId
  have hfail : ∀ (calls : List Call) (err : Error),
      (∀ c ∈ calls, c.carriesOrderNo orderId) →
      CreateOrder w orderInfo userID = ⟨calls, .returned ("", some err)⟩ →
      (∀ c ∈ (CreateOrder w orderInfo userID).calls, c.carriesOrderNo orderId) ∧
      (∀ r e, (CreateOrder w orderInfo userID).outcome = .returned (r, e) →
        (e = none → r = orderId) ∧ (e ≠ none → r = "")) := by
    intro calls err hcalls hrun
    rw [hrun]
    refine ⟨hcalls, ?_⟩
    intro r e hout
    cases hout
    exact ⟨fun hn => (by cases hn), fun _ => rfl⟩
  have h1 : ∀ c ∈ [Call.GetProductList
      (orderInfo.OrderItemList.map (fun item => item.ProductID))],
      c.carriesOrderNo orderId := by
    intro c hc
    rw [List.mem_singleton.mp hc]
    trivial
  cases hprod : w.GetProductList [] (orderInfo.OrderItemList.map (fun item => item.ProductID))
    with
  | error err => exact hfail _ err h1 (by simp only [CreateOrder, hprod])
  | ok products =>
    cases hck : checkStock (productId2StockMap products) orderInfo.OrderItemList 0 with
    | error err => exact hfail _ err h1 (by simp only [CreateOrder, hprod, hck])
    | ok amount =>
      have h2 : ∀ c ∈ [Call.GetProductList
          (orderInfo.OrderItemList.map (fun item => item.ProductID)),
          Call.OrderCreate (newOrder orderId userID orderInfo amount
            (CalculateShippingFee amount) (CalculateTax amount)
            (w.Now [Call.GetProductList
              (orderInfo.OrderItemList.map (fun item => item.ProductID))]))],
          c.carriesOrderNo orderId := by
        intro c hc
        rcases List.mem_cons.mp hc with hc | hc
        · exact h1 c (List.mem_singleton.mpr hc)
        · rw [List.mem_singleton.mp hc]
          exact rfl
      cases hcreate : w.OrderCreate
          [Call.GetProductList (orderInfo.OrderItemList.map (fun item => item.ProductID))]
          (newOrder orderId userID orderInfo amount (CalculateShippingFee amount)
            (CalculateTax amount)
            (w.Now [Call.GetProductList
              (orderInfo.OrderItemList.map (fun item => item.ProductID))])) with
      | some err =>
        exact hfail _ err h2 (by
          simp only [orderId] at hcreate
          simp only [CreateOrder, hprod, hck, hcreate]
          rfl)
      | none =>
        have h3 : ∀ c ∈ [Call.GetProductList
            (orderInfo.OrderItemList.map (fun item => item.ProductID)),
            Call.OrderCreate (newOrder orderId userID orderInfo amount
              (CalculateShippingFee amount) (CalculateTax amount)
              (w.Now [Call.GetProductList
                (orderInfo.OrderItemList.map (fun item => item.ProductID))])),
            Call.CreateBatch (orderInfo.OrderItemList.map (newOrderProduct orderId
              (w.Now [Call.GetProductList
                (orderInfo.OrderItemList.map (fun item => item.ProductID))])))],
            c.carriesOrderNo orderId := by
          intro c hc
          rcases List.mem_cons.mp hc with hc | hc
          · exact h1 c (List.mem_singleton.mpr hc)
          · rcases List.mem_cons.mp hc with hc | hc
            · rw [hc]
              exact rfl
            · rw [List.mem_singleton.mp hc]
              intro r hr
              obtain ⟨it, _, rfl⟩ := List.mem_map.mp hr
              rfl
        cases hbatch : w.CreateBatch
            [Call.GetProductList (orderInfo.OrderItemList.map (fun item => item.ProductID)),
              Call.OrderCreate (newOrder orderId userID orderInfo amount
                (CalculateShippingFee amount) (CalculateTax amount)
                (w.Now [Call.GetProductList
                  (orderInfo.OrderItemList.map (fun item => item.ProductID))]))]
            (orderInfo.OrderItemList.map (newOrderProduct orderId
              (w.Now [Call.GetProductList
                (orderInfo.OrderItemList.map (fun item => item.ProductID))]))) with
        | some err =>
          exact hfail _ err h3 (by
            simp only [orderId] at hcreate hbatch
            simp only [CreateOrder, hprod, hck, hcreate, List.cons_append, List.nil_append,
              hbatch])
        | none =>
          cases hmsg : getOrderMsg w orderId orderInfo userID with
          | mk orderMsg encErr =>
            cases encErr with
            | some err =>
              exact hfail _ err h3 (by
                simp only [orderId] at hcreate hbatch hmsg
                simp only [CreateOrder, hprod, hck, hcreate, List.cons_append,
                  List.nil_append, hbatch, hmsg])
            | none =>
              have h4 : ∀ c ∈ [Call.GetProductList
                  (orderInfo.OrderItemList.map (fun item => item.ProductID)),
                  Call.OrderCreate (newOrder orderId userID orderInfo amount
                    (CalculateShippingFee amount) (CalculateTax amount)
                    (w.Now [Call.GetProductList
                      (orderInfo.OrderItemList.map (fun item => item.ProductID))])),
                  Call.CreateBatch (orderInfo.OrderItemList.map (newOrderProduct orderId
                    (w.Now [Call.GetProductList
                      (orderInfo.OrderItemList.map (fun item => item.ProductID))]))),
                  Call.SendMsg "order_created" orderId orderMsg],
                  c.carriesOrderNo orderId := by
                intro c hc
                rcases List.mem_cons.mp hc with hc | hc
                · exact h3 c (hc ▸ List.mem_cons_self _ _)
                · rcases List.mem_cons.mp hc with hc | hc
                  · exact h3 c (hc ▸ List.mem_cons_of_mem _ (List.mem_cons_self _ _))
                  · rcases List.mem_cons.mp hc with hc | hc
                    · exact h3 c (hc ▸ List.mem_cons_of_mem _
                        (List.mem_cons_of_mem _ (List.mem_cons_self _ _)))
                    · rw [List.mem_singleton.mp hc]
                      exact ⟨rfl, Or.inl rfl⟩
              cases hsend : w.SendMsg
                  [Call.GetProductList
                    (orderInfo.OrderItemList.map (fun item => item.ProductID)),
                    Call.OrderCreate (newOrder orderId userID orderInfo amount
                      (CalculateShippingFee amount) (CalculateTax amount)
                      (w.Now [Call.GetProductList
                        (orderInfo.OrderItemList.map (fun item => item.ProductID))])),
                    Call.CreateBatch (orderInfo.OrderItemList.map (newOrderProduct orderId
                      (w.Now [Call.GetProductList
                        (orderInfo.OrderItemList.map (fun item => item.ProductID))])))]
                  "order_created" orderId orderMsg with
              | some err =>
                exact hfail _ err h4 (by
                  simp only [orderId] at hcreate hbatch hmsg hsend
                  simp only [CreateOrder, hprod, hck, hcreate, List.cons_append,
                    List.nil_append, hbatch, hmsg, hsend])
              | none =>
                rw [CreateOrder_eq_settleOrder w orderInfo userID products amount orderMsg
                  hprod hck hcreate hbatch hmsg hsend]
                exact settleOrder_orderNo w orderInfo userID orderId orderMsg amount
                  (CalculateShippingFee amount) (CalculateTax amount) _ h4

theorem CreateOrder_single_order_number_witness :
    (∀ c ∈ (CreateOrder sampleEnv sampleOrderInfo 7).calls,
      c.carriesOrderNo "20250101000000000001") ∧
    (∀ r e, (CreateOrder paymentDownEnv sampleOrderInfo 7).outcome = .returned (r, e) →
      (e = none → r = "20250101000000000001") ∧ (e ≠ none → r = "")) :=
  ⟨(CreateOrder_single_order_number sampleEnv sampleOrderInfo 7).1,
    (CreateOrder_single_order_number paymentDownEnv sampleOrderInfo 7).2⟩

/-! ## Order detail and order list -/

/-- The three ways `GetOrderDetail` ends in an error and the way it succeeds. -/
theorem GetOrderDetail_cases (w : Env) (orderNo : String) :
    (∃ calls err, GetOrderDetail w orderNo [] = ⟨calls, .returned (none, some err)⟩) ∨
    (∃ calls detail, GetOrderDetail w orderNo [] = ⟨calls, .returned (some detail, none)⟩) := by
  unfold GetOrderDetail
  simp only []
  split
  · exact Or.inl ⟨_, _, rfl⟩
  · split
    · exact Or.inl ⟨_, _, rfl⟩
    · split
      · exact Or.inl ⟨_, _, rfl⟩
      · exact Or.inr ⟨_, _, rfl⟩

/-- C26: when `GetOrderDetail` succeeds, `CustomerGetOrderDetail` returns that
same detail with a nil error if the owner id of the order equals the requesting
user id, and a nil detail with the error `invalid user ID` if it differs; so it
returns a detail exactly when `GetOrderDetail` succeeds for an order of that
user.  When the order lookup, the line-item lookup or the status-log lookup
fails, `GetOrderDetail` fails with that error and `CustomerGetOrderDetail`
returns a nil detail with that error. -/
theorem CustomerGetOrderDetail_owner_check (w : Env) (orderNo : String) (userId : Int) :
    (∀ calls detail, GetOrderDetail w orderNo [] = ⟨calls, .returned (some detail, none)⟩ →
      (detail.UserID = userId →
        CustomerGetOrderDetail w orderNo userId = ⟨calls, .returned (some detail, none)⟩) ∧
      (detail.UserID ≠ userId →
        CustomerGetOrderDetail w orderNo userId =
          ⟨calls, .returned (none, some "invalid user ID")⟩)) ∧
    (∀ calls err, GetOrderDetail w orderNo [] = ⟨calls, .returned (none, some err)⟩ →
      CustomerGetOrderDetail w orderNo userId = ⟨calls, .returned (none, some err)⟩) ∧
    ((∃ detail, (CustomerGetOrderDetail w orderNo userId).outcome
        = .returned (some detail, none)) ↔
      ∃ detail, (GetOrderDetail w orderNo []).outcome = .returned (some detail, none) ∧
        detail.UserID = userId) ∧
    (∀ err, w.GetByOrderNo [] orderNo = .error err →
      GetOrderDetail w orderNo [] =
        ⟨[Call.GetByOrderNo orderNo], .returned (none, some err)⟩) ∧
    (∀ order err, w.GetByOrderNo [] orderNo = .ok order →
      w.OrderProductGetByOrderNo [Call.GetByOrderNo orderNo] orderNo = .error err →
      GetOrderDetail w orderNo [] =
        ⟨[Call.GetByOrderNo orderNo, Call.OrderProductGetByOrderNo orderNo],
          .returned (none, some err)⟩) ∧
    (∀ order products err, w.GetByOrderNo [] orderNo = .ok order →
      w.OrderProductGetByOrderNo [Call.GetByOrderNo orderNo] orderNo = .ok products →
      w.OrderLogGetByOrderNo [Call.GetByOrderNo orderNo, Call.OrderProductGetByOrderNo orderNo]
        orderNo = .error err →
      GetOrderDetail w orderNo [] =
        ⟨[Call.GetByOrderNo orderNo, Call.OrderProductGetByOrderNo orderNo,
          Call.OrderLogGetByOrderNo orderNo], .returned (none, some err)⟩) ∧
    (∀ order products logs, w.GetByOrderNo [] orderNo = .ok order →
      w.OrderProductGetByOrderNo [Call.GetByOrderNo orderNo] orderNo = .ok products →
      w.OrderLogGetByOrderNo [Call.GetByOrderNo orderNo, Call.OrderProductGetByOrderNo orderNo]
        orderNo = .ok logs →
      GetOrderDetail w orderNo [] =
        ⟨[Call.GetByOrderNo orderNo, Call.OrderProductGetByOrderNo orderNo,
          Call.OrderLogGetByOrderNo orderNo],
          .returned (some (buildOrderDetail w order products logs), none)⟩ ∧
      (buildOrderDetail w order products logs).UserID = order.UserID) := by
  have hok : ∀ calls detail,
      GetOrderDetail w orderNo [] = ⟨calls, .returned (some detail, none)⟩ →
      (detail.UserID = userId →
        CustomerGetOrderDetail w orderNo userId = ⟨calls, .returned (some detail, none)⟩) ∧
      (detail.UserID ≠ userId →
        CustomerGetOrderDetail w orderNo userId =
          ⟨calls, .returned (none, some "invalid user ID")⟩) := by
    intro calls detail hget
    constructor
    · intro heq
      simp only [CustomerGetOrderDetail, hget, heq, ne_eq, not_true_eq_false, if_false]
    · intro hne
      simp only [CustomerGetOrderDetail, hget, hne, ne_eq, not_false_eq_true, if_true]
  have herr : ∀ calls err,
      GetOrderDetail w orderNo [] = ⟨calls, .returned (none, some err)⟩ →
      CustomerGetOrderDetail w orderNo userId = ⟨calls, .returned (none, some err)⟩ := by
    intro calls err hget
    simp only [CustomerGetOrderDetail, hget]
  refine ⟨hok, herr, ?_, ?_, ?_, ?_, ?_⟩
  · constructor
    · rintro ⟨detail, hout⟩
      rcases GetOrderDetail_cases w orderNo with ⟨calls, err, hget⟩ | ⟨calls, d, hget⟩
      · rw [herr calls err hget] at hout
        cases hout
      · by_cases huser : d.UserID = userId
        · exact ⟨d, by rw [hget], huser⟩
        · rw [(hok calls d hget).2 huser] at hout
          cases hout
    · rintro ⟨detail, hout, huser⟩
      rcases GetOrderDetail_cases w orderNo with ⟨calls, err, hget⟩ | ⟨calls, d, hget⟩
      · rw [hget] at hout
        cases hout
      · rw [hget] at hout
        cases hout
        exact ⟨detail, by rw [(hok calls detail hget).1 huser]⟩
  · intro err hget
    simp only [GetOrderDetail, hget, List.nil_append]
  · intro order err hget hprod
    simp only [GetOrderDetail, hget, List.nil_append, hprod, List.cons_append]
  · intro order products err hget hprod hlog
    simp only [GetOrderDetail, hget, List.nil_append, hprod, List.cons_append, hlog]
  · intro order products logs hget hprod hlog
    refine ⟨?_, rfl⟩
    simp only [GetOrderDetail, hget, List.nil_append, hprod, List.cons_append, hlog]

theorem CustomerGetOrderDetail_owner_check_witness :
    (∃ detail, (CustomerGetOrderDetail sampleEnv "TEST001" 7).outcome
      = .returned (some detail, none)) ∧
    (CustomerGetOrderDetail sampleEnv "TEST001" 456).outcome =
      .returned (none, some "invalid user ID") :=
  ⟨(CustomerGetOrderDetail_owner_check sampleEnv "TEST001" 7).2.2.1.mpr ⟨_, rfl, rfl⟩,
    congrArg Run.outcome (((CustomerGetOrderDetail_owner_check sampleEnv "TEST001" 456).1
      _ _ rfl).2 (by decide))⟩

/-- C27: when the store query succeeds, `ListOrders` returns a response whose
entries follow the store result one for one, in the same order, each copying
the order number, receiver names and phone, creation time and total amount and
carrying the status name of the order's status, and whose `Total` is the number
of entries; when the store query fails it returns a nil response and that
error.  The query copies the seven fields of the request. -/
theorem ListOrders_response (w : Env) (req : ListOrderRequest) :
    let query : OrderQuery := ⟨req.UserID, req.OrderStatus, req.StartTime, req.EndTime,
      req.OrderNo, req.Limit, req.Offset⟩
    (∀ orders, w.GetByOrderQuery [] query = .ok orders →
      ∃ resp, ListOrders w req = ⟨[Call.GetByOrderQuery query], .returned (some resp, none)⟩ ∧
        resp.Orders.length = orders.length ∧
        resp.Total = resp.Orders.length ∧
        resp.Orders.map (fun e => (e.OrderNo, e.ReceiverFirstName, e.ReceiverLastName,
            e.ReceiverPhone, e.CreateTime, e.TotalAmount, e.Status)) =
          orders.map (fun o => (o.OrderNo, o.ReceiverFirstName, o.ReceiverLastName,
            o.ReceiverPhone, o.CreateTime, o.TotalAmount, getOrderStatusName w o.Status))) ∧
    (∀ err, w.GetByOrderQuery [] query = .error err →
      ListOrders w req = ⟨[Call.GetByOrderQuery query], .returned (none, some err)⟩) := by
  intro query
  constructor
  · intro orders hq
    simp only [query] at hq
    have hrun : ListOrders w req = ⟨[Call.GetByOrderQuery query], .returned (some
        { Orders := orders.map (fun order =>
            { OrderNo := order.OrderNo
              ReceiverFirstName := order.ReceiverFirstName
              ReceiverLastName := order.ReceiverLastName
              ReceiverPhone := order.ReceiverPhone
              CreateTime := order.CreateTime
              TotalAmount := order.TotalAmount
              Status := getOrderStatusName w order.Status })
          Total := (orders.map (fun order => ({ OrderNo := order.OrderNo
                                                ReceiverFirstName := order.ReceiverFirstName
                                                ReceiverLastName := order.ReceiverLastName
                                                ReceiverPhone := order.ReceiverPhone
                                                CreateTime := order.CreateTime
                                                TotalAmount := order.TotalAmount
                                                Status := getOrderStatusName w order.Status }
                                              : OrderInfoInList))).length }, none)⟩ := by
      simp only [ListOrders, hq]
    refine ⟨_, hrun, ?_, rfl, ?_⟩
    · simp only [List.length_map]
    · simp only [List.map_map]
      rfl
  · intro err hq
    simp only [query] at hq
    simp only [ListOrders, hq]

theorem ListOrders_response_witness :
    ∃ resp, (ListOrders sampleEnv ⟨123, 0, 0, 0, "", 2, 0⟩).outcome
        = .returned (some resp, none) ∧
      resp.Orders.length = 2 ∧ resp.Total = resp.Orders.length :=
  have h := (ListOrders_response sampleEnv ⟨123, 0, 0, 0, "", 2, 0⟩).1 _ rfl
  h.elim fun resp hresp => ⟨resp, congrArg Run.outcome hresp.1, hresp.2.1, hresp.2.2.1⟩

/-! ## The distributed lock -/

/-- C22: without a client error `Lock` succeeds exactly when the key has no
entry; it then stores its own token with the configured time to live under the
key and leaves every other key as it was.  After a successful `Lock`, a `Lock`
on the same key by any other lock (in particular one with a different token)
while the entry exists returns `ErrLockFailed` and leaves the store, hence the
stored token, unchanged. -/
theorem Lock_set_if_absent (l1 l2 : DistributedLock) (r : Redis) :
    ((l1.Lock r none).2 = none ↔ r l1.key = none) ∧
    (r l1.key = none →
      (l1.Lock r none).1 l1.key = some { value := l1.value, expiration := l1.expiration } ∧
      ∀ k, k ≠ l1.key → (l1.Lock r none).1 k = r k) ∧
    (r l1.key ≠ none → l1.Lock r none = (r, some ErrLockFailed)) ∧
    ((l1.Lock r none).2 = none → l2.key = l1.key →
      l2.Lock (l1.Lock r none).1 none = ((l1.Lock r none).1, some ErrLockFailed) ∧
      (l2.Lock (l1.Lock r none).1 none).1 l1.key =
        some { value := l1.value, expiration := l1.expiration }) := by
  have habsent : r l1.key = none →
      l1.Lock r none = (fun k => if k = l1.key then
        some { value := l1.value, expiration := l1.expiration } else r k, none) := by
    intro h
    simp only [DistributedLock.Lock, redisSetNX, h]
    rfl
  have hpresent : ∀ (l : DistributedLock) (s : Redis), s l.key ≠ none →
      l.Lock s none = (s, some ErrLockFailed) := by
    intro l s h
    cases he : s l.key with
    | none => exact absurd he h
    | some e =>
      simp only [DistributedLock.Lock, redisSetNX, he]
      rfl
  have hiff : (l1.Lock r none).2 = none ↔ r l1.key = none := by
    constructor
    · intro h
      by_contra hne
      rw [hpresent l1 r hne] at h
      cases h
    · intro h
      rw [habsent h]
  refine ⟨hiff, fun h => ?_, hpresent l1 r, fun hok hkey => ?_⟩
  · rw [habsent h]
    refine ⟨by simp, fun k hk => by simp [hk]⟩
  · have h := hiff.mp hok
    have hstored : (l1.Lock r none).1 l1.key =
        some { value := l1.value, expiration := l1.expiration } := by
      rw [habsent h]
      simp
    have hrun := hpresent l2 (l1.Lock r none).1 (by rw [hkey, hstored]; simp)
    rw [hrun]
    exact ⟨rfl, hstored⟩

theorem Lock_set_if_absent_witness :
    (lockOfInstanceA.Lock emptyRedis none).2 = none ∧
    (lockOfInstanceB.Lock (lockOfInstanceA.Lock emptyRedis none).1 none).2 =
      some ErrLockFailed ∧
    (lockOfInstanceB.Lock (lockOfInstanceA.Lock emptyRedis none).1 none).1
      "order:auto_confirm:lock" = some { value := "instance-a", expiration := 10 } :=
  have hok : (lockOfInstanceA.Lock emptyRedis none).2 = none :=
    (Lock_set_if_absent lockOfInstanceA lockOfInstanceB emptyRedis).1.mpr rfl
  have h := (Lock_set_if_absent lockOfInstanceA lockOfInstanceB emptyRedis).2.2.2 hok rfl
  ⟨hok, congrArg Prod.snd h.1, h.2⟩

/-- C23: without a client error `Unlock` removes the key and returns nil when
the value stored under the key equals the caller's token; when the key has no
entry or holds another token it returns `ErrLockNotHeld` and the store is
unchanged.  So the key is deleted exactly when the stored value equals the
caller's token. -/
theorem Unlock_only_own_token (l : DistributedLock) (r : Redis) :
    (∀ entry, r l.key = some entry → entry.value = l.value →
      (l.Unlock r none).2 = none ∧ (l.Unlock r none).1 l.key = none ∧
      ∀ k, k ≠ l.key → (l.Unlock r none).1 k = r k) ∧
    (r l.key = none → l.Unlock r none = (r, some ErrLockNotHeld)) ∧
    (∀ entry, r l.key = some entry → entry.value ≠ l.value →
      l.Unlock r none = (r, some ErrLockNotHeld)) ∧
    ((l.Unlock r none).2 = none ↔ ∃ entry, r l.key = some entry ∧ entry.value = l.value) := by
  have hown : ∀ entry, r l.key = some entry → entry.value = l.value →
      l.Unlock r none = (fun k => if k = l.key then none else r k, none) := by
    intro entry he hv
    simp only [DistributedLock.Unlock, unlockScript, he, hv, if_true]
    rfl
  have habsent : r l.key = none → l.Unlock r none = (r, some ErrLockNotHeld) := by
    intro he
    simp only [DistributedLock.Unlock, unlockScript, he]
    rfl
  have hother : ∀ entry, r l.key = some entry → entry.value ≠ l.value →
      l.Unlock r none = (r, some ErrLockNotHeld) := by
    intro entry he hv
    simp only [DistributedLock.Unlock, unlockScript, he, hv, if_false]
    rfl
  refine ⟨fun entry he hv => ?_, habsent, hother, ?_⟩
  · rw [hown entry he hv]
    exact ⟨rfl, by simp, fun k hk => by simp [hk]⟩
  · constructor
    · intro hnil
      cases he : r l.key with
      | none =>
        rw [habsent he] at hnil
        cases hnil
      | some entry =>
        by_cases hv : entry.value = l.value
        · exact ⟨entry, rfl, hv⟩
        · rw [hother entry he hv] at hnil
          cases hnil
    · rintro ⟨entry, he, hv⟩
      rw [hown entry he hv]

theorem Unlock_only_own_token_witness :
    (lockOfInstanceB.Unlock (lockOfInstanceA.Lock emptyRedis none).1 none).2 =
      some ErrLockNotHeld ∧
    (lockOfInstanceA.Unlock (lockOfInstanceA.Lock emptyRedis none).1 none).2 = none :=
  ⟨congrArg Prod.snd ((Unlock_only_own_token lockOfInstanceB
      (lockOfInstanceA.Lock emptyRedis none).1).2.2.1 _ rfl (by decide)),
    ((Unlock_only_own_token lockOfInstanceA
      (lockOfInstanceA.Lock emptyRedis none).1).1 _ rfl rfl).1⟩

/-! ## The bulk auto-confirmation over the orders table -/

/-- Within a table of pairwise different order numbers, an order number is among
those of the selected orders exactly when the order is selected. -/
theorem mem_selected_orderNos (table : List Order) (p : Order → Bool)
    (hnodup : (table.map (fun o => o.OrderNo)).Nodup) (order : Order) (hmem : order ∈ table) :
    order.OrderNo ∈ (table.filter p).map (fun o => o.OrderNo) ↔ p order = true := by
  constructor
  · intro h
    obtain ⟨o, ho, hno⟩ := List.mem_map.mp h
    have hfo := List.mem_filter.mp ho
    have heq : o = order :=
      List.inj_on_of_nodup_map hnodup hfo.1 hmem hno
    rw [← heq]
    exact hfo.2
  · intro h
    exact List.mem_map.mpr ⟨order, List.mem_filter.mpr ⟨hmem, h⟩, rfl⟩

/-- Without store errors and with pairwise different order numbers, the bulk
operation rewrites exactly the selected rows and returns their pairs. -/
theorem AutoConfirmShippedOrders_run (table : List Order) (now1 now2 : Time)
    (shippedStatus deliveredStatus daysThreshold : Int)
    (hnodup : (table.map (fun o => o.OrderNo)).Nodup) :
    OrderDaoImpl.AutoConfirmShippedOrders table now1 now2 none none shippedStatus
      deliveredStatus daysThreshold =
      { table := table.map (fun order =>
          if isDueForConfirm shippedStatus (thresholdTime now1 daysThreshold) order then
            { order with Status := deliveredStatus, ConfirmTime := some now2 }
          else order)
        orderNos := (table.filter
          (isDueForConfirm shippedStatus (thresholdTime now1 daysThreshold))).map
            (fun order => { OrderNo := order.OrderNo, UserID := order.UserID })
        err := none } := by
  unfold OrderDaoImpl.AutoConfirmShippedOrders
  simp only []
  split
  · next hlen =>
    have hnil : table.filter (isDueForConfirm shippedStatus
        (thresholdTime now1 daysThreshold)) = [] := List.length_eq_zero.mp hlen
    rw [hnil]
    congr 1
    symm
    have hall : ∀ o ∈ table,
        isDueForConfirm shippedStatus (thresholdTime now1 daysThreshold) o = false := by
      intro o ho
      by_contra hne
      have : o ∈ table.filter (isDueForConfirm shippedStatus
          (thresholdTime now1 daysThreshold)) :=
        List.mem_filter.mpr ⟨ho, by simpa using hne⟩
      rw [hnil] at this
      exact List.not_mem_nil _ this
    calc table.map (fun order =>
          if isDueForConfirm shippedStatus (thresholdTime now1 daysThreshold) order then
            { order with Status := deliveredStatus, ConfirmTime := some now2 }
          else order)
        = table.map id := List.map_congr_left (fun o ho => by simp [hall o ho])
      _ = table := List.map_id _
  · congr 1
    apply List.map_congr_left
    intro o ho
    have hiff := mem_selected_orderNos table
      (isDueForConfirm shippedStatus (thresholdTime now1 daysThreshold)) hnodup o ho
    by_cases hp : isDueForConfirm shippedStatus (thresholdTime now1 daysThreshold) o = true
    · simp only [hiff.mpr hp, hp, if_true]
    · have hnot : ¬ o.OrderNo ∈ (table.filter (isDueForConfirm shippedStatus
          (thresholdTime now1 daysThreshold))).map (fun o => o.OrderNo) :=
        fun h => hp (hiff.mp h)
      simp [hnot, hp]

/-- The condition of the query, spelled out. -/
theorem isDueForConfirm_iff (shippedStatus : Int) (threshold : Time) (order : Order) :
    isDueForConfirm shippedStatus threshold order = true ↔
      order.Status = shippedStatus ∧
        ∃ deliveryTime, order.DeliveryTime = some deliveryTime ∧ deliveryTime ≤ threshold := by
  unfold isDueForConfirm
  cases hd : order.DeliveryTime with
  | none => simp
  | some t => simp

/-- C21: over an orders table with pairwise different order numbers and
without store errors, `AutoConfirmShippedOrders` rewrites the table row by row:
a row whose status is the shipped status and whose delivery time is present and
not later than the cut-off gets the delivered status and the confirmation time,
every other row is left as it is; the returned list is equal to the list of the
pairs of order number and owner id of the rewritten rows, one pair for each such
row, in the order of the table and with no order number twice, and is empty
when there are none.  The cut-off is `days` days before now when the duration
does not wrap; a row delivered exactly at the cut-off is rewritten.  When the
query or the update fails, the table is unchanged and the list is nil. -/
theorem AutoConfirmShippedOrders_exact (table : List Order) (now1 now2 : Time)
    (shippedStatus deliveredStatus daysThreshold : Int)
    (hnodup : (table.map (fun o => o.OrderNo)).Nodup) :
    let res := OrderDaoImpl.AutoConfirmShippedOrders table now1 now2 none none shippedStatus
      deliveredStatus daysThreshold
    let due := fun (o : Order) => o.Status = shippedStatus ∧
      ∃ deliveryTime, o.DeliveryTime = some deliveryTime ∧
        deliveryTime ≤ thresholdTime now1 daysThreshold
    res.err = none ∧
    (∃ f : Order → Order, res.table = table.map f ∧
      (∀ o, due o → f o = { o with Status := deliveredStatus, ConfirmTime := some now2 }) ∧
      (∀ o, ¬ due o → f o = o)) ∧
    (∀ p, p ∈ res.orderNos ↔
      ∃ o ∈ table, due o ∧ p = { OrderNo := o.OrderNo, UserID := o.UserID }) ∧
    ((∀ o ∈ table, ¬ due o) → res.orderNos = [] ∧ res.table = table) ∧
    (IsInt daysThreshold → IsInt (daysThreshold * 24 * Hour) →
      thresholdTime now1 daysThreshold = now1 - daysThreshold * 24 * Hour) ∧
    (∀ err updateErr, OrderDaoImpl.AutoConfirmShippedOrders table now1 now2 (some err)
        updateErr shippedStatus deliveredStatus daysThreshold =
        { table := table, orderNos := [], err := some err }) ∧
    (∀ err, (OrderDaoImpl.AutoConfirmShippedOrders table now1 now2 none (some err)
        shippedStatus deliveredStatus daysThreshold).table = table ∧
      (OrderDaoImpl.AutoConfirmShippedOrders table now1 now2 none (some err)
        shippedStatus deliveredStatus daysThreshold).orderNos = []) ∧
    (∀ o, isDueForConfirm shippedStatus (thresholdTime now1 daysThreshold) o = true ↔ due o) ∧
    res.orderNos =
      (table.filter (isDueForConfirm shippedStatus (thresholdTime now1 daysThreshold))).map
        (fun o => { OrderNo := o.OrderNo, UserID := o.UserID }) ∧
    res.table = table.map (fun o =>
      if isDueForConfirm shippedStatus (thresholdTime now1 daysThreshold) o then
        { o with Status := deliveredStatus, ConfirmTime := some now2 }
      else o) ∧
    res.orderNos.length =
      (table.filter (isDueForConfirm shippedStatus (thresholdTime now1 daysThreshold))).length ∧
    (res.orderNos.map (fun p => p.OrderNo)).Nodup ∧
    res.orderNos.Nodup := by
  intro res due
  have hrun := AutoConfirmShippedOrders_run table now1 now2 shippedStatus deliveredStatus
    daysThreshold hnodup
  have hdue : ∀ o, isDueForConfirm shippedStatus (thresholdTime now1 daysThreshold) o = true
      ↔ due o := fun o => isDueForConfirm_iff _ _ o
  have htable : res.table = table.map (fun order =>
      if isDueForConfirm shippedStatus (thresholdTime now1 daysThreshold) order then
        { order with Status := deliveredStatus, ConfirmTime := some now2 }
      else order) := congrArg AutoConfirmResult.table hrun
  have hlist : res.orderNos = (table.filter
      (isDueForConfirm shippedStatus (thresholdTime now1 daysThreshold))).map
        (fun order => { OrderNo := order.OrderNo, UserID := order.UserID }) :=
    congrArg AutoConfirmResult.orderNos hrun
  have hnos : (res.orderNos.map (fun p => p.OrderNo)).Nodup := by
    rw [hlist, List.map_map]
    exact hnodup.sublist (List.Sublist.map _ (List.filter_sublist _))
  refine ⟨congrArg AutoConfirmResult.err hrun, ⟨_, htable, ?_, ?_⟩, ?_, ?_, ?_, ?_, ?_,
    hdue, hlist, htable, by rw [hlist, List.length_map], hnos, List.Nodup.of_map _ hnos⟩
  · intro o ho
    simp only [(hdue o).mpr ho, if_true]
  · intro o ho
    have hf : ¬ isDueForConfirm shippedStatus (thresholdTime now1 daysThreshold) o = true :=
      fun h => ho ((hdue o).mp h)
    simp [hf]
  · intro p
    rw [hlist, List.mem_map]
    constructor
    · rintro ⟨o, ho, rfl⟩
      have hfo := List.mem_filter.mp ho
      exact ⟨o, hfo.1, (hdue o).mp hfo.2, rfl⟩
    · rintro ⟨o, ho, hd, rfl⟩
      exact ⟨o, List.mem_filter.mpr ⟨ho, (hdue o).mpr hd⟩, rfl⟩
  · intro hnone
    have hnil : table.filter (isDueForConfirm shippedStatus
        (thresholdTime now1 daysThreshold)) = [] := by
      apply List.filter_eq_nil_iff.mpr
      intro o ho h
      exact hnone o ho ((hdue o).mp h)
    refine ⟨by rw [hlist, hnil]; rfl, ?_⟩
    rw [htable]
    calc table.map (fun order =>
          if isDueForConfirm shippedStatus (thresholdTime now1 daysThreshold) order then
            { order with Status := deliveredStatus, ConfirmTime := some now2 }
          else order)
        = table.map id := List.map_congr_left (fun o ho => by
          have hf : ¬ isDueForConfirm shippedStatus (thresholdTime now1 daysThreshold) o
              = true := fun h => hnone o ho ((hdue o).mp h)
          simp [hf])
      _ = table := List.map_id _
  · intro h1 h2
    have hd : IsInt (-daysThreshold) := by
      unfold IsInt Hour at *
      omega
    have hd24 : IsInt (-daysThreshold * 24) := by
      unfold IsInt Hour at *
      omega
    have hdh : IsInt (-daysThreshold * 24 * Hour) := by
      unfold IsInt Hour at *
      omega
    unfold thresholdTime intMul intNeg
    rw [wrapInt_of_isInt hd, wrapInt_of_isInt hd24, wrapInt_of_isInt hdh]
    show (now1 : Int) + -daysThreshold * 24 * Hour = now1 - daysThreshold * 24 * Hour
    ring
  · intro err updateErr
    rfl
  · intro err
    unfold OrderDaoImpl.AutoConfirmShippedOrders
    simp only []
    split <;> exact ⟨rfl, rfl⟩

theorem AutoConfirmShippedOrders_exact_witness :
    (OrderDaoImpl.AutoConfirmShippedOrders sampleTable sampleNow sampleNow none none SHIPPED
      DELIVERED AUTO_CONFIRM_AFTER_DAYS).err = none ∧
    thresholdTime sampleNow AUTO_CONFIRM_AFTER_DAYS =
      sampleNow - AUTO_CONFIRM_AFTER_DAYS * 24 * Hour ∧
    (OrderDaoImpl.AutoConfirmShippedOrders sampleTable sampleNow sampleNow none none SHIPPED
      DELIVERED AUTO_CONFIRM_AFTER_DAYS).orderNos = [{ OrderNo := "A1", UserID := 1 }] ∧
    ((OrderDaoImpl.AutoConfirmShippedOrders sampleTable sampleNow sampleNow none none SHIPPED
      DELIVERED AUTO_CONFIRM_AFTER_DAYS).orderNos.map (fun p => p.OrderNo)).Nodup :=
  have h := AutoConfirmShippedOrders_exact sampleTable sampleNow sampleNow SHIPPED DELIVERED
    AUTO_CONFIRM_AFTER_DAYS (by decide)
  ⟨h.1, h.2.2.2.2.1 (by decide) (by decide), h.2.2.2.2.2.2.2.2.1.trans (by decide),
    h.2.2.2.2.2.2.2.2.2.2.2.1⟩

/-! ## Status writes -/

/-- Either `CreateOrder` fails before `order_created` is published, having
issued no status update, or it continues as `settleOrder` after an accepted
order row with status `CREATED`. -/
theorem CreateOrder_run_cases (w : Env) (orderInfo : OrderInfo) (userID : Int) :
    (∃ calls err, CreateOrder w orderInfo userID = ⟨calls, .returned ("", some err)⟩ ∧
      ∀ c ∈ calls, c.statusWritten = none) ∨
    (∃ amount orderMsg order rows,
      order.OrderNo = w.GenerateOrderID
        [Call.GetProductList (orderInfo.OrderItemList.map (fun item => item.ProductID))] ∧
      order.Status = CREATED ∧
      w.OrderCreate
        [Call.GetProductList (orderInfo.OrderItemList.map (fun item => item.ProductID))] order
        = none ∧
      CreateOrder w orderInfo userID =
        settleOrder w orderInfo userID order.OrderNo orderMsg amount
          (CalculateShippingFee amount) (CalculateTax amount)
          [Call.GetProductList (orderInfo.OrderItemList.map (fun item => item.ProductID)),
            Call.OrderCreate order, Call.CreateBatch rows,
            Call.SendMsg "order_created" order.OrderNo orderMsg]) := by
  have hnone : ∀ err, (CreateOrder w orderInfo userID).outcome = .returned ("", some err) →
      (∀ c ∈ (CreateOrder w orderInfo userID).calls, c.statusWritten = none) →
      (∃ calls err, CreateOrder w orderInfo userID = ⟨calls, .returned ("", some err)⟩ ∧
        ∀ c ∈ calls, c.statusWritten = none) := by
    intro err hout hcalls
    refine ⟨(CreateOrder w orderInfo userID).calls, err, ?_, hcalls⟩
    rw [← hout]
  cases hprod : w.GetProductList [] (orderInfo.OrderItemList.map (fun item => item.ProductID))
    with
  | error err =>
    exact Or.inl (hnone err
      (by simp only [CreateOrder, hprod])
      (by simp [CreateOrder, hprod, Call.statusWritten]))
  | ok products =>
    cases hck : checkStock (productId2StockMap products) orderInfo.OrderItemList 0 with
    | error err =>
      exact Or.inl (hnone err
        (by simp only [CreateOrder, hprod, hck])
        (by simp [CreateOrder, hprod, hck, Call.statusWritten]))
    | ok amount =>
      cases hcreate : w.OrderCreate
          [Call.GetProductList (orderInfo.OrderItemList.map (fun item => item.ProductID))]
          (newOrder (w.GenerateOrderID
            [Call.GetProductList (orderInfo.OrderItemList.map (fun item => item.ProductID))])
            userID orderInfo amount (CalculateShippingFee amount) (CalculateTax amount)
            (w.Now [Call.GetProductList
              (orderInfo.OrderItemList.map (fun item => item.ProductID))])) with
      | some err =>
        exact Or.inl (hnone err
          (by simp only [CreateOrder, hprod, hck, hcreate])
          (by simp [CreateOrder, hprod, hck, hcreate, Call.statusWritten]))
      | none =>
        cases hbatch : w.CreateBatch
            [Call.GetProductList (orderInfo.OrderItemList.map (fun item => item.ProductID)),
              Call.OrderCreate (newOrder (w.GenerateOrderID
                [Call.GetProductList
                  (orderInfo.OrderItemList.map (fun item => item.ProductID))])
                userID orderInfo amount (CalculateShippingFee amount) (CalculateTax amount)
                (w.Now [Call.GetProductList
                  (orderInfo.OrderItemList.map (fun item => item.ProductID))]))]
            (orderInfo.OrderItemList.map (newOrderProduct (w.GenerateOrderID
              [Call.GetProductList (orderInfo.OrderItemList.map (fun item => item.ProductID))])
              (w.Now [Call.GetProductList
                (orderInfo.OrderItemList.map (fun item => item.ProductID))]))) with
        | some err =>
          exact Or.inl (hnone err
            (by simp only [CreateOrder, hprod, hck, hcreate, List.cons_append,
              List.nil_append, hbatch])
            (by simp [CreateOrder, hprod, hck, hcreate, List.cons_append,
              List.nil_append, hbatch, Call.statusWritten]))
        | none =>
          cases hmsg : getOrderMsg w (w.GenerateOrderID
              [Call.GetProductList (orderInfo.OrderItemList.map (fun item => item.ProductID))])
              orderInfo userID with
          | mk orderMsg encErr =>
            cases encErr with
            | some err =>
              exact Or.inl (hnone err
                (by simp only [CreateOrder, hprod, hck, hcreate, List.cons_append,
                  List.nil_append, hbatch, hmsg])
                (by simp [CreateOrder, hprod, hck, hcreate, List.cons_append,
                  List.nil_append, hbatch, hmsg, Call.statusWritten]))
            | none =>
              cases hsend : w.SendMsg
                  [Call.GetProductList
                    (orderInfo.OrderItemList.map (fun item => item.ProductID)),
                    Call.OrderCreate (newOrder (w.GenerateOrderID
                      [Call.GetProductList
                        (orderInfo.OrderItemList.map (fun item => item.ProductID))])
                      userID orderInfo amount (CalculateShippingFee amount)
                      (CalculateTax amount)
                      (w.Now [Call.GetProductList
                        (orderInfo.OrderItemList.map (fun item => item.ProductID))])),
                    Call.CreateBatch (orderInfo.OrderItemList.map (newOrderProduct
                      (w.GenerateOrderID [Call.GetProductList
                        (orderInfo.OrderItemList.map (fun item => item.ProductID))])
                      (w.Now [Call.GetProductList
                        (orderInfo.OrderItemList.map (fun item => item.ProductID))])))]
                  "order_created" (w.GenerateOrderID [Call.GetProductList
                    (orderInfo.OrderItemList.map (fun item => item.ProductID))]) orderMsg with
              | some err =>
                exact Or.inl (hnone err
                  (by simp only [CreateOrder, hprod, hck, hcreate, List.cons_append,
                    List.nil_append, hbatch, hmsg, hsend])
                  (by simp [CreateOrder, hprod, hck, hcreate, List.cons_append,
                    List.nil_append, hbatch, hmsg, hsend, Call.statusWritten]))
              | none =>
                exact Or.inr ⟨amount, orderMsg, _, _, rfl, rfl, hcreate,
                  CreateOrder_eq_settleOrder w orderInfo userID products amount orderMsg
                    hprod hck hcreate hbatch hmsg hsend⟩

/-- A status update among the calls of `settleOrder` was issued before it or is
the update of the given order number to `PAYED`. -/
theorem settleOrder_statusWritten (w : Env) (orderInfo : OrderInfo) (userID : Int)
    (orderId orderMsg : String) (itemTotalAmount shippingFee tax : Int) (h : List Call)
    (c : Call) (s : Int)
    (hc : c ∈ (settleOrder w orderInfo userID orderId orderMsg itemTotalAmount shippingFee tax
      h).calls)
    (hs : c.statusWritten = some s) :
    c ∈ h ∨ ∃ payTime, c = Call.UpdateStatusAndPayment orderId PAYED payTime := by
  have hpre : c ∈ h ++ [Call.SendMsg "order_status_changed" orderId
      (getOrderStatusChangedMsg w orderId userID "Created" 1).1]
      ++ orderInfo.OrderItemList.map stockDecrement → c ∈ h := by
    intro hmem
    rcases List.mem_append.mp hmem with hmem | hmem
    · rcases List.mem_append.mp hmem with hmem | hmem
      · exact hmem
      · rw [List.mem_singleton.mp hmem] at hs
        cases hs
    · obtain ⟨it, _, rfl⟩ := List.mem_map.mp hmem
      cases hs
  cases hpay : w.PayOrder (h ++ [Call.SendMsg "order_status_changed" orderId
      (getOrderStatusChangedMsg w orderId userID "Created" 1).1]
      ++ orderInfo.OrderItemList.map stockDecrement) (toInt32 userID)
      (toInt32 (intAdd (intAdd itemTotalAmount shippingFee) tax)) orderId with
  | error err =>
    rw [settleOrder_pay_error w orderInfo userID orderId orderMsg itemTotalAmount shippingFee
      tax h err hpay] at hc
    rcases List.mem_append.mp hc with hc | hc
    · exact Or.inl (hpre hc)
    · rcases List.mem_cons.mp hc with hc | hc
      · rw [hc] at hs
        cases hs
      · rw [List.mem_singleton.mp hc] at hs
        cases hs
  | ok payResp =>
    by_cases hcode : payResp.Code = 0
    · rw [settleOrder_paid w orderInfo userID orderId orderMsg itemTotalAmount shippingFee
        tax h payResp hpay hcode] at hc
      split at hc
      · rcases List.mem_append.mp hc with hc | hc
        · exact Or.inl (hpre hc)
        · rcases List.mem_cons.mp hc with hc | hc
          · rw [hc] at hs
            cases hs
          · exact Or.inr ⟨_, List.mem_singleton.mp hc⟩
      · rcases List.mem_append.mp hc with hc | hc
        · exact Or.inl (hpre hc)
        · rcases List.mem_cons.mp hc with hc | hc
          · rw [hc] at hs
            cases hs
          · rcases List.mem_cons.mp hc with hc | hc
            · exact Or.inr ⟨_, hc⟩
            · rw [List.mem_singleton.mp hc] at hs
              cases hs
    · rw [settleOrder_pay_declined w orderInfo userID orderId orderMsg itemTotalAmount
        shippingFee tax h payResp hpay hcode] at hc
      rcases List.mem_append.mp hc with hc | hc
      · exact Or.inl (hpre hc)
      · rcases List.mem_cons.mp hc with hc | hc
        · rw [hc] at hs
          cases hs
        · rw [List.mem_singleton.mp hc] at hs
          cases hs

/-- With or without store errors, over a table of pairwise different order
numbers the bulk operation only touches rows that had the shipped status, and
gives them the delivered status. -/
theorem AutoConfirmShippedOrders_only_shipped (table : List Order) (now1 now2 : Time)
    (findErr updateErr : Option Error) (shippedStatus deliveredStatus daysThreshold : Int)
    (hnodup : (table.map (fun o => o.OrderNo)).Nodup) :
    ∃ f : Order → Order,
      (OrderDaoImpl.AutoConfirmShippedOrders table now1 now2 findErr updateErr shippedStatus
        deliveredStatus daysThreshold).table = table.map f ∧
      ∀ o, f o = o ∨ (o.Status = shippedStatus ∧ (f o).Status = deliveredStatus) := by
  have hid : ∃ f : Order → Order, table = table.map f ∧
      ∀ o, f o = o ∨ (o.Status = shippedStatus ∧ (f o).Status = deliveredStatus) :=
    ⟨id, (List.map_id _).symm, fun o => Or.inl rfl⟩
  cases findErr with
  | some err => exact hid
  | none =>
    cases updateErr with
    | some err =>
      unfold OrderDaoImpl.AutoConfirmShippedOrders
      simp only []
      split <;> exact hid
    | none =>
      rw [AutoConfirmShippedOrders_run table now1 now2 shippedStatus deliveredStatus
        daysThreshold hnodup]
      refine ⟨_, rfl, fun o => ?_⟩
      by_cases hp : isDueForConfirm shippedStatus (thresholdTime now1 daysThreshold) o = true
      · right
        simp only [hp, if_true]
        exact ⟨((isDueForConfirm_iff _ _ o).mp hp).1, trivial⟩
      · left
        simp [hp]

/-- C24: the status updates of the service go upward.  A status update issued
by `UpdateOrderStatus` targets the looked-up order, writes the requested status,
which is the stored status plus one and is `SHIPPED` or `DELIVERED`, hence not
`CANCELED`.  The only status update issued by `CreateOrder` writes `PAYED` under
the order number of the order row that the same run wrote with status `CREATED`
and that the store accepted.  The only status write of `OrderAutoConfirm` is the
bulk operation with the statuses `SHIPPED` and `DELIVERED`, and over a table of
pairwise different order numbers that operation touches only rows that had the
status `SHIPPED` and gives them the status `DELIVERED`. -/
theorem status_writes_ascend :
    (∀ (w : Env) (orderNo : String) (t : Int) (shippingNo : String) (c : Call) (s : Int),
      c ∈ (UpdateOrderStatus w orderNo t shippingNo).calls → c.statusWritten = some s →
      ∃ o, w.GetByOrderNo [] orderNo = .ok o ∧ s = t ∧ s = o.Status + 1 ∧
        (s = SHIPPED ∨ s = DELIVERED) ∧
        (w.CANCELED ≠ SHIPPED → w.CANCELED ≠ DELIVERED → s ≠ w.CANCELED) ∧
        ((∃ tm, c = Call.UpdateStatusWithDeliveryInfo orderNo s tm shippingNo) ∨
          (∃ tm, c = Call.UpdateStatusAndConfirmTime orderNo s tm))) ∧
    (∀ (w : Env) (orderInfo : OrderInfo) (userID : Int) (c : Call) (s : Int),
      c ∈ (CreateOrder w orderInfo userID).calls → c.statusWritten = some s →
      s = PAYED ∧ ∃ order payTime, c = Call.UpdateStatusAndPayment order.OrderNo PAYED payTime ∧
        Call.OrderCreate order ∈ (CreateOrder w orderInfo userID).calls ∧
        order.Status = CREATED ∧
        w.OrderCreate
          [Call.GetProductList (orderInfo.OrderItemList.map (fun item => item.ProductID))]
          order = none) ∧
    (∀ (w : Env) (c : Call) (s : Int),
      c ∈ (OrderAutoConfirm w).calls → c.statusWritten = some s →
      c = Call.AutoConfirmShippedOrders SHIPPED DELIVERED AUTO_CONFIRM_AFTER_DAYS ∧
        s = DELIVERED) ∧
    (∀ (table : List Order) (now1 now2 : Time) (findErr updateErr : Option Error)
      (daysThreshold : Int), (table.map (fun o => o.OrderNo)).Nodup →
      ∃ f : Order → Order,
        (OrderDaoImpl.AutoConfirmShippedOrders table now1 now2 findErr updateErr SHIPPED
          DELIVERED daysThreshold).table = table.map f ∧
        ∀ o, f o = o ∨ (o.Status = SHIPPED ∧ (f o).Status = DELIVERED)) ∧
    CREATED < PAYED ∧ PAYED < SHIPPED ∧ SHIPPED < DELIVERED := by
  refine ⟨?_, ?_, ?_, ?_, by decide, by decide, by decide⟩
  · intro w orderNo t shippingNo c s hc hs
    cases hget : w.GetByOrderNo [] orderNo with
    | error err =>
      rw [UpdateOrderStatus_lookup_error w orderNo t shippingNo err hget] at hc
      rw [List.mem_singleton.mp hc] at hs
      cases hs
    | ok o =>
      by_cases hcase : o.Status = intSub t 1
      · by_cases hd : t = DELIVERED
        · subst hd
          have hst : o.Status = SHIPPED := by rw [hcase]; decide
          rw [UpdateOrderStatus_delivered w orderNo shippingNo o hget hst] at hc
          have hmem : c = Call.GetByOrderNo orderNo ∨
              c = Call.UpdateStatusAndConfirmTime orderNo DELIVERED
                (w.Now [Call.GetByOrderNo orderNo]) ∨
              ∃ m, c = Call.SendMsg "order_status_changed" orderNo m := by
            split at hc
            · rcases List.mem_cons.mp hc with hc | hc
              · exact Or.inl hc
              · exact Or.inr (Or.inl (List.mem_singleton.mp hc))
            · rcases List.mem_cons.mp hc with hc | hc
              · exact Or.inl hc
              · rcases List.mem_cons.mp hc with hc | hc
                · exact Or.inr (Or.inl hc)
                · exact Or.inr (Or.inr ⟨_, List.mem_singleton.mp hc⟩)
          rcases hmem with hc | hc | ⟨m, hc⟩
          · rw [hc] at hs
            cases hs
          · rw [hc] at hs
            cases hs
            refine ⟨o, rfl, rfl, by rw [hst]; decide, Or.inr rfl, fun _ h2 h3 => h2 h3.symm,
              Or.inr ⟨_, hc⟩⟩
          · rw [hc] at hs
            cases hs
        · by_cases hsh : t = SHIPPED
          · subst hsh
            have hst : o.Status = PAYED := by rw [hcase]; decide
            rw [UpdateOrderStatus_shipped w orderNo shippingNo o hget hst] at hc
            have hmem : c = Call.GetByOrderNo orderNo ∨
                c = Call.UpdateStatusWithDeliveryInfo orderNo SHIPPED
                  (w.Now [Call.GetByOrderNo orderNo]) shippingNo ∨
                ∃ m, c = Call.SendMsg "order_status_changed" orderNo m := by
              split at hc
              · rcases List.mem_cons.mp hc with hc | hc
                · exact Or.inl hc
                · exact Or.inr (Or.inl (List.mem_singleton.mp hc))
              · rcases List.mem_cons.mp hc with hc | hc
                · exact Or.inl hc
                · rcases List.mem_cons.mp hc with hc | hc
                  · exact Or.inr (Or.inl hc)
                  · exact Or.inr (Or.inr ⟨_, List.mem_singleton.mp hc⟩)
            rcases hmem with hc | hc | ⟨m, hc⟩
            · rw [hc] at hs
              cases hs
            · rw [hc] at hs
              cases hs
              refine ⟨o, rfl, rfl, by rw [hst]; decide, Or.inl rfl, fun h1 _ h3 => h1 h3.symm,
                Or.inl ⟨_, hc⟩⟩
            · rw [hc] at hs
              cases hs
          · rw [UpdateOrderStatus_unsupported w orderNo t shippingNo o hget hcase hsh hd]
              at hc
            rw [List.mem_singleton.mp hc] at hs
            cases hs
      · rw [UpdateOrderStatus_invalid w orderNo t shippingNo o hget hcase] at hc
        rw [List.mem_singleton.mp hc] at hs
        cases hs
  · intro w orderInfo userID c s hc hs
    rcases CreateOrder_run_cases w orderInfo userID with
      ⟨calls, err, hrun, hnone⟩ | ⟨amount, orderMsg, order, rows, hno, hstatus, hcreate, hrun⟩
    · rw [hrun] at hc
      rw [hnone c hc] at hs
      cases hs
    · have hc2 := hc
      rw [hrun] at hc2
      rcases settleOrder_statusWritten w orderInfo userID _ orderMsg amount _ _ _ c s hc2 hs
        with hpre | ⟨payTime, hupd⟩
      · exfalso
        rcases List.mem_cons.mp hpre with h | h
        · rw [h] at hs
          cases hs
        · rcases List.mem_cons.mp h with h | h
          · rw [h] at hs
            cases hs
          · rcases List.mem_cons.mp h with h | h
            · rw [h] at hs
              cases hs
            · rw [List.mem_singleton.mp h] at hs
              cases hs
      · rw [hupd] at hs
        cases hs
        refine ⟨rfl, order, payTime, hupd, ?_, hstatus, hcreate⟩
        obtain ⟨tail, hcalls, _⟩ := settleOrder_calls w orderInfo userID order.OrderNo orderMsg
          amount (CalculateShippingFee amount) (CalculateTax amount)
          [Call.GetProductList (orderInfo.OrderItemList.map (fun item => item.ProductID)),
            Call.OrderCreate order, Call.CreateBatch rows,
            Call.SendMsg "order_created" order.OrderNo orderMsg]
        rw [hrun, hcalls]
        exact List.mem_append_left _ (List.mem_cons_of_mem _ (List.mem_cons_self _ _))
  · intro w c s hc hs
    unfold OrderAutoConfirm at hc
    simp only [publishAutoConfirmed_eq] at hc
    have hfm : ∀ list : List OrderNoAndUserId, c ∈ list.filterMap (fun order =>
        match getOrderStatusChangedMsg w order.OrderNo order.UserID
            "Shipped --> AutoConfirmed" DELIVERED with
        | (_, some _) => none
        | (oscMsg, none) => some (Call.SendMsg "order_status_changed" order.OrderNo oscMsg))
        → False := by
      intro list hmem
      obtain ⟨o, _, ho⟩ := List.mem_filterMap.mp hmem
      split at ho
      · cases ho
      · cases ho
        cases hs
    split at hc
    · rw [List.mem_singleton.mp hc] at hs
      cases hs
    · split at hc
      · simp only [List.mem_append, List.mem_singleton, List.mem_cons, List.not_mem_nil,
          or_false] at hc
        rcases hc with (hc | hc) | hc
        · rw [hc] at hs
          cases hs
        · rw [hc] at hs
          cases hs
          exact ⟨hc, rfl⟩
        · rw [hc] at hs
          cases hs
      · simp only [List.mem_append, List.mem_singleton, List.mem_cons, List.not_mem_nil,
          or_false] at hc
        rcases hc with ((hc | hc) | hc) | hc
        · rw [hc] at hs
          cases hs
        · rw [hc] at hs
          cases hs
          exact ⟨hc, rfl⟩
        · exact (hfm _ hc).elim
        · rw [hc] at hs
          cases hs
  · intro table now1 now2 findErr updateErr daysThreshold hnodup
    exact AutoConfirmShippedOrders_only_shipped table now1 now2 findErr updateErr SHIPPED
      DELIVERED daysThreshold hnodup

theorem status_writes_ascend_witness :
    (∃ o, sampleEnv.GetByOrderNo [] "TEST001" = .ok o ∧ SHIPPED = o.Status + 1) ∧
    (∃ f : Order → Order,
      (OrderDaoImpl.AutoConfirmShippedOrders sampleTable sampleNow sampleNow none none SHIPPED
        DELIVERED AUTO_CONFIRM_AFTER_DAYS).table = sampleTable.map f ∧
      ∀ o, f o = o ∨ (o.Status = SHIPPED ∧ (f o).Status = DELIVERED)) :=
  have h := status_writes_ascend.1 sampleEnv "TEST001" SHIPPED "SF12345"
    (Call.UpdateStatusWithDeliveryInfo "TEST001" SHIPPED 1 "SF12345") SHIPPED
    (List.mem_cons_of_mem _ (List.mem_cons_self _ _)) rfl
  ⟨h.elim fun o ho => ⟨o, ho.1, ho.2.2.1⟩,
    status_writes_ascend.2.2.2.1 sampleTable sampleNow sampleNow none none
      AUTO_CONFIRM_AFTER_DAYS (by decide)⟩

end OrderService
